import Mathlib

/-!
goserver: outbound client subsystem

A shallow embedding of the token cache (`utils/gsclient/token.go`,
`utils/gsclient/oauth.go`), of the response and request decoders
(`utils/gsvalidation/validation.go`), of the client registry and the request
builders (`utils/gsclient/client.go`), of the transports
(`utils/gsclient/oauth_transport.go`, `utils/gsmiddleware`), of the logger
(`utils/gslog`) and of `service.CreateUser`, followed by the properties
established about them.

Conventions of the embedding

* `time.Time` is an integer count of nanoseconds of wall-clock time since the
  zero instant (January 1, year 1, 00:00:00 UTC).  Go keeps seconds in an
  `int64` and saturates it; every instant used here is assumed to lie in the
  range where that counter does not saturate, so `Time.Add` is exact.
* `time.Duration` is an `int64` nanosecond count: arithmetic on durations is
  reduced with `wrapInt64`.
* Go `int` is taken to be 64 bits wide.
* A nil pointer is `none`; a Go `error` is `Option String` carrying the text of
  `Error()`.
-/

namespace Goserver

/-! ## Machine integers -/

/-- Two's-complement reduction of an integer to the `int64` range. -/
def wrapInt64 (x : Int) : Int := (x + 2 ^ 63) % 2 ^ 64 - 2 ^ 63

/-- The values an `int64` can hold. -/
def isInt64 (x : Int) : Prop := -(2 ^ 63) ≤ x ∧ x < 2 ^ 63

instance (x : Int) : Decidable (isInt64 x) := by unfold isInt64; infer_instance

/-! ## `time` -/

/-- Wall-clock instant, in nanoseconds since the zero `time.Time`. -/
abbrev Time := Int

/-- Nanosecond count of a `time.Duration` (an `int64`). -/
abbrev Duration := Int

/-- The constant `time.Second`. -/
def Second : Duration := 1000000000

/-- Unary minus on a `time.Duration`. -/
def Duration.neg (d : Duration) : Duration := wrapInt64 (-d)

/-- Product of two `time.Duration` values. -/
def Duration.mul (a b : Duration) : Duration := wrapInt64 (a * b)

/-- The method `Time.IsZero`. -/
def Time.IsZero (t : Time) : Bool := decide (t = 0)

/-- The method `Time.Round` at `d = 0`: only the monotonic reading is dropped. -/
def Time.Round0 (t : Time) : Time := t

/-- The method `Time.Add`. -/
def Time.Add (t : Time) (d : Duration) : Time := t + d

/-- The method `Time.Before`: strictly earlier. -/
def Time.Before (t u : Time) : Bool := decide (t < u)

/-! ## `gsclient/token.go` -/

/-- The constant `defaultExpiryDelta = 60 * time.Second`. -/
def defaultExpiryDelta : Duration := 60 * Second

/-- The struct `Token`. -/
structure Token where
  TokenType : String
  AccessToken : String
  CreationTime : Time
  Expiry : Time
  expiryDelta : Duration
  deriving DecidableEq, Repr

/-- The struct `TokenCDO`. -/
structure TokenCDO where
  TokenType : String
  AccessToken : String
  ExpiresIn : Int
  deriving DecidableEq, Repr

/-- The method `(*Token).expired`, with `now` the reading of `time.Now()`. -/
def Token.expired (t : Token) (now : Time) : Bool :=
  if Time.IsZero t.Expiry then false
  else Time.Before (Time.Add (Time.Round0 t.Expiry) (Duration.neg t.expiryDelta)) now

/-- The method `(*Token).Valid`; the receiver may be nil. -/
def Token.Valid (t : Option Token) (now : Time) : Bool :=
  match t with
  | none => false
  | some t => t.AccessToken != "" && !t.expired now

/-! ## `encoding/json`

The fragment of `json.Unmarshal` that the decoders of this repository exercise:
the JSON grammar in full, and decoding into structs whose fields are strings
and integers.  A body is the list of the characters of its text, sent in UTF-8:
a character takes `Char.utf8Size` bytes, and the offsets that the scanner
reports count bytes.  Outside string literals only ASCII characters are
accepted, and the scanner rejects any other character at its first byte.
-/

/-- Errors returned by `json.Unmarshal`: `*json.SyntaxError` and
`*json.UnmarshalTypeError`. -/
inductive JsonError
  | syntaxError (msg : String) (offset : Nat)
  | unmarshalType (value : String) (typ : String) (offset : Nat) (strct : String)
      (field : String)
  deriving DecidableEq, Repr

/-- The method `Error()` of the two error types. -/
def JsonError.Error : JsonError → String
  | .syntaxError msg _ => msg
  | .unmarshalType value typ _ strct field =>
    if strct != "" || field != "" then
      "json: cannot unmarshal " ++ value ++ " into Go struct field " ++ strct ++ "."
        ++ field ++ " of type " ++ typ
    else
      "json: cannot unmarshal " ++ value ++ " into Go value of type " ++ typ

/-- A parsed JSON value.  `off` is the read offset the decoder reports in a type
error raised at this value: the end of a literal, or the position just after
the opening bracket of an array or object. -/
inductive JValue
  | null (off : Nat)
  | bool (b : Bool) (off : Nat)
  | number (lit : List Char) (off : Nat)
  | string (s : List Char) (off : Nat)
  | array (items : List JValue) (off : Nat)
  | object (members : List (List Char × JValue)) (off : Nat)

/-- The limit `maxNestingDepth` of the scanner. -/
def maxNestingDepth : Nat := 10000

/-- The apostrophe, used when rendering error texts. -/
def apostrophe : String := String.mk [Char.ofNat 39]

/-- The function `quoteChar` of the scanner, for printable characters (control
characters are left as they are, where Go writes an escape). -/
def quoteChar (c : Char) : String :=
  if c = Char.ofNat 39 then apostrophe ++ "\\" ++ apostrophe ++ apostrophe
  else if c = '\\' then apostrophe ++ "\\\\" ++ apostrophe
  else apostrophe ++ String.mk [c] ++ apostrophe

/-- The scanner reports an offending character `c` read as byte number `pos + 1`. -/
def invalidChar (c : Char) (pos : Nat) (context : String) : JsonError :=
  .syntaxError ("invalid character " ++ quoteChar c ++ " " ++ context) (pos + 1)

/-- The scanner reports that the input ended inside a value, after `pos` bytes. -/
def unexpectedEnd (pos : Nat) : JsonError :=
  .syntaxError "unexpected end of JSON input" pos

/-- The function `isSpace` of the scanner. -/
def isSpace (c : Char) : Bool :=
  c = ' ' || c = '\t' || c = '\r' || c = '\n'

/-- Skip blanks, counting the bytes read. -/
def skipSpace : List Char → Nat → List Char × Nat
  | [], pos => ([], pos)
  | c :: cs, pos => if isSpace c then skipSpace cs (pos + 1) else (c :: cs, pos)

/-- Decimal digit test. -/
def isDigit (c : Char) : Bool := decide ('0' ≤ c) && decide (c ≤ '9')

/-- Value of a hexadecimal digit, if it is one. -/
def hexVal (c : Char) : Option Nat :=
  if decide ('0' ≤ c) && decide (c ≤ '9') then some (c.toNat - 48)
  else if decide ('a' ≤ c) && decide (c ≤ 'f') then some (c.toNat - 87)
  else if decide ('A' ≤ c) && decide (c ≤ 'F') then some (c.toNat - 55)
  else none

/-- The longest run of digits at the head of the input. -/
def takeDigits : List Char → List Char × List Char
  | [] => ([], [])
  | c :: cs =>
    if isDigit c then (c :: (takeDigits cs).1, (takeDigits cs).2) else ([], c :: cs)

/-- Four hexadecimal digits of a `\u` escape: their value and the rest of the
input, or the scanner error. -/
def scanHex4 (cs : List Char) (pos : Nat) : Except JsonError (Nat × List Char) :=
  match cs with
  | a :: b :: c :: d :: rest =>
    match hexVal a, hexVal b, hexVal c, hexVal d with
    | some x, some y, some z, some w => .ok (((x * 16 + y) * 16 + z) * 16 + w, rest)
    | none, _, _, _ => .error (invalidChar a pos "in \\u hexadecimal character escape")
    | _, none, _, _ => .error (invalidChar b (pos + 1) "in \\u hexadecimal character escape")
    | _, _, none, _ => .error (invalidChar c (pos + 2) "in \\u hexadecimal character escape")
    | _, _, _, none => .error (invalidChar d (pos + 3) "in \\u hexadecimal character escape")
  | [a, b, c] =>
    match hexVal a, hexVal b, hexVal c with
    | some _, some _, some _ => .error (unexpectedEnd (pos + 3))
    | none, _, _ => .error (invalidChar a pos "in \\u hexadecimal character escape")
    | _, none, _ => .error (invalidChar b (pos + 1) "in \\u hexadecimal character escape")
    | _, _, none => .error (invalidChar c (pos + 2) "in \\u hexadecimal character escape")
  | [a, b] =>
    match hexVal a, hexVal b with
    | some _, some _ => .error (unexpectedEnd (pos + 2))
    | none, _ => .error (invalidChar a pos "in \\u hexadecimal character escape")
    | _, none => .error (invalidChar b (pos + 1) "in \\u hexadecimal character escape")
  | [a] =>
    match hexVal a with
    | some _ => .error (unexpectedEnd (pos + 1))
    | none => .error (invalidChar a pos "in \\u hexadecimal character escape")
  | [] => .error (unexpectedEnd pos)

/-- One unit of a string literal: a character, or the code of a `\u` escape. -/
inductive StrUnit
  | ch (c : Char)
  | esc (code : Nat)

/-- The single-character escapes of a string literal. -/
def simpleEscape (c : Char) : Option Char :=
  if c = '"' then some '"'
  else if c = '\\' then some '\\'
  else if c = '/' then some '/'
  else if c = 'b' then some (Char.ofNat 8)
  else if c = 'f' then some (Char.ofNat 12)
  else if c = 'n' then some '\n'
  else if c = 'r' then some '\r'
  else if c = 't' then some '\t'
  else none

/-- Scan a string literal whose opening quote has been read: its units, the rest
of the input and the bytes read so far. -/
def scanString : List Char → Nat → List StrUnit →
    Except JsonError (List StrUnit × List Char × Nat)
  | [], pos, _ => .error (unexpectedEnd pos)
  | c :: rest, pos, acc =>
    if c = '"' then .ok (acc.reverse, rest, pos + 1)
    else if c = '\\' then
      match rest with
      | [] => .error (unexpectedEnd (pos + 1))
      | e :: rest2 =>
        if e = 'u' then
          match rest2, scanHex4 rest2 (pos + 2) with
          | _ :: _ :: _ :: _ :: rest3, .ok (code, _) =>
            scanString rest3 (pos + 6) (.esc code :: acc)
          | _, .error err => .error err
          | _, .ok _ => .error (unexpectedEnd (pos + 2))
        else
          match simpleEscape e with
          | some x => scanString rest2 (pos + 2) (.ch x :: acc)
          | none => .error (invalidChar e (pos + 1) "in string escape code")
    else if c.toNat < 32 then .error (invalidChar c pos "in string literal")
    else scanString rest (pos + c.utf8Size) (.ch c :: acc)

/-- The Unicode replacement character. -/
def replacementChar : Char := Char.ofNat 0xFFFD

/-- One `\u` escape that is not the first half of a valid surrogate pair. -/
def escChar (code : Nat) : Char :=
  if 0xD800 ≤ code ∧ code < 0xE000 then replacementChar else Char.ofNat code

/-- Turn the units of a literal into its characters, as `unquote` does: a high
surrogate escape directly followed by a low surrogate escape is one character,
any other surrogate escape is the replacement character. -/
def combineUnits : List StrUnit → List Char
  | [] => []
  | .ch c :: rest => c :: combineUnits rest
  | .esc r1 :: .esc r2 :: rest =>
    if 0xD800 ≤ r1 ∧ r1 < 0xDC00 ∧ 0xDC00 ≤ r2 ∧ r2 < 0xE000 then
      Char.ofNat ((r1 - 0xD800) * 1024 + (r2 - 0xDC00) + 0x10000) :: combineUnits rest
    else escChar r1 :: combineUnits (.esc r2 :: rest)
  | .esc r1 :: rest => escChar r1 :: combineUnits rest

/-- Scan the exponent of a number, the `e` having been read. -/
def scanExponent (lit : List Char) (cs : List Char) (pos : Nat) :
    Except JsonError (List Char × List Char × Nat) :=
  let signed : List Char × List Char × Nat :=
    match cs with
    | c :: rest => if c = '+' ∨ c = '-' then (lit ++ [c], rest, pos + 1) else (lit, cs, pos)
    | [] => (lit, cs, pos)
  match signed.2.1 with
  | [] => .error (unexpectedEnd signed.2.2)
  | c :: _ =>
    if isDigit c then
      let ds := takeDigits signed.2.1
      .ok (signed.1 ++ ds.1, ds.2, signed.2.2 + ds.1.length)
    else .error (invalidChar c signed.2.2 "in exponent of numeric literal")

/-- Scan what may follow the integer part of a number: fraction and exponent. -/
def scanFraction (lit : List Char) (cs : List Char) (pos : Nat) :
    Except JsonError (List Char × List Char × Nat) :=
  match cs with
  | '.' :: rest =>
    match rest with
    | [] => .error (unexpectedEnd (pos + 1))
    | c :: _ =>
      if isDigit c then
        let ds := takeDigits rest
        match ds.2 with
        | e :: rest2 =>
          if e = 'e' ∨ e = 'E' then
            scanExponent (lit ++ ['.'] ++ ds.1 ++ [e]) rest2 (pos + 1 + ds.1.length + 1)
          else .ok (lit ++ ['.'] ++ ds.1, ds.2, pos + 1 + ds.1.length)
        | [] => .ok (lit ++ ['.'] ++ ds.1, ds.2, pos + 1 + ds.1.length)
      else .error (invalidChar c (pos + 1) "after decimal point in numeric literal")
  | e :: rest =>
    if e = 'e' ∨ e = 'E' then scanExponent (lit ++ [e]) rest (pos + 1)
    else .ok (lit, cs, pos)
  | [] => .ok (lit, cs, pos)

/-- Scan the integer part of a number, an optional minus sign having been read. -/
def scanInteger (lit : List Char) (cs : List Char) (pos : Nat) :
    Except JsonError (List Char × List Char × Nat) :=
  match cs with
  | [] => .error (unexpectedEnd pos)
  | c :: rest =>
    if c = '0' then scanFraction (lit ++ [c]) rest (pos + 1)
    else if isDigit c then
      let ds := takeDigits cs
      scanFraction (lit ++ ds.1) ds.2 (pos + ds.1.length)
    else .error (invalidChar c pos "in numeric literal")

/-- Scan the rest of one of the literals `true`, `false`, `null`. -/
def scanLiteral (name : String) : List Char → List Char → Nat →
    Except JsonError (List Char × Nat)
  | [], cs, pos => .ok (cs, pos)
  | _ :: _, [], pos => .error (unexpectedEnd pos)
  | e :: es, c :: rest, pos =>
    if c = e then scanLiteral name es rest (pos + 1)
    else .error (invalidChar c pos
      ("in literal " ++ name ++ " (expecting " ++ apostrophe ++ String.mk [e] ++ apostrophe
        ++ ")"))

/-- The character that opens an object. -/
def openBrace : Char := Char.ofNat 123

/-- The character that closes an object. -/
def closeBrace : Char := Char.ofNat 125

mutual
/-- Parse one JSON value.  `depth` counts the arrays and objects already open;
`fuel` bounds the recursion and is never exhausted when it exceeds twice the
length of the input (see `parseJSON`). -/
def parseValue (fuel depth : Nat) (cs : List Char) (pos : Nat) :
    Except JsonError (JValue × List Char × Nat) :=
  match fuel with
  | 0 => .error (unexpectedEnd pos)
  | fuel + 1 =>
    match skipSpace cs pos with
    | ([], p) => .error (unexpectedEnd p)
    | (c :: rest, p) =>
      if c = openBrace then
        if depth + 1 > maxNestingDepth then .error (invalidChar c p "exceeded max depth")
        else
          match skipSpace rest (p + 1) with
          | ([], q) => .error (unexpectedEnd q)
          | (d :: rest2, q) =>
            if d = closeBrace then .ok (.object [] (p + 1), rest2, q + 1)
            else parseMembers fuel (depth + 1) (d :: rest2) q [] (p + 1)
      else if c = '[' then
        if depth + 1 > maxNestingDepth then .error (invalidChar c p "exceeded max depth")
        else
          match skipSpace rest (p + 1) with
          | ([], q) => .error (unexpectedEnd q)
          | (d :: rest2, q) =>
            if d = ']' then .ok (.array [] (p + 1), rest2, q + 1)
            else parseElems fuel (depth + 1) (d :: rest2) q [] (p + 1)
      else if c = '"' then
        match scanString rest (p + 1) [] with
        | .error e => .error e
        | .ok (us, rest2, q) => .ok (.string (combineUnits us) q, rest2, q)
      else if c = '-' then
        match scanInteger [c] rest (p + 1) with
        | .error e => .error e
        | .ok (lit, rest2, q) => .ok (.number lit q, rest2, q)
      else if isDigit c then
        match scanInteger [] (c :: rest) p with
        | .error e => .error e
        | .ok (lit, rest2, q) => .ok (.number lit q, rest2, q)
      else if c = 't' then
        match scanLiteral "true" ['r', 'u', 'e'] rest (p + 1) with
        | .error e => .error e
        | .ok (rest2, q) => .ok (.bool true q, rest2, q)
      else if c = 'f' then
        match scanLiteral "false" ['a', 'l', 's', 'e'] rest (p + 1) with
        | .error e => .error e
        | .ok (rest2, q) => .ok (.bool false q, rest2, q)
      else if c = 'n' then
        match scanLiteral "null" ['u', 'l', 'l'] rest (p + 1) with
        | .error e => .error e
        | .ok (rest2, q) => .ok (.null q, rest2, q)
      else .error (invalidChar c p "looking for beginning of value")
termination_by structural fuel
/-- Parse the elements of an array up to its closing bracket; the input stands
at the beginning of an element. -/
def parseElems (fuel depth : Nat) (cs : List Char) (pos : Nat) (acc : List JValue)
    (off : Nat) : Except JsonError (JValue × List Char × Nat) :=
  match fuel with
  | 0 => .error (unexpectedEnd pos)
  | fuel + 1 =>
    match parseValue fuel depth cs pos with
    | .error e => .error e
    | .ok (v, rest, p) =>
      match skipSpace rest p with
      | ([], q) => .error (unexpectedEnd q)
      | (c :: rest2, q) =>
        if c = ',' then parseElems fuel depth rest2 (q + 1) (v :: acc) off
        else if c = ']' then .ok (.array (v :: acc).reverse off, rest2, q + 1)
        else .error (invalidChar c q "after array element")
termination_by structural fuel
/-- Parse the members of an object up to its closing brace; the input stands at
the beginning of a key. -/
def parseMembers (fuel depth : Nat) (cs : List Char) (pos : Nat)
    (acc : List (List Char × JValue)) (off : Nat) :
    Except JsonError (JValue × List Char × Nat) :=
  match fuel with
  | 0 => .error (unexpectedEnd pos)
  | fuel + 1 =>
    match skipSpace cs pos with
    | ([], p) => .error (unexpectedEnd p)
    | (c :: rest, p) =>
      if c = '"' then
        match scanString rest (p + 1) [] with
        | .error e => .error e
        | .ok (us, rest2, q) =>
          match skipSpace rest2 q with
          | ([], r) => .error (unexpectedEnd r)
          | (d :: rest3, r) =>
            if d = ':' then
              match parseValue fuel depth rest3 (r + 1) with
              | .error e => .error e
              | .ok (v, rest4, t) =>
                match skipSpace rest4 t with
                | ([], u) => .error (unexpectedEnd u)
                | (x :: rest5, u) =>
                  if x = ',' then
                    parseMembers fuel depth rest5 (u + 1) ((combineUnits us, v) :: acc) off
                  else if x = closeBrace then
                    .ok (.object ((combineUnits us, v) :: acc).reverse off, rest5, u + 1)
                  else .error (invalidChar x u "after object key:value pair")
            else .error (invalidChar d r "after object key")
      else .error (invalidChar c p "looking for beginning of object key string")
termination_by structural fuel
end

/-- The validity check and parse that `json.Unmarshal` performs on its input
before it stores anything: a single value, blanks allowed around it.  The fuel
`2 * length + 2` suffices: a value is parsed with more than twice its input
length, and every recursive call has read at least one character for every
unit of fuel it has spent beyond the first. -/
def parseJSON (data : List Char) : Except JsonError JValue :=
  match parseValue (2 * data.length + 2) 0 data 0 with
  | .error e => .error e
  | .ok (v, rest, p) =>
    match skipSpace rest p with
    | ([], _) => .ok v
    | (c :: _, q) => .error (invalidChar c q "after top-level value")

/-! ### Storing a parsed value into a struct -/

/-- The integer a number literal denotes for an `int` field, as
`strconv.ParseInt(lit, 10, 64)` reads it: an optional minus sign and digits
only, within the `int64` range. -/
def parseInt64 (lit : List Char) : Option Int :=
  let digits := match lit with
    | '-' :: ds => ds
    | ds => ds
  if digits = [] ∨ ¬ digits.all isDigit then none
  else
    let n : Nat := digits.foldl (fun a c => 10 * a + (c.toNat - 48)) 0
    let v : Int := match lit with
      | '-' :: _ => -(n : Int)
      | _ => (n : Int)
    if -(2 ^ 63) ≤ v ∧ v < 2 ^ 63 then some v else none

/-- How a field of a struct of type `α` is read and written, by kind. -/
inductive FieldAccess (α : Type)
  | str (get : α → String) (set : α → String → α)
  | int (get : α → Int) (set : α → Int → α)

/-- The value of a field, as the validator sees it. -/
inductive FieldValue
  | str (s : String)
  | int (n : Int)
  deriving DecidableEq, Repr

/-- The tags of `go-playground/validator` that the structs of this repository
carry.  `other` is any further tag, given by its name and its check. -/
inductive Tag
  | required
  | omitempty
  | number
  | gte (n : Int)
  | lte (n : Int)
  | other (name : String) (check : FieldValue → Bool)

/-- One exported field of a struct: its Go name, the name in its `json` tag, its
accessors and its `validate` tags in the order written. -/
structure FieldSpec (α : Type) where
  goName : String
  jsonName : String
  access : FieldAccess α
  validateTags : List Tag

/-- The reflection data of a struct type: package, name and fields. -/
structure StructType (α : Type) where
  pkg : String
  name : String
  fields : List (FieldSpec α)

/-- Case folding of object keys: ASCII letters to upper case, and the two
non-ASCII characters that fold to ASCII letters (Kelvin sign, long s). -/
def foldChar (c : Char) : Char :=
  if decide ('a' ≤ c) && decide (c ≤ 'z') then Char.ofNat (c.toNat - 32)
  else if c = Char.ofNat 0x212A then 'K'
  else if c = Char.ofNat 0x17F then 'S'
  else c

/-- The field a key of an object selects: the field whose JSON name is the key
exactly, else the first field whose name matches up to case. -/
def findField {α : Type} (fields : List (FieldSpec α)) (key : List Char) :
    Option (FieldSpec α) :=
  match fields.find? (fun f => f.jsonName.data == key) with
  | some f => some f
  | none => fields.find? (fun f => f.jsonName.data.map foldChar == key.map foldChar)

/-- The name of the kind of a JSON value in a type error, and the offset. -/
def JValue.describe : JValue → String × Nat
  | .null off => ("null", off)
  | .bool _ off => ("bool", off)
  | .number _ off => ("number", off)
  | .string _ off => ("string", off)
  | .array _ off => ("array", off)
  | .object _ off => ("object", off)

/-- Store a parsed value into one field.  `null` leaves the field as it is; a
value of the wrong kind leaves it as it is and raises a type error. -/
def storeField {α : Type} (st : StructType α) (f : FieldSpec α) (v : α) (j : JValue) :
    α × Option JsonError :=
  match f.access, j with
  | _, .null _ => (v, none)
  | .str _ set, .string s _ => (set v (String.mk s), none)
  | .str _ _, j =>
    (v, some (.unmarshalType j.describe.1 "string" j.describe.2 st.name f.jsonName))
  | .int _ set, .number lit off =>
    match parseInt64 lit with
    | some n => (set v n, none)
    | none => (v, some (.unmarshalType ("number " ++ String.mk lit) "int" off st.name f.jsonName))
  | .int _ _, j =>
    (v, some (.unmarshalType j.describe.1 "int" j.describe.2 st.name f.jsonName))

/-- Store the members of an object into a struct, in order.  Keys that select no
field are skipped; the first type error is kept and decoding goes on. -/
def decodeMembers {α : Type} (st : StructType α) :
    List (List Char × JValue) → α → Option JsonError → α × Option JsonError
  | [], v, err => (v, err)
  | (k, j) :: ms, v, err =>
    match findField st.fields k with
    | none => decodeMembers st ms v err
    | some f =>
      let r := storeField st f v j
      decodeMembers st ms r.1 (match err with | some e => some e | none => r.2)

/-- Store a parsed value into a struct: an object member by member, `null`
without effect, anything else a type error. -/
def decodeStruct {α : Type} (st : StructType α) (j : JValue) (v : α) : α × Option JsonError :=
  match j with
  | .object ms _ => decodeMembers st ms v none
  | .null _ => (v, none)
  | j => (v, some (.unmarshalType j.describe.1 (st.pkg ++ "." ++ st.name) j.describe.2 "" ""))

/-- The call `json.Unmarshal(data, &v)` for `v` of a struct type: the value
afterwards and the error.  Input that is not valid JSON leaves `v` untouched. -/
def jsonUnmarshalStruct {α : Type} (st : StructType α) (data : List Char) (v : α) :
    α × Option JsonError :=
  match parseJSON data with
  | .error e => (v, some e)
  | .ok j => decodeStruct st j v

/-! ## `go-playground/validator` -/

/-- One `validator.FieldError`: namespace, field name and failed tag. -/
structure FieldError where
  ns : String
  field : String
  tag : String
  deriving DecidableEq, Repr

/-- The method `Error()` of a field error. -/
def FieldError.Error (fe : FieldError) : String :=
  "Key: " ++ apostrophe ++ fe.ns ++ apostrophe ++ " Error:Field validation for "
    ++ apostrophe ++ fe.field ++ apostrophe ++ " failed on the " ++ apostrophe ++ fe.tag
    ++ apostrophe ++ " tag"

/-- What `validate.Struct` returns: nil, an `*InvalidValidationError` (the value
is not a struct), or a non-empty `ValidationErrors`. -/
inductive ValidateResult
  | valid
  | invalidValidation
  | failed (errs : List FieldError)
  deriving DecidableEq, Repr

/-- The value of a field of `v`. -/
def FieldAccess.value {α : Type} (a : FieldAccess α) (v : α) : FieldValue :=
  match a with
  | .str get _ => .str (get v)
  | .int get _ => .int (get v)

/-- The validator's `hasValue`: the field is not the zero value of its type. -/
def FieldValue.hasValue : FieldValue → Bool
  | .str s => s != ""
  | .int n => n != 0

/-- The name under which a tag is reported. -/
def Tag.name : Tag → String
  | .required => "required"
  | .omitempty => "omitempty"
  | .number => "number"
  | .gte _ => "gte"
  | .lte _ => "lte"
  | .other name _ => name

/-- Whether a field value passes a tag.  On a string `gte` and `lte` bound the
number of characters and `number` asks for digits only. -/
def Tag.holds (t : Tag) (fv : FieldValue) : Bool :=
  match t, fv with
  | .required, fv => fv.hasValue
  | .omitempty, _ => true
  | .number, .int _ => true
  | .number, .str s => s.data != [] && s.data.all isDigit
  | .gte n, .int m => decide (n ≤ m)
  | .gte n, .str s => decide (n ≤ (s.data.length : Int))
  | .lte n, .int m => decide (m ≤ n)
  | .lte n, .str s => decide ((s.data.length : Int) ≤ n)
  | .other _ check, fv => check fv

/-- Run the tags of one field in order: the name of the first tag that fails.
`omitempty` ends the run when the field has no value. -/
def checkTags (fv : FieldValue) : List Tag → Option String
  | [] => none
  | .omitempty :: ts => if fv.hasValue then checkTags fv ts else none
  | t :: ts => if t.holds fv then checkTags fv ts else some t.name

/-- The field errors of a struct value, in field order. -/
def fieldErrors {α : Type} (st : StructType α) (v : α) : List FieldError :=
  st.fields.filterMap (fun f =>
    match checkTags (f.access.value v) f.validateTags with
    | none => none
    | some tag => some ⟨st.name ++ "." ++ f.goName, f.goName, tag⟩)

/-- The call `validate.Struct(&v)` for `v` of a struct type. -/
def validateStruct {α : Type} (st : StructType α) (v : α) : ValidateResult :=
  match fieldErrors st v with
  | [] => .valid
  | e :: es => .failed (e :: es)

/-- What the decoders know of the dynamic type of a destination `&v`: how
`json.Unmarshal` stores into it and what `validate.Struct` reports for it. -/
structure Dest (α : Type) where
  unmarshal : List Char → α → α × Option JsonError
  validate : α → ValidateResult

/-- The destination that points to a struct. -/
def StructType.dest {α : Type} (st : StructType α) : Dest α :=
  ⟨jsonUnmarshalStruct st, validateStruct st⟩

/-! ## `gsvalidation/validation.go` -/

/-- The type `ResponseType` and its four constants. -/
inductive ResponseType
  | OK_RESPONSE
  | ERR_RESPONSE
  | DECODING_ERROR
  | VALIDATION_ERROR
  deriving DecidableEq, Repr

/-- The function `FlatErrors`: the text of the error it builds. -/
def FlatErrors (e : List FieldError) : String :=
  e.foldl (fun msg err =>
    let errMsg := err.Error
    if msg == "" then errMsg else msg ++ "; " ++ errMsg) ""

/-- The function `Struct`: nil, or the text of the error. -/
def Struct {α : Type} (ty : Dest α) (v : α) : Option String :=
  match ty.validate v with
  | .valid => none
  | .invalidValidation => some "invalid validation found while validating client response"
  | .failed errs => some (FlatErrors errs)

/-- An `http.Response`, as far as the decoder reads it: the status code and the
outcome of `ioutil.ReadAll(r.Body)`. -/
structure Response where
  StatusCode : Nat
  Body : Except String (List Char)

/-- The outcome of `DecodeJSONResponseBody`: the two results and the contents
of the two destinations afterwards (`dstErr` is `none` when it was nil). -/
structure DecodeResult (α β : Type) where
  respType : ResponseType
  err : Option String
  dstOk : α
  dstErr : Option β

/-- The function `DecodeJSONResponseBody`.  `dstOk` is a destination with its
current contents; `dstErr` is nil (`none`) or a destination with its
contents. -/
def DecodeJSONResponseBody {α β : Type} (r : Response) (tyOk : Dest α) (dstOk : α)
    (dstErr : Option (Dest β × β)) : DecodeResult α β :=
  match r.Body with
  | .error e =>
    ⟨.DECODING_ERROR, some ("error retrieving response: " ++ e), dstOk, dstErr.map (·.2)⟩
  | .ok data =>
    match tyOk.unmarshal data dstOk with
    | (vOk, none) =>
      match Struct tyOk vOk with
      | some e => ⟨.VALIDATION_ERROR, some e, vOk, dstErr.map (·.2)⟩
      | none => ⟨.OK_RESPONSE, none, vOk, dstErr.map (·.2)⟩
    | (vOk, some errOk) =>
      let errMsg := errOk.Error
      match dstErr with
      | none =>
        ⟨.DECODING_ERROR, some ("error unmarshalling ok response: " ++ errMsg), vOk, none⟩
      | some (tyErr, vErr0) =>
        match tyErr.unmarshal data vErr0 with
        | (vErr, none) =>
          match Struct tyErr vErr with
          | some e => ⟨.VALIDATION_ERROR, some e, vOk, some vErr⟩
          | none => ⟨.ERR_RESPONSE, none, vOk, some vErr⟩
        | (vErr, some errErr) =>
          ⟨.DECODING_ERROR,
            some ("error retrieving response. dstOk unmarshal error: " ++ errMsg
              ++ "; dstErr unmarshal error: " ++ errErr.Error),
            vOk, some vErr⟩

/-! ## Destination types of the repository -/

/-- Reflection data of `gsclient.TokenCDO`: three fields, no `validate` tag. -/
def TokenCDO.structType : StructType TokenCDO :=
  { pkg := "gsclient", name := "TokenCDO",
    fields := [
      ⟨"TokenType", "token_type",
        .str (fun v => v.TokenType) (fun v s => { v with TokenType := s }), []⟩,
      ⟨"AccessToken", "access_token",
        .str (fun v => v.AccessToken) (fun v s => { v with AccessToken := s }), []⟩,
      ⟨"ExpiresIn", "expires_in",
        .int (fun v => v.ExpiresIn) (fun v n => { v with ExpiresIn := n }), []⟩] }

/-- The declaration `var tokenCDO TokenCDO`: the zero value. -/
def TokenCDO.zero : TokenCDO := ⟨"", "", 0⟩

/-- The struct `mockclient.errorCDO`. -/
structure errorCDO where
  Code : String
  Message : String
  deriving DecidableEq, Repr

/-- Reflection data of `mockclient.errorCDO`. -/
def errorCDO.structType : StructType errorCDO :=
  { pkg := "mockclient", name := "errorCDO",
    fields := [
      ⟨"Code", "code", .str (fun v => v.Code) (fun v s => { v with Code := s }), []⟩,
      ⟨"Message", "message",
        .str (fun v => v.Message) (fun v s => { v with Message := s }), []⟩] }

/-- The struct `mockclient.UserCDO`. -/
structure UserCDO where
  Id : String
  Name : String
  Surname : String
  Age : Int
  Email : String
  deriving DecidableEq, Repr

/-- Reflection data of `mockclient.UserCDO`.  The check behind the `email` tag
is a parameter. -/
def UserCDO.structType (isEmail : String → Bool) : StructType UserCDO :=
  { pkg := "mockclient", name := "UserCDO",
    fields := [
      ⟨"Id", "id", .str (fun v => v.Id) (fun v s => { v with Id := s }), [.required]⟩,
      ⟨"Name", "name", .str (fun v => v.Name) (fun v s => { v with Name := s }), [.required]⟩,
      ⟨"Surname", "surname",
        .str (fun v => v.Surname) (fun v s => { v with Surname := s }), [.required]⟩,
      ⟨"Age", "age", .int (fun v => v.Age) (fun v n => { v with Age := n }),
        [.required, .number, .gte 0, .lte 130]⟩,
      ⟨"Email", "email", .str (fun v => v.Email) (fun v s => { v with Email := s }),
        [.omitempty, .other "email" (fun fv =>
          match fv with
          | .str s => isEmail s
          | .int _ => false)]⟩] }

/-- A success schema with the two required fields `id` and `name`, the schema
of the decoder examples. -/
structure IdName where
  Id : Int
  Name : String
  deriving DecidableEq, Repr

/-- Reflection data of `IdName`: both fields carry `validate:"required"`. -/
def IdName.structType : StructType IdName :=
  { pkg := "example", name := "IdName",
    fields := [
      ⟨"Id", "id", .int (fun v => v.Id) (fun v n => { v with Id := n }), [.required]⟩,
      ⟨"Name", "name", .str (fun v => v.Name) (fun v s => { v with Name := s }),
        [.required]⟩] }

/-! ## `gsclient/oauth.go` -/

/-- An `http.Header` or `url.Values`: names with their lists of values.  Names
of incoming headers are in canonical form. -/
abbrev Header := List (String × List String)

/-- The method `Header.Get` for a key in canonical form: the first value stored
under the key, or the empty string. -/
def Header.Get (h : Header) (key : String) : String :=
  match h.lookup key with
  | some (v :: _) => v
  | _ => ""

/-- The configuration of an `http.Transport`: the flag `InsecureSkipVerify` of
its `TLSClientConfig`. -/
structure HttpTransport where
  InsecureSkipVerify : Bool
  deriving DecidableEq, Repr

/-- The `http.RoundTripper` values of this program: the base `*http.Transport`,
`*gsmiddleware.HttpLogTransport` (which holds an `http.Transport`),
`*gsmiddleware.TracingTransport`, `*OauthTransport` (which holds a pointer to a
token source, here its address), and any round tripper supplied from
outside, known by a number. -/
inductive Transport
  | http (t : HttpTransport)
  | httpLog (base : HttpTransport)
  | tracing (base : Transport)
  | oauth (base : Transport) (tokenSource : Nat)
  | custom (id : Nat)
  deriving DecidableEq, Repr

/-- The struct `http.Client`, as far as `NewClient` sets it: the transport (nil
is `none`) and the timeout.  The defaults are the zero values. -/
structure HttpClient where
  Transport : Option Transport := none
  Timeout : Duration := 0
  deriving DecidableEq, Repr

/-- The struct `Client`.  The field `TokenSource` is a pointer, here the address
of the token source; the defaults of the fields are the zero values.  What the
`HttpClient` of a token source does with a request is given by the environment
of a call. -/
structure Client where
  Key : String
  Basepath : String
  HttpClient : HttpClient := {}
  DefaultHeaders : Header := []
  DefaultParams : Header := []
  TokenSource : Option Nat := none
  deriving DecidableEq, Repr

/-- An outgoing `http.Request`: method, URL, headers, and the form values that
make up its body. -/
structure Request where
  Method : String
  URL : String
  Header : List (String × String)
  Form : List (String × String)
  deriving DecidableEq, Repr

/-- The struct `TokenSource`.  The mutex `mu` has no field here: one call of
`GetToken` runs with the mutex held throughout, and the interleaving of
several calls is the subject of `Sys` below. -/
structure TokenSource where
  ExpiryDelta : Duration
  ClientID : String
  ClientSecret : String
  GrantType : String
  Scopes : List String
  Client : Client
  Token : Option Token
  deriving DecidableEq, Repr

/-- What the environment supplies to one call of `GetToken`: the reading of
`time.Now()` in `Valid`, the error (if any) of `http.NewRequestWithContext` for an
endpoint, the outcome of `HttpClient.Do` for a request, and the reading of
`time.Now()` in `RenewToken`. -/
structure CallEnv where
  nowCheck : Time
  newRequestErr : String → Option String
  send : Request → Except String Response
  nowRenew : Time

/-- The outcome of one call: the two results, the token source afterwards, and
the requests handed to `HttpClient.Do` during the call. -/
structure CallResult where
  token : Option Token
  err : Option String
  ts : TokenSource
  sent : List Request

/-- The request `RenewToken` builds. -/
def renewRequest (ts : TokenSource) : Request :=
  { Method := "POST", URL := ts.Client.Basepath,
    Header := [("Content-Type", "application/x-www-form-urlencoded")],
    Form := [("client_id", ts.ClientID), ("client_secret", ts.ClientSecret),
      ("grant_type", ts.GrantType), ("scope", String.intercalate "," ts.Scopes)] }

/-- The second half of `RenewToken`, from the return of `HttpClient.Do` on:
decode the response and, on `OK_RESPONSE`, build and store the token. -/
def renewFinish (ts : TokenSource) (outcome : Except String Response) (now : Time) :
    Option Token × Option String × TokenSource :=
  match outcome with
  | .error e => (none, some e, ts)
  | .ok resp =>
    let d := DecodeJSONResponseBody resp TokenCDO.structType.dest TokenCDO.zero
      (none : Option (Dest Unit × Unit))
    match d.respType with
    | .OK_RESPONSE =>
      let creationTime := now
      let token : Token :=
        { TokenType := d.dstOk.TokenType, AccessToken := d.dstOk.AccessToken,
          CreationTime := creationTime,
          Expiry := Time.Add creationTime (Duration.mul d.dstOk.ExpiresIn Second),
          expiryDelta := 0 }
      (some token, none, { ts with Token := some token })
    | _ => (none, d.err, ts)

/-- The method `(*TokenSource).RenewToken`. -/
def RenewToken (ts : TokenSource) (env : CallEnv) : CallResult :=
  let endpoint := ts.Client.Basepath
  match env.newRequestErr endpoint with
  | some e =>
    ⟨none, some ("error creating request to call " ++ endpoint ++ ": " ++ e), ts, []⟩
  | none =>
    let req := renewRequest ts
    let r := renewFinish ts (env.send req) env.nowRenew
    ⟨r.1, r.2.1, r.2.2, [req]⟩

/-- The method `(*TokenSource).GetToken`. -/
def GetToken (ts : TokenSource) (env : CallEnv) : CallResult :=
  if Token.Valid ts.Token env.nowCheck then ⟨ts.Token, none, ts, []⟩
  else RenewToken ts env

/-! ## Several callers of `GetToken` on one token source

`GetToken` takes `ts.mu` on entry and releases it on return (`defer`).  A caller
is blocked until it holds the mutex; it then runs the body, which may wait for
the token endpoint inside `HttpClient.Do`.  The steps of different callers
interleave in any order the mutex allows.
-/

/-- Where a caller of `GetToken` stands. -/
inductive Caller
  | waiting
  | locked
  | renewing
  | returned (token : Option Token) (err : Option String)
  deriving DecidableEq, Repr

/-- Whether the caller has returned. -/
def Caller.isReturned : Caller → Bool
  | .returned _ _ => true
  | _ => false

/-- The shared state: the token source, the holder of its mutex, the callers,
and the requests handed to `HttpClient.Do` so far, latest first. -/
structure Sys where
  ts : TokenSource
  mu : Option Nat
  callers : Nat → Caller
  sent : List Request

/-- Every caller is about to take the mutex, which is free. -/
def Sys.init (ts : TokenSource) : Sys :=
  { ts := ts, mu := none, callers := fun _ => .waiting, sent := [] }

/-- One step of one caller, with what the environment supplies to it.
* `lock i`: `ts.mu.Lock()` returns in caller `i`.
* `enter i now reqErr`: caller `i` runs the body up to the call of
  `HttpClient.Do`; `Valid` reads the clock as `now` and
  `http.NewRequestWithContext` returns the error `reqErr`.
* `receive i outcome now`: `HttpClient.Do` returns `outcome` to caller `i`, which
  runs the rest of `RenewToken`, reading the clock as `now`, and returns. -/
inductive Action
  | lock (i : Nat)
  | enter (i : Nat) (now : Time) (reqErr : Option String)
  | receive (i : Nat) (outcome : Except String Response) (now : Time)

/-- The effect of a step; `none` when the step is not possible in this state. -/
def step (s : Sys) : Action → Option Sys
  | .lock i =>
    match s.callers i, s.mu with
    | .waiting, none => some { s with mu := some i, callers := Function.update s.callers i .locked }
    | _, _ => none
  | .enter i now reqErr =>
    match s.callers i with
    | .locked =>
      if Token.Valid s.ts.Token now then
        some { s with mu := none,
                      callers := Function.update s.callers i (.returned s.ts.Token none) }
      else
        match reqErr with
        | some e =>
          some { s with mu := none,
                        callers := Function.update s.callers i
                          (.returned none (some ("error creating request to call "
                            ++ s.ts.Client.Basepath ++ ": " ++ e))) }
        | none =>
          some { s with sent := renewRequest s.ts :: s.sent,
                        callers := Function.update s.callers i .renewing }
    | _ => none
  | .receive i outcome now =>
    match s.callers i with
    | .renewing =>
      let r := renewFinish s.ts outcome now
      some { s with ts := r.2.2, mu := none,
                    callers := Function.update s.callers i (.returned r.1 r.2.1) }
    | _ => none

/-- The effect of a sequence of steps. -/
def run (s : Sys) : List Action → Option Sys
  | [] => some s
  | a :: as =>
    match step s a with
    | none => none
    | some s' => run s' as

/-- The steps of one undisturbed call of `GetToken` by caller `i` in the
environment `env`. -/
def soloCall (ts : TokenSource) (env : CallEnv) (i : Nat) : List Action :=
  if Token.Valid ts.Token env.nowCheck then
    [.lock i, .enter i env.nowCheck none]
  else
    match env.newRequestErr ts.Client.Basepath with
    | some e => [.lock i, .enter i env.nowCheck (some e)]
    | none =>
      [.lock i, .enter i env.nowCheck none,
        .receive i (env.send (renewRequest ts)) env.nowRenew]

/-- What the single-renewal theorem asks of one step, `checks` being the
instants at which callers look at the clock: request construction succeeds,
and a renewal that completes yields a token that is valid at those instants. -/
def ActOk (ts : TokenSource) (checks : Time → Prop) : Action → Prop
  | .lock _ => True
  | .enter _ now reqErr => checks now ∧ reqErr = none
  | .receive _ outcome now =>
    ∃ tok, (renewFinish ts outcome now).1 = some tok ∧
      ∀ now', checks now' → Token.Valid (some tok) now' = true

/-- The instants at which callers look at the clock on entering the body in a
sequence of steps. -/
def checkTimes (acts : List Action) : Time → Prop :=
  fun now => ∃ i e, Action.enter i now e ∈ acts

/-- The mutex is held exactly by the caller that is inside the body. -/
def MutexInv (s : Sys) : Prop :=
  ∀ i, (s.callers i = .locked ∨ s.callers i = .renewing) ↔ s.mu = some i

/-- The three phases of a staleness episode that starts from the source `ts`:
nothing sent yet; one request in flight, every other caller blocked; one
request answered, its token stored and returned by every caller that has
returned. -/
def EpisodeInv (ts : TokenSource) (checks : Time → Prop) (s : Sys) : Prop :=
  (s.ts = ts ∧ s.sent = [] ∧ ∀ i, s.callers i = .waiting ∨ s.callers i = .locked) ∨
  (s.ts = ts ∧ s.sent.length = 1 ∧
    ∃ i, s.callers i = .renewing ∧ ∀ j, j ≠ i → s.callers j = .waiting) ∨
  (∃ tok, s.ts = { ts with Token := some tok } ∧
    (∀ now, checks now → Token.Valid (some tok) now = true) ∧ s.sent.length = 1 ∧
    ∀ i, s.callers i = .waiting ∨ s.callers i = .locked ∨
      s.callers i = .returned (some tok) none)

/-- The token that the composite literal of `RenewToken` denotes for a decoded
token response `cdo` when `time.Now()` reads `now`: the literal names four
fields, so `expiryDelta` keeps its zero value. -/
def builtToken (cdo : TokenCDO) (now : Time) : Token :=
  { TokenType := cdo.TokenType, AccessToken := cdo.AccessToken, CreationTime := now,
    Expiry := Time.Add now (Duration.mul cdo.ExpiresIn Second), expiryDelta := 0 }

/-! ## `gsvalidation/validation.go`: the request decoder

`DecodeJSONRequestBody` reads the body of an incoming request through an
`io.LimitedReader` and a `json.Decoder`.  The decoder reads one JSON value from
the front of the stream and leaves what follows unread.
-/

/-- The struct `HttpSuggestionError`. -/
structure HttpSuggestionError where
  Status : Nat
  Message : String
  deriving DecidableEq, Repr

/-- The constant `http.StatusBadRequest`. -/
def StatusBadRequest : Nat := 400

/-- The constant `http.StatusRequestEntityTooLarge`. -/
def StatusRequestEntityTooLarge : Nat := 413

/-- The constant `http.StatusUnsupportedMediaType`. -/
def StatusUnsupportedMediaType : Nat := 415

/-- The constant `http.StatusInternalServerError`. -/
def StatusInternalServerError : Nat := 500

/-- Whether the list `s` begins with the list `p`. -/
def startsWith : List Char → List Char → Bool
  | _, [] => true
  | [], _ :: _ => false
  | c :: s, d :: p => c == d && startsWith s p

/-- The function `strings.HasPrefix`. -/
def HasPrefix (s p : String) : Bool := startsWith s.data p.data

/-- A Go `error` as the `switch` of `DecodeJSONRequestBody` sees it, by the first
of its tests that the error meets: `errors.As` finds a `*json.SyntaxError` or a
`*json.UnmarshalTypeError` (`json`), `errors.Is(err, io.ErrUnexpectedEOF)`
(`unexpectedEOF`), `errors.Is(err, io.EOF)` (`eof`), or none of these
(`readErr`, with the text of the error). -/
inductive DecodeErr
  | json (e : JsonError)
  | unexpectedEOF
  | eof
  | readErr (msg : String)
  deriving DecidableEq, Repr

/-- An incoming `http.Request`, as far as the decoder reads it: the header, the
text its body yields, and the error that the read after the last byte returns:
`none` for `io.EOF` itself, the end of a body that arrived whole; else the
error of the reader, such as `io.ErrUnexpectedEOF` for a body shorter than its
`Content-Length`.  The decoder compares the error with `io.EOF` by `==`, so an
error that only wraps `io.EOF` is an error of the reader (`some .eof`). -/
structure InboundRequest where
  Header : Header
  Body : List Char
  BodyErr : Option DecodeErr
  deriving Repr

/-- The local constant `maxBytes := int64(1 << 20)`. -/
def maxBytes : Nat := 1048576

/-- The number of bytes of a text in UTF-8. -/
def utf8Length : List Char → Nat
  | [] => 0
  | c :: cs => c.utf8Size + utf8Length cs

/-- The characters of which at least the first byte lies among the first `n`
bytes of a text.  A character that the `n`-th byte cuts is kept whole: the
scanner decides on the first byte of a character whether it reads on, and what
it reports after the cut is the end of the input either way. -/
def takeBytes : List Char → Nat → List Char
  | [], _ => []
  | c :: cs, n => if n = 0 then [] else c :: takeBytes cs (n - c.utf8Size)

/-- What `&io.LimitedReader{R: r.Body, N: maxBytes}` yields to a reader that
reads it to the end: the body and its own end when the body is shorter than
the limit, else the first `maxBytes` bytes followed by `io.EOF`. -/
def limitedStream (r : InboundRequest) : List Char × Option DecodeErr :=
  if maxBytes ≤ utf8Length r.Body then (takeBytes r.Body maxBytes, none)
  else (r.Body, r.BodyErr)

/-- The field `N` of the limited reader once it has been read to the end: the
limit less the bytes read. -/
def limitedReaderN (r : InboundRequest) : Int :=
  (maxBytes : Int) - ((min maxBytes (utf8Length r.Body) : Nat) : Int)

/-- Whether the parser stopped because the input ended. -/
def JsonError.isInputEnd : JsonError → Bool
  | .syntaxError msg _ => msg == "unexpected end of JSON input"
  | .unmarshalType _ _ _ _ _ => false

/-- Arrays and objects, whose end the scanner sees at the closing bracket; the
end of any other value shows only at the byte that follows it. -/
def JValue.isCompound : JValue → Bool
  | .array _ _ => true
  | .object _ _ => true
  | _ => false

/-- The method `(*Decoder).readValue` on a fresh decoder: the first JSON value
of the stream `data`, which ends with `endErr` (`none` for `io.EOF`).  Bytes
after the value are not looked at.  When the stream ends before the value
does, the decoder returns the error of the reader as it is, or, at `io.EOF`,
`io.EOF` if it has read blanks only and `io.ErrUnexpectedEOF` otherwise. -/
def readValue (data : List Char) (endErr : Option DecodeErr) : Except DecodeErr JValue :=
  match parseValue (2 * data.length + 2) 0 data 0 with
  | .ok (v, rest, _) =>
    if rest.isEmpty && !v.isCompound then
      match endErr with
      | some err => .error err
      | none => .ok v
    else .ok v
  | .error e =>
    if e.isInputEnd then
      match endErr with
      | some err => .error err
      | none => if data.all isSpace then .error .eof else .error .unexpectedEOF
    else .error (.json e)

/-- The outcome of `dec.Decode(&dst)` for an interface variable `dst` that holds
a pointer to a struct: the interface afterwards (`none` is nil), the struct
afterwards, and the error. -/
structure DecodeOutcome (α : Type) where
  dst : Option α
  target : α
  err : Option DecodeErr

/-- The call `dec.Decode(&dst)`.  The JSON value `null` sets the interface `dst`
to nil and leaves the struct alone; any other value is stored into the
struct. -/
def decoderDecode {α : Type} (st : StructType α) (data : List Char)
    (endErr : Option DecodeErr) (v : α) : DecodeOutcome α :=
  match readValue data endErr with
  | .error e => ⟨some v, v, some e⟩
  | .ok (.null _) => ⟨none, v, none⟩
  | .ok j => ⟨some (decodeStruct st j v).1, (decodeStruct st j v).1,
      (decodeStruct st j v).2.map .json⟩

/-- The verb `%q` on the name of a field: names in `json` tags contain no
character that needs an escape. -/
def quoteName (s : String) : String := "\"" ++ s ++ "\""

/-- The function `RequestStruct`; `v` is the interface passed, `none` for nil. -/
def RequestStruct {α : Type} (ty : Dest α) (v : Option α) : Option HttpSuggestionError :=
  let res := match v with
    | none => ValidateResult.invalidValidation
    | some x => ty.validate x
  match res with
  | .valid => none
  | .invalidValidation =>
    some ⟨StatusInternalServerError,
      "Could not validate request body. Please contact support team"⟩
  | .failed errs => some ⟨StatusBadRequest, FlatErrors errs⟩

/-- The function `DecodeJSONRequestBody`, called with a pointer to the struct
`dst`: the suggestion returned and the struct afterwards.  The cases on the
decoder's error stand in the order of the `switch`. -/
def DecodeJSONRequestBody {α : Type} (r : InboundRequest) (st : StructType α) (dst : α) :
    Option HttpSuggestionError × α :=
  if r.Header.Get "Content-Type" == "" then
    (some ⟨StatusUnsupportedMediaType, "Content-Type header is missing"⟩, dst)
  else if !HasPrefix (r.Header.Get "Content-Type") "application/json" then
    (some ⟨StatusUnsupportedMediaType, "Content-Type header is not application/json"⟩, dst)
  else
    let out := decoderDecode st (limitedStream r).1 (limitedStream r).2 dst
    match out.err with
    | some (.json (.syntaxError _ offset)) =>
      (some ⟨StatusBadRequest,
        "Request body contains badly-formed JSON (at position " ++ toString offset ++ ")"⟩,
        out.target)
    | some .unexpectedEOF =>
      (some ⟨StatusBadRequest, "Request body contains badly-formed JSON"⟩, out.target)
    | some (.json (.unmarshalType _ _ offset _ field)) =>
      (some ⟨StatusBadRequest,
        "Request body contains an invalid value for the " ++ quoteName field
          ++ " field (at position " ++ toString offset ++ ")"⟩,
        out.target)
    | some e =>
      if limitedReaderN r ≤ 0 then
        (some ⟨StatusRequestEntityTooLarge, "Request body must not be larger than 1 MB"⟩,
          out.target)
      else if e = .eof then
        (some ⟨StatusBadRequest, "Request body must not be empty"⟩, out.target)
      else
        (some ⟨StatusInternalServerError,
          "Unrecognized error when decoding request JSON body"⟩, out.target)
    | none => (RequestStruct st.dest out.dst, out.target)

/-- The struct `dto.CreateUserRequestDTO`. -/
structure CreateUserRequestDTO where
  Name : String
  Surname : String
  Age : Int
  Email : String
  deriving DecidableEq, Repr

/-- Reflection data of `dto.CreateUserRequestDTO`.  The check behind the `email`
tag is a parameter. -/
def CreateUserRequestDTO.structType (isEmail : String → Bool) :
    StructType CreateUserRequestDTO :=
  { pkg := "dto", name := "CreateUserRequestDTO",
    fields := [
      ⟨"Name", "name", .str (fun v => v.Name) (fun v s => { v with Name := s }), [.required]⟩,
      ⟨"Surname", "surname",
        .str (fun v => v.Surname) (fun v s => { v with Surname := s }), [.required]⟩,
      ⟨"Age", "age", .int (fun v => v.Age) (fun v n => { v with Age := n }),
        [.required, .number, .gte 0, .lte 130]⟩,
      ⟨"Email", "email", .str (fun v => v.Email) (fun v s => { v with Email := s }),
        [.other "email" (fun fv =>
          match fv with
          | .str s => isEmail s
          | .int _ => false)]⟩] }

/-- The declaration `var reqDTO dto.CreateUserRequestDTO`: the zero value. -/
def CreateUserRequestDTO.zero : CreateUserRequestDTO := ⟨"", "", 0, ""⟩

/-! ## Panics -/

/-- A function that stops with a run-time panic, or returns. -/
inductive Outcome (α : Type) where
  | returns (a : α)
  | panics (msg : String)
  deriving DecidableEq, Repr

/-- Sequencing: a panic ends the computation. -/
def Outcome.bind {α β : Type} (x : Outcome α) (f : α → Outcome β) : Outcome β :=
  match x with
  | .returns a => f a
  | .panics msg => .panics msg

/-- The text of the panic raised by a method call on a nil interface or a read
through a nil pointer. -/
def nilDereference : String :=
  "runtime error: invalid memory address or nil pointer dereference"

/-! ## `gsclient/client.go`: the client registry

The package keeps two maps, `clients` and `sources`, from keys to pointers.  A
pointer is the address of a cell of a heap; `&Client{...}` takes the next free
address, so cells once allocated keep their address and their contents.
-/

/-- The variable `defaultTimeout = 30 * time.Second`. -/
def defaultTimeout : Duration := 30 * Second

/-- The struct `ClientConfig`.  A nil pointer is `none`; `Transport` points to
an interface that may itself be nil. -/
structure ClientConfig where
  Key : String
  Basepath : String
  Transport : Option (Option Transport) := none
  Timeout : Option Int := none
  DefaultHeaders : Option Header := none
  DefaultParams : Option Header := none
  SkipSSL : Bool := false
  TokenSourceKey : Option String := none
  deriving DecidableEq, Repr

/-- The package state: the clients and token sources allocated so far, by
address, and the maps `clients` and `sources`. -/
structure Registry where
  clientHeap : List Client
  clients : String → Option Nat
  sourceHeap : List TokenSource
  sources : String → Option Nat

/-- The state after the two `init` functions: both maps are empty. -/
def Registry.init : Registry :=
  { clientHeap := [], clients := fun _ => none, sourceHeap := [], sources := fun _ => none }

/-- The function `GetClient`: the pointer found (nil is `none`), the flag, and
the state afterwards. -/
def GetClient (r : Registry) (key : String) : (Option Nat × Bool) × Registry :=
  ((r.clients key, (r.clients key).isSome), r)

/-- The function `GetTokenSource`: the pointer found, the flag, and the state
afterwards. -/
def GetTokenSource (r : Registry) (key : String) : (Option Nat × Bool) × Registry :=
  ((r.sources key, (r.sources key).isSome), r)

/-- The function `DefaultTransport`: tracing around logging around the base
transport, and the oauth transport around them when a token source is given. -/
def DefaultTransport (skipSSL : Bool) (ts : Option Nat) : Transport :=
  let base : HttpTransport := { InsecureSkipVerify := skipSSL }
  let logging := Transport.httpLog base
  let tracing := Transport.tracing logging
  match ts with
  | none => tracing
  | some p => Transport.oauth tracing p

/-- The client that `NewClient` builds for a configuration once the token
source is resolved: every field comes from the configuration or a default. -/
def buildClient (cc : ClientConfig) (tokenSource : Option Nat) : Client :=
  let transport : Option Transport :=
    match cc.Transport with
    | some t => t
    | none => some (DefaultTransport cc.SkipSSL tokenSource)
  let timeout : Duration :=
    match cc.Timeout with
    | some t => Duration.mul t Second
    | none => defaultTimeout
  let headers : Header :=
    match cc.DefaultHeaders with
    | some h => h
    | none => []
  let params : Header :=
    match cc.DefaultParams with
    | some p => p
    | none => []
  { Key := cc.Key, Basepath := cc.Basepath,
    HttpClient := { Transport := transport, Timeout := timeout },
    DefaultHeaders := headers, DefaultParams := params, TokenSource := tokenSource }

/-- The outcome of `NewClient`: the pointer returned, the error, and the state
afterwards. -/
structure NewClientResult where
  client : Option Nat
  err : Option String
  reg : Registry

/-- The part of `NewClient` after the token source is resolved: allocate the
client and store its address under the key. -/
def storeClient (r : Registry) (cc : ClientConfig) (tokenSource : Option Nat) :
    NewClientResult :=
  let client := r.clientHeap.length
  { client := some client, err := none,
    reg := { r with clientHeap := r.clientHeap ++ [buildClient cc tokenSource],
                    clients := Function.update r.clients cc.Key (some client) } }

/-- The function `NewClient`. -/
def NewClient (r : Registry) (cc : ClientConfig) : NewClientResult :=
  match cc.TokenSourceKey with
  | some key =>
    if !(GetTokenSource r key).1.2 then
      { client := none,
        err := some ("client configuration failed: couldn't find token source with key "
          ++ key),
        reg := r }
    else storeClient r cc (GetTokenSource r key).1.1
  | none => storeClient r cc none

/-- The function `ConfigureClients`: the error returned and the state
afterwards. -/
def ConfigureClients (r : Registry) : List ClientConfig → Option String × Registry
  | [] => (none, r)
  | cc :: ccs =>
    match (NewClient r cc).err with
    | some err => (some err, (NewClient r cc).reg)
    | none => ConfigureClients (NewClient r cc).reg ccs

/-! ### `gsclient/oauth.go`: registering token sources -/

/-- The constant `defaultGrantType`. -/
def defaultGrantType : String := "client_credentials"

/-- The struct `TokenSourceConfig`; a nil pointer is `none`. -/
structure TokenSourceConfig where
  Key : String
  ExpiryDelta : Option Duration := none
  ClientID : String
  ClientSecret : String
  GrantType : Option String := none
  Scopes : List String := []
  ClientKey : String
  deriving DecidableEq, Repr

/-- The outcome of `NewTokenSource`: the pointer returned, the error, and the
state afterwards. -/
structure NewTokenSourceResult where
  tokenSource : Option Nat
  err : Option String
  reg : Registry

/-- The function `NewTokenSource`.  The client found is copied into the token
source (`Client: *client`). -/
def NewTokenSource (r : Registry) (tc : TokenSourceConfig) : Outcome NewTokenSourceResult :=
  let expiryDelta :=
    match tc.ExpiryDelta with
    | some d => d
    | none => defaultExpiryDelta
  let grantType :=
    match tc.GrantType with
    | some g => g
    | none => defaultGrantType
  let found := (GetClient r tc.ClientKey).1
  if !found.2 then
    .returns
      { tokenSource := none,
        err := some ("token source configuration failed: couldn't find client with key "
          ++ tc.ClientKey),
        reg := r }
  else
    match found.1.bind fun p => r.clientHeap[p]? with
    | none => .panics nilDereference
    | some client =>
      let tokenSource := r.sourceHeap.length
      .returns
        { tokenSource := some tokenSource, err := none,
          reg := { r with
            sourceHeap := r.sourceHeap ++
              [{ ExpiryDelta := expiryDelta, ClientID := tc.ClientID,
                 ClientSecret := tc.ClientSecret, GrantType := grantType,
                 Scopes := tc.Scopes, Client := client, Token := none }],
            sources := Function.update r.sources tc.Key (some tokenSource) } }

/-! ### Histories of calls -/

/-- A call into the registry: one of the four exported functions that read or
write the maps `clients` and `sources`.  No other code of the package touches
the maps: `ConfigureClients` and `ConfigureTokenSources` make calls of
`NewClient` and `NewTokenSource` one after the other. -/
inductive RegistryOp
  | getClient (key : String)
  | getTokenSource (key : String)
  | newClient (cc : ClientConfig)
  | newTokenSource (tc : TokenSourceConfig)

/-- The state after a call; a call that panics leaves the state as it was. -/
def applyOp (r : Registry) : RegistryOp → Registry
  | .getClient key => (GetClient r key).2
  | .getTokenSource key => (GetTokenSource r key).2
  | .newClient cc => (NewClient r cc).reg
  | .newTokenSource tc =>
    match NewTokenSource r tc with
    | .returns res => res.reg
    | .panics _ => r

/-- The state after a sequence of calls. -/
def applyOps (r : Registry) : List RegistryOp → Registry
  | [] => r
  | op :: ops => applyOps (applyOp r op) ops

/-- Whether some call of `NewClient` with the key `key` returned a nil error in
a sequence of calls that starts in the state `r`. -/
def wasRegistered (key : String) : Registry → List RegistryOp → Bool
  | _, [] => false
  | r, op :: ops =>
    (match op with
      | .newClient cc => cc.Key == key && (NewClient r cc).err.isNone
      | _ => false) || wasRegistered key (applyOp r op) ops

/-- Whether a configuration registers in a state: its token source key, if
set, is in the map `sources`. -/
def registers (r : Registry) (cc : ClientConfig) : Bool :=
  match cc.TokenSourceKey with
  | some key => (r.sources key).isSome
  | none => true

/-- The state after the configurations of a list have been handed to `NewClient`
one after the other. -/
def registerEach (r : Registry) : List ClientConfig → Registry
  | [] => r
  | cc :: ccs => registerEach (NewClient r cc).reg ccs

/-! ## `net/textproto` and `net/http`: headers, requests and responses

A Go map from names to lists of values is an association list that holds each
name once; the order of its entries carries no meaning.  In the sections on
HTTP a string is a list of characters, for ASCII text its bytes.
-/

/-- The table `isTokenTable` of `httpguts`, which `validHeaderFieldByte` and
`validMethod` consult: letters, digits and fifteen marks. -/
def isTokenChar (c : Char) : Bool :=
  c.isAlphanum ||
    ['!', '#', '$', '%', '&', Char.ofNat 39, '*', '+', '-', '.', '^', '_', Char.ofNat 96,
      '|', '~'].contains c

/-- The loop of `canonicalMIMEHeaderKey`: upper case for the first letter and
for a letter after a dash, lower case elsewhere. -/
def canonicalLetters : Bool → List Char → List Char
  | _, [] => []
  | upper, c :: cs =>
    let c1 :=
      if upper && c.isLower then c.toUpper
      else if !upper && c.isUpper then c.toLower
      else c
    c1 :: canonicalLetters (c1 == '-') cs

/-- The function `textproto.CanonicalMIMEHeaderKey`: a key that holds a byte
outside the token table comes back unchanged. -/
def CanonicalMIMEHeaderKey (s : String) : String :=
  if s.data.all isTokenChar then String.mk (canonicalLetters true s.data) else s

/-- The assignment `m[k] = vs` on a map. -/
def mapStore (m : Header) (k : String) (vs : List String) : Header :=
  (k, vs) :: m.filter (fun e => e.1 != k)

/-- The index expression `m[k]`: nil (the empty list) for an absent key. -/
def mapIndex (m : Header) (k : String) : List String :=
  match m.lookup k with
  | some vs => vs
  | none => []

/-- The method `Header.Set`: the key in canonical form gets the single value. -/
def Header.Set (h : Header) (key value : String) : Header :=
  mapStore h (CanonicalMIMEHeaderKey key) [value]

/-- The method `Header.Values`: the values stored under the canonical form of
the key. -/
def Header.Values (h : Header) (key : String) : List String :=
  mapIndex h (CanonicalMIMEHeaderKey key)

/-- The method `url.Values.Add`: one more value under the key as given. -/
def Values.Add (v : Header) (key value : String) : Header :=
  mapStore v key (mapIndex v key ++ [value])

/-- The fields of `url.URL` that this program reads or writes. -/
structure URL where
  Host : String
  Path : String
  RawQuery : String := ""
  deriving DecidableEq, Repr

/-- A `context.Context`, as far as this program looks into it: the value stored
under `TraceIDKey` when that value is a string. -/
structure Context where
  traceID : Option String := none
  deriving DecidableEq, Repr

deriving instance DecidableEq for Except

/-- What `ioutil.ReadAll` gets from a body: its bytes, or the error of the
reader. -/
abbrev BodyReader := Except String (List Char)

/-- An `http.Request` built by `http.NewRequestWithContext` or received by a
handler: `Header` and `URL` are not nil; `Body` is nil (`none`) or a reader. -/
structure HttpRequest where
  Method : String
  URL : URL
  Header : Header := []
  Body : Option BodyReader := none
  ctx : Context := {}
  deriving DecidableEq

/-- An `http.Response`: `Request` is the request that was sent to obtain it. -/
structure HttpResponse where
  StatusCode : Int
  Header : Header := []
  Body : Option BodyReader := none
  Request : HttpRequest
  deriving DecidableEq

/-! ## `gsmiddleware/trace_id.go` -/

/-- The variable `TraceIDHeader`. -/
def TraceIDHeader : String := "x-trace-id"

/-- The function `GetTraceID`. -/
def GetTraceID (ctx : Context) : String :=
  match ctx.traceID with
  | some traceID => traceID
  | none => ""

/-! ## `gslog`: the logger

The package variables and the lines printed so far make up the state of the
logger.  A printed line is kept as the `customLog` it was marshalled from; the
prefix that `print` derives from the call stack is left out.
-/

/-- The type `logType` and its constants. -/
inductive logType
  | MESSAGE
  | OUTER_REQUEST
  | OUTER_RESPONSE
  | INNER_REQUEST
  | INNER_RESPONSE
  deriving DecidableEq, Repr

/-- The struct `customLog`; the defaults are the zero values.  `Typ` is the
field `Type`. -/
structure customLog where
  Time : String := ""
  TraceID : String := ""
  Level : String := ""
  Typ : logType
  Message : String := ""
  Method : String := ""
  Url : String := ""
  Status : Int := 0
  Headers : Header := []
  Body : String := ""
  deriving DecidableEq, Repr

/-- The state of package `gslog`: the variables `maxBodyLength` and
`excludeUrls`, the text that each successive call of `timeString` returns, the
number of calls made, and the lines printed, oldest first. -/
structure LogState where
  maxBodyLength : Int := 1000
  excludeUrls : List String := []
  clock : Nat → String := fun _ => ""
  readings : Nat := 0
  output : List customLog := []

/-- The function `timeString`: the next reading of the clock. -/
def gslog.timeString (lg : LogState) : String × LogState :=
  (lg.clock lg.readings, { lg with readings := lg.readings + 1 })

/-- The method `print`. -/
def gslog.print (lg : LogState) (l : customLog) : LogState :=
  { lg with output := lg.output ++ [l] }

/-- The function `logMessage`. -/
def gslog.logMessage (lg : LogState) (level m traceID : String) : LogState :=
  let t := gslog.timeString lg
  gslog.print t.2 { Time := t.1, TraceID := traceID, Level := level, Typ := .MESSAGE,
                    Message := m }

/-- The function `Error`. -/
def gslog.Error (lg : LogState) (m traceID : String) : LogState :=
  gslog.logMessage lg "ERROR" m traceID

/-- The function `ErrorFrom`: `err.Error()` on a nil interface panics. -/
def gslog.ErrorFrom (lg : LogState) (err : Option String) (traceID : String) :
    Outcome LogState :=
  match err with
  | none => .panics nilDereference
  | some text => .returns (gslog.Error lg text traceID)

/-- The scan of `re.ReplaceAllString(s, " ")` for the pattern `\r?\n`: each
match, taken leftmost, becomes one blank. -/
def replaceNewlines : List Char → List Char
  | [] => []
  | '\r' :: '\n' :: cs => ' ' :: replaceNewlines cs
  | '\n' :: cs => ' ' :: replaceNewlines cs
  | c :: cs => c :: replaceNewlines cs

/-- The function `trim`: newlines become blanks, then every blank is dropped. -/
def gslog.trim (s : String) : String :=
  let resp := replaceNewlines s.data
  String.mk (resp.filter (fun c => c != ' '))

/-- The function `stringUpperBound`. -/
def gslog.stringUpperBound (s : String) (n : Int) : String :=
  if n ≤ 0 then s
  else if (s.length : Int) < n then s
  else String.mk (s.data.take n.toNat)

/-- The function `gslog.Request`: the state of the logger and the request
afterwards.  A body that was read is put back as a fresh reader of the same
bytes; a body whose read failed stays as it is. -/
def gslog.Request (lg : LogState) (t : logType) (r : HttpRequest) (trace : String) :
    Outcome (LogState × HttpRequest) :=
  if lg.excludeUrls.contains r.URL.Path then .returns (lg, r)
  else
    let extracted : Outcome (LogState × String × HttpRequest) :=
      match r.Body with
      | none => .returns (lg, "", r)
      | some (.error err) =>
        (gslog.ErrorFrom lg (some err) trace).bind fun lg1 => .returns (lg1, "", r)
      | some (.ok buf) => .returns (lg, String.mk buf, { r with Body := some (.ok buf) })
    extracted.bind fun x =>
      let body := x.2.1
      let r1 := x.2.2
      let now := gslog.timeString x.1
      let l : customLog :=
        { Time := now.1, TraceID := trace, Level := "INFO", Typ := t, Method := r1.Method,
          Url := r1.URL.Host ++ r1.URL.Path, Headers := r1.Header,
          Body := gslog.stringUpperBound (gslog.trim body) now.2.maxBodyLength }
      .returns (gslog.print now.2 l, r1)

/-- The function `gslog.Response`: the state of the logger and the response
afterwards. -/
def gslog.Response (lg : LogState) (r : HttpResponse) (trace : String) :
    Outcome (LogState × HttpResponse) :=
  if lg.excludeUrls.contains r.Request.URL.Path then .returns (lg, r)
  else
    let extracted : Outcome (LogState × String × HttpResponse) :=
      match r.Body with
      | none => .returns (lg, "", r)
      | some (.error err) =>
        (gslog.ErrorFrom lg (some err) trace).bind fun lg1 => .returns (lg1, "", r)
      | some (.ok buf) => .returns (lg, String.mk buf, { r with Body := some (.ok buf) })
    extracted.bind fun x =>
      let body := x.2.1
      let r1 := x.2.2
      let now := gslog.timeString x.1
      let l : customLog :=
        { Time := now.1, TraceID := trace, Level := "INFO", Typ := .INNER_RESPONSE,
          Method := r1.Request.Method, Url := r1.Request.URL.Host ++ r1.Request.URL.Path,
          Status := r1.StatusCode, Headers := r1.Header,
          Body := gslog.stringUpperBound (gslog.trim body) now.2.maxBodyLength }
      .returns (gslog.print now.2 l, r1)

/-- The function `gslog.ResponseWriter`; `rwBody` is the content of the
buffer. -/
def gslog.ResponseWriter (lg : LogState) (rwBody : String) (rwHeaders : Header)
    (status : Int) (r : HttpRequest) (trace : String) : LogState :=
  if lg.excludeUrls.contains r.URL.Path then lg
  else
    let now := gslog.timeString lg
    let l : customLog :=
      { Time := now.1, TraceID := trace, Level := "INFO", Typ := .OUTER_RESPONSE,
        Method := r.Method, Url := r.URL.Host ++ r.URL.Path, Status := status,
        Headers := rwHeaders,
        Body := gslog.stringUpperBound rwBody now.2.maxBodyLength }
    gslog.print now.2 l

/-! ## The round trippers

`RoundTrip` is the one method of the interface `http.RoundTripper`.  A wrapping
transport holds its base as an interface value and calls it; here the base is
passed to the method of the wrapper as a function.
-/

/-- What the world outside the chain supplies to a round trip: the environment
of the call of `GetToken` on the token source at an address; the lines that the
transport chain of the client of that token source prints, through the one
logger of package `gslog`, while `ts.Client.HttpClient.Do` handles a request of
`RenewToken`; the answer of the network to a request sent by an
`http.Transport`; and the answer of a round tripper supplied from outside. -/
structure Wire where
  tokenEnv : Nat → CallEnv
  tokenLines : Nat → Request → List customLog
  network : HttpTransport → HttpRequest → Except String HttpResponse
  external : Nat → HttpRequest → Except String HttpResponse

/-- The logger after `lines` have been printed one by one: each line takes one
reading of the clock (`timeString`) and one call of `print`. -/
def gslog.printed (lg : LogState) (lines : List customLog) : LogState :=
  { lg with readings := lg.readings + lines.length, output := lg.output ++ lines }

/-- The state a round trip works on: the token sources by address, the logger,
and the requests that the chain at hand has handed so far to an
`http.Transport` or to a round tripper from outside, oldest first.  The
requests of `RenewToken` go out through the client of the token source and are
in the result of `GetToken`. -/
structure ChainState where
  sources : List TokenSource := []
  logger : LogState := {}
  sent : List HttpRequest := []

/-- The two results of `RoundTrip`, exactly one of which is not nil, and the
state afterwards; or a panic. -/
abbrev RoundTripResult := Outcome (Except String HttpResponse × ChainState)

/-- The method `(*http.Transport).RoundTrip`: the request goes out and the
answer of the network comes back, with `Request` set to the request sent. -/
def HttpTransport.RoundTrip (w : Wire) (t : HttpTransport) (r : HttpRequest)
    (s : ChainState) : RoundTripResult :=
  .returns ((w.network t r).map fun rs => { rs with Request := r },
    { s with sent := s.sent ++ [r] })

/-- The method `(*HttpLogTransport).RoundTrip`; its base is an `http.Transport`
value. -/
def HttpLogTransport.RoundTrip (w : Wire) (Base : HttpTransport) (r : HttpRequest)
    (s : ChainState) : RoundTripResult :=
  (gslog.Request s.logger .INNER_REQUEST r (GetTraceID r.ctx)).bind fun logged =>
    let r1 := logged.2
    (HttpTransport.RoundTrip w Base r1 { s with logger := logged.1 }).bind fun res =>
      match res.1 with
      | .error err => .returns (.error err, res.2)
      | .ok rs =>
        (gslog.Response res.2.logger rs (GetTraceID r1.ctx)).bind fun logged2 =>
          .returns (.ok logged2.2, { res.2 with logger := logged2.1 })

/-- The method `(*TracingTransport).RoundTrip`. -/
def TracingTransport.RoundTrip (Base : HttpRequest → ChainState → RoundTripResult)
    (r : HttpRequest) (s : ChainState) : RoundTripResult :=
  let traceID := GetTraceID r.ctx
  let r1 :=
    if traceID != "" then { r with Header := Header.Set r.Header TraceIDHeader traceID }
    else r
  Base r1 s

/-- The method `(*OauthTransport).RoundTrip`; `TokenSource` is the address of
the token source.  `GetToken` works on the token source in place, and every
request it hands to `HttpClient.Do` goes through the transport chain of the
client of the token source, which prints its lines to the same logger before
`GetToken` returns. -/
def OauthTransport.RoundTrip (w : Wire) (Base : HttpRequest → ChainState → RoundTripResult)
    (TokenSource : Nat) (r : HttpRequest) (s : ChainState) : RoundTripResult :=
  match s.sources[TokenSource]? with
  | none => .panics nilDereference
  | some ts =>
    let res := GetToken ts (w.tokenEnv TokenSource)
    let s1 := { s with sources := s.sources.set TokenSource res.ts,
                       logger := gslog.printed s.logger
                         (res.sent.flatMap (w.tokenLines TokenSource)) }
    match res.err with
    | some err => .returns (.error err, s1)
    | none =>
      match res.token with
      | none => .panics nilDereference
      | some token =>
        let value := token.TokenType ++ " " ++ token.AccessToken
        Base { r with Header := Header.Set r.Header "Authorization" value } s1

/-- The call `t.RoundTrip(r)` on an interface value: the method of the dynamic
type runs. -/
def RoundTrip (w : Wire) : Transport → HttpRequest → ChainState → RoundTripResult
  | .http t => HttpTransport.RoundTrip w t
  | .httpLog base => HttpLogTransport.RoundTrip w base
  | .tracing base => TracingTransport.RoundTrip (RoundTrip w base)
  | .oauth base tokenSource => OauthTransport.RoundTrip w (RoundTrip w base) tokenSource
  | .custom id => fun r s =>
    .returns (w.external id r, { s with sent := s.sent ++ [r] })

/-- The layers of a chain, outermost first. -/
inductive Layer
  | logging
  | tracing
  | auth (tokenSource : Nat)
  | base (InsecureSkipVerify : Bool)
  | outside (id : Nat)
  deriving DecidableEq, Repr

/-- The layers a request passes through in a transport, in the order in which
their `RoundTrip` methods are entered. -/
def Transport.layers : Transport → List Layer
  | .http t => [.base t.InsecureSkipVerify]
  | .httpLog b => [.logging, .base b.InsecureSkipVerify]
  | .tracing b => .tracing :: Transport.layers b
  | .oauth b p => .auth p :: Transport.layers b
  | .custom id => [.outside id]

/-! ## `gsclient/client.go`: building requests -/

/-- The function `validMethod` of `net/http`. -/
def validMethod (method : String) : Bool :=
  decide (method.length > 0) && method.data.all isTokenChar

/-- The index of the last occurrence of a character, or `-1`. -/
def lastIndex (c : Char) (s : List Char) : Int :=
  s.enum.foldl (fun found p => if p.2 == c then (p.1 : Int) else found) (-1)

/-- The function `removeEmptyPort` of `net/http`: a host that ends in a colon
with no port after it loses the colon. -/
def removeEmptyPort (host : String) : String :=
  if lastIndex ':' host.data > lastIndex ']' host.data then
    (if host.data.getLast? = some ':' then String.mk host.data.dropLast else host)
  else host

/-- The function `http.NewRequestWithContext`, given what `url.Parse` returns
for a string; `ctx` is `none` for a nil context and `body` is `none` for a nil
reader.  The text of the first error quotes the method as `%q` does for text
that needs no escape. -/
def NewRequestWithContext (parseURL : String → Except String URL) (ctx : Option Context)
    (method url : String) (body : Option (List Char)) : Except String HttpRequest :=
  let method := if method == "" then "GET" else method
  if !validMethod method then .error ("net/http: invalid method " ++ quoteName method)
  else
    match ctx with
    | none => .error "net/http: nil Context"
    | some ctx =>
      match parseURL url with
      | .error err => .error err
      | .ok u =>
        .ok { Method := method, URL := { u with Host := removeEmptyPort u.Host },
              Header := [], Body := body.map .ok, ctx := ctx }

/-- The method `(*Client).NewJSONRequest`.  `v` is `none` for a nil value;
`marshal` is `json.Marshal` on the type of the value. -/
def Client.NewJSONRequest {β : Type} (c : Client) (parseURL : String → Except String URL)
    (marshal : β → Except String (List Char)) (ctx : Option Context)
    (method path : String) (v : Option β) : Except String HttpRequest :=
  let reader : Except String (Option (List Char)) :=
    match v with
    | some x =>
      match marshal x with
      | .error err => .error err
      | .ok byteSlice => .ok (some byteSlice)
    | none => .ok none
  match reader with
  | .error err => .error err
  | .ok reader =>
    let url := c.Basepath ++ path
    NewRequestWithContext parseURL ctx method url reader

/-- The method `(*Client).NewRequest`. -/
def Client.NewRequest (c : Client) (parseURL : String → Except String URL)
    (ctx : Option Context) (method path : String) : Except String HttpRequest :=
  Client.NewJSONRequest c parseURL (fun (_ : Unit) => .ok []) ctx method path none

/-! ### `net/url`: query strings -/

/-- The pieces of a string between occurrences of a separator. -/
def splitOnChar (sep : Char) : List Char → List (List Char)
  | [] => [[]]
  | c :: cs =>
    if c == sep then [] :: splitOnChar sep cs
    else
      match splitOnChar sep cs with
      | [] => [[c]]
      | p :: ps => (c :: p) :: ps

/-- The function `strings.Cut` for a separator of one byte: the text before
the first separator and the text after it. -/
def cutAt (sep : Char) : List Char → List Char × List Char
  | [] => ([], [])
  | c :: cs => if c == sep then ([], cs) else (c :: (cutAt sep cs).1, (cutAt sep cs).2)

/-- The function `url.QueryUnescape`; `none` stands for its `EscapeError`. -/
def QueryUnescape : List Char → Option (List Char)
  | [] => some []
  | '%' :: a :: b :: cs =>
    match hexVal a, hexVal b with
    | some x, some y => (QueryUnescape cs).map fun rest => Char.ofNat (16 * x + y) :: rest
    | _, _ => none
  | '%' :: _ => none
  | '+' :: cs => (QueryUnescape cs).map fun rest => ' ' :: rest
  | c :: cs => (QueryUnescape cs).map fun rest => c :: rest

/-- One turn of the loop of `parseQuery` on the piece before the next `&`: the
map and whether an error was met. -/
def parseQueryPiece (m : Header × Bool) (piece : List Char) : Header × Bool :=
  if piece.contains ';' then (m.1, true)
  else if piece.isEmpty then m
  else
    let kv := cutAt '=' piece
    match QueryUnescape kv.1 with
    | none => (m.1, true)
    | some key =>
      match QueryUnescape kv.2 with
      | none => (m.1, true)
      | some value => (Values.Add m.1 (String.mk key) (String.mk value), m.2)

/-- The function `url.ParseQuery`: the values parsed, and whether the error
returned is not nil. -/
def ParseQuery (query : String) : Header × Bool :=
  (splitOnChar '&' query.data).foldl parseQueryPiece ([], false)

/-- The digits of `upperhex`. -/
def upperhex (n : Nat) : Char := "0123456789ABCDEF".data.getD n '0'

/-- The function `shouldEscape` in the mode `encodeQueryComponent`. -/
def shouldEscape (c : Char) : Bool :=
  !(c.isAlphanum || c == '-' || c == '_' || c == '.' || c == '~')

/-- The function `url.QueryEscape`. -/
def QueryEscape (s : String) : String :=
  String.mk (s.data.flatMap fun c =>
    if shouldEscape c then
      (if c == ' ' then ['+'] else ['%', upperhex (c.toNat / 16), upperhex (c.toNat % 16)])
    else [c])

/-- Insertion of a key into a sorted list of keys. -/
def insertKey (k : String) : List String → List String
  | [] => [k]
  | x :: xs => if k.data < x.data then k :: x :: xs else x :: insertKey k xs

/-- The call `sort.Strings` on the keys of a map. -/
def sortKeys (keys : List String) : List String :=
  keys.foldr insertKey []

/-- The method `url.Values.Encode`: the pairs `key=value`, escaped, sorted by
key and joined by `&`. -/
def Values.Encode (v : Header) : String :=
  let pairs := (sortKeys (v.map fun e => e.1)).flatMap fun k =>
    (mapIndex v k).map fun value => QueryEscape k ++ "=" ++ QueryEscape value
  String.intercalate "&" pairs

/-- The method `(*Client).SetRequestDefaults`.  The request is passed by value,
but its header map and its `URL` pointer are shared with the caller: the
request returned is what the caller sees afterwards.  The maps are ranged over
in the order of their entries. -/
def Client.SetRequestDefaults (c : Client) (r : HttpRequest) : HttpRequest :=
  let header := c.DefaultHeaders.foldl (fun h e =>
    e.2.foldl (fun h v => Header.Set h e.1 v) h) r.Header
  let queryParams := (ParseQuery r.URL.RawQuery).1
  let queryParams := c.DefaultParams.foldl (fun q e =>
    e.2.foldl (fun q v => Values.Add q e.1 v) q) queryParams
  { r with Header := header, URL := { r.URL with RawQuery := Values.Encode queryParams } }

/-! ## `apierrors` -/

/-- The struct `apierrors.Error`. -/
structure apierrors.Error where
  Code : Int
  Label : String
  Message : String
  deriving DecidableEq, Repr

/-- The constant `ERR_NOT_DEFINED`. -/
def apierrors.ERR_NOT_DEFINED : Int := -1

/-- The constant `EXTERNAL_API_ERROR`. -/
def apierrors.EXTERNAL_API_ERROR : Int := 1002

/-- The constant `INTERNAL_SERVER_ERROR`. -/
def apierrors.INTERNAL_SERVER_ERROR : Int := 5001

/-- The constant `CLIENT_NOT_DEFINED`. -/
def apierrors.CLIENT_NOT_DEFINED : Int := 5005

/-- The map `errors`: label and message of each code. -/
def apierrors.errors (ec : Int) : Option (String × String) :=
  if ec = -1 then
    some ("ERR_NOT_DEFINED", "Unrecognized error encountered. Contact support team")
  else if ec = 1001 then some ("USER_NOT_FOUND", "User could not be found")
  else if ec = 1002 then some ("EXTERNAL_API_ERROR", "External API returned an error")
  else if ec = 2001 then
    some ("OPERATION_NOT_DEFINED", "Invoked path/operation is not defined")
  else if ec = 2002 then
    some ("INVALID_ARGUMENT", "Client specified invalid request parameter")
  else if ec = 5001 then
    some ("INTERNAL_SERVER_ERROR", "Internal error found. Please contact support team")
  else if ec = 5002 then some ("IO_FILE_ERROR", "Input/Output error while reading a file")
  else if ec = 5003 then some ("JSON_PARSING_ERROR", "Error while parsing a JSON content")
  else if ec = 5004 then some ("READER_ERROR", "Error while reading Body from Request")
  else if ec = 5005 then some ("CLIENT_NOT_DEFINED", "External API client not defined")
  else if ec = 5010 then some ("DTO_MAPPING_ERROR", "Failed mapping model to DTO")
  else if ec = 6001 then
    some ("HTTP_CONNECTION_ERROR", "Connection error while attempting http connection")
  else if ec = 6002 then
    some ("RESPONSE_UNMARSHAL_ERROR",
      "Could not unmarshal response body received from external api")
  else none

/-- The label and message that `New` and `NewWithMsg` start from. -/
def apierrors.lookup (ec : Int) : String × String :=
  match apierrors.errors ec with
  | some em => em
  | none => ("ERR_NOT_DEFINED", "Unrecognized error encountered. Contact support team")

/-- The function `apierrors.New`. -/
def apierrors.New (ec : Int) : apierrors.Error :=
  { Code := ec, Label := (apierrors.lookup ec).1, Message := (apierrors.lookup ec).2 }

/-- The function `apierrors.NewWithMsg`. -/
def apierrors.NewWithMsg (ec : Int) (m : String) : apierrors.Error :=
  { Code := ec, Label := (apierrors.lookup ec).1, Message := m }

/-! ## `mockclient.PostUser` and `service.CreateUser`

The types `model.CreateUserRequest` and `mockclient.CreateUserCDO` are
parameters, and so are the library calls made on them.
-/

/-- What the service layer gets from outside: `dtomapper.Map` from a request
to a CDO (the CDO as filled and the error), `json.Marshal` of a CDO,
`url.Parse`, and `http.Client.Do`, which may write to the log. -/
structure ServiceEnv (Req CDO : Type) where
  Map : Req → CDO × Option String
  marshal : CDO → Except String (List Char)
  parseURL : String → Except String URL
  Do : HttpClient → HttpRequest → LogState → Except String HttpResponse × LogState

/-- The function `mockclient.PostUser`: the error returned (nil is `none`) and
the logger afterwards. -/
def PostUser {Req CDO : Type} (env : ServiceEnv Req CDO) (reg : Registry) (lg : LogState)
    (ctx : Option Context) (u : CDO) : Outcome (Option apierrors.Error × LogState) :=
  let found := (GetClient reg "MockClient").1
  if !found.2 then .returns (some (apierrors.New apierrors.CLIENT_NOT_DEFINED), lg)
  else
    match found.1.bind fun p => reg.clientHeap[p]? with
    | none => .panics nilDereference
    | some client =>
      let path := "/users"
      match Client.NewJSONRequest client env.parseURL env.marshal ctx "POST" path (some u) with
      | .error err =>
        .returns (some (apierrors.NewWithMsg apierrors.INTERNAL_SERVER_ERROR
          ("Error creating request to call " ++ path ++ ": " ++ err)), lg)
      | .ok req =>
        let done := env.Do client.HttpClient req lg
        match done.1 with
        | .error err =>
          .returns (some (apierrors.NewWithMsg apierrors.INTERNAL_SERVER_ERROR
            ("Error found while executing http call: " ++ err)), done.2)
        | .ok _ => .returns (none, done.2)

/-- The function `service.CreateUser`: the error returned and the logger
afterwards, or a panic. -/
def CreateUser {Req CDO : Type} (env : ServiceEnv Req CDO) (reg : Registry) (lg : LogState)
    (ctx : Context) (createUserRequest : Req) :
    Outcome (Option apierrors.Error × LogState) :=
  let mapped := env.Map createUserRequest
  let createUserCDO := mapped.1
  let err := mapped.2
  if err.isSome then
    (gslog.ErrorFrom lg err (GetTraceID ctx)).bind fun lg1 =>
      .returns (some (apierrors.New apierrors.INTERNAL_SERVER_ERROR), lg1)
  else
    (PostUser env reg lg (some ctx) createUserCDO).bind fun posted =>
      let gserror := posted.1
      if gserror.isSome then
        (gslog.ErrorFrom posted.2 err (GetTraceID ctx)).bind fun lg1 =>
          .returns (some (apierrors.New apierrors.EXTERNAL_API_ERROR), lg1)
      else .returns (none, posted.2)

/-- The records of type `INNER_REQUEST` among the lines printed, oldest
first. -/
def innerRequests (lg : LogState) : List customLog :=
  lg.output.filter fun l => l.Typ == .INNER_REQUEST

/-! ## Inputs used in the evaluations -/

/-- A response with status 200 and the given body. -/
def okResponse (body : String) : Response := ⟨200, .ok body.data⟩

/-- A token source configured with the default expiry delta and no cached
token. -/
def exampleSource : TokenSource :=
  { ExpiryDelta := defaultExpiryDelta, ClientID := "id", ClientSecret := "secret",
    GrantType := "client_credentials", Scopes := ["read"],
    Client := { Key := "auth", Basepath := "https://auth.example/token" }, Token := none }

/-- An environment in which request construction succeeds and the token
endpoint answers every request with `body`; `Valid` reads the clock at
`tCheck` and `RenewToken` at `tRenew`. -/
def serverEnv (body : String) (tCheck tRenew : Time) : CallEnv :=
  { nowCheck := tCheck, newRequestErr := fun _ => none,
    send := fun _ => .ok (okResponse body), nowRenew := tRenew }

/-- A token response that declares a lifetime of 3600 seconds. -/
def body3600 : String :=
  "\x7b\"token_type\":\"Bearer\",\"access_token\":\"abc\",\"expires_in\":3600\x7d"

/-- A token response with an empty access token. -/
def bodyNoToken : String :=
  "\x7b\"token_type\":\"Bearer\",\"access_token\":\"\",\"expires_in\":3600\x7d"

/-- A token response that declares a lifetime of 9223372037 seconds. -/
def bodyHuge : String :=
  "\x7b\"token_type\":\"Bearer\",\"access_token\":\"abc\",\"expires_in\":9223372037\x7d"

/-- A token source whose cached token expires at instant 100. -/
def cachedSource : TokenSource :=
  { exampleSource with Token := some ⟨"Bearer", "abc", 0, 100, 0⟩ }

/-- A token with a non-empty access token, expiry 100 and expiry delta 10. -/
def boundaryToken : Token := ⟨"Bearer", "abc", 0, 100, 10⟩

/-- An environment in which the request to the token endpoint fails in
transport. -/
def brokenEnv : CallEnv :=
  { nowCheck := 0, newRequestErr := fun _ => none,
    send := fun _ => .error "dial tcp: connection refused", nowRenew := 0 }

/-- The success body of the decoder examples. -/
def bodyAnn : String := "\x7b\"id\":1,\"name\":\"Ann\"\x7d"

/-- The error body of the decoder examples. -/
def bodyErr1 : String := "\x7b\"code\":\"ERR1\",\"message\":\"boom\"\x7d"

/-- The declaration `var clientErr errorCDO`: the zero value. -/
def errorCDO.zero : errorCDO := ⟨"", ""⟩

/-- The declaration `var user UserCDO`: the zero value. -/
def UserCDO.zero : UserCDO := ⟨"", "", "", 0, ""⟩

/-- A token response that declares a lifetime of one second. -/
def body1s : String :=
  "\x7b\"token_type\":\"Bearer\",\"access_token\":\"abc\",\"expires_in\":1\x7d"

/-- Two callers on the example source: caller 0 renews at instant 0 and
returns; caller 1, blocked meanwhile, gets the mutex and looks at the clock two
seconds later. -/
def twoCallersShortLived : List Action :=
  [.lock 0, .enter 0 0 none, .receive 0 (.ok (okResponse body1s)) 0,
    .lock 1, .enter 1 (2 * Second) none, .receive 1 (.ok (okResponse body1s)) (2 * Second)]

/-- Two callers on the example source: caller 0 renews at instant 0 with a
lifetime of 3600 s; caller 1, blocked meanwhile, gets the mutex and looks at the
clock two seconds later. -/
def twoCallersLongLived : List Action :=
  [.lock 0, .enter 0 0 none, .receive 0 (.ok (okResponse body3600)) 0,
    .lock 1, .enter 1 (2 * Second) none]

/-- Three callers on the example source, all looking at the clock at instant 0:
each takes the mutex in turn, finds no valid token and gets from the token
endpoint a response with an empty access token. -/
def threeCallersEmptyToken : List Action :=
  [.lock 0, .enter 0 0 none, .receive 0 (.ok (okResponse bodyNoToken)) 0,
    .lock 1, .enter 1 0 none, .receive 1 (.ok (okResponse bodyNoToken)) 0,
    .lock 2, .enter 2 0 none, .receive 2 (.ok (okResponse bodyNoToken)) 0]

/-- The same schedule for callers `0`, .., `n - 1`: every caller has called
`GetToken` and waits for the mutex; they get it in turn, each looks at the clock
at instant 0 and gets from the token endpoint a response with an empty access
token. -/
def callersEmptyToken : Nat → List Action
  | 0 => []
  | n + 1 =>
    callersEmptyToken n ++
      [.lock n, .enter n 0 none, .receive n (.ok (okResponse bodyNoToken)) 0]

/-- The state reached by `twoCallersLongLived` from the example source. -/
def longLivedFinal : Sys :=
  match run (Sys.init exampleSource) twoCallersLongLived with
  | some s => s
  | none => Sys.init exampleSource

/-- An error schema whose field `code` carries `validate:"required"`. -/
structure CodedError where
  Code : String
  Message : String
  deriving DecidableEq, Repr

/-- Reflection data of `CodedError`. -/
def CodedError.structType : StructType CodedError :=
  { pkg := "example", name := "CodedError",
    fields := [
      ⟨"Code", "code", .str (fun v => v.Code) (fun v s => { v with Code := s }), [.required]⟩,
      ⟨"Message", "message",
        .str (fun v => v.Message) (fun v s => { v with Message := s }), []⟩] }

/-- A body whose `id` is a string and that has a message but no code. -/
def bodyNoCode : String := "\x7b\"id\":\"x\",\"message\":\"boom\"\x7d"

/-- A body that is not JSON. -/
def bodyMalformed : String := "\x7bbad"

/-- A request with content type `application/json` whose body ends cleanly. -/
def jsonRequest (body : List Char) : InboundRequest :=
  { Header := [("Content-Type", ["application/json"])], Body := body, BodyErr := none }

/-- The JSON string literal made of `n` letters `a`: `n + 2` bytes. -/
def longString (n : Nat) : List Char := '"' :: (List.replicate n 'a' ++ ['"'])

/-- An email check that accepts the address of the example tag of the DTO. -/
def exampleEmail (s : String) : Bool := s == "martinbiagini@gmail.com"

/-- A request body whose age lies outside the declared range. -/
def bodyAge200 : String :=
  "\x7b\"name\":\"A\",\"surname\":\"B\",\"age\":200,\"email\":\"martinbiagini@gmail.com\"\x7d"

/-- A request body that stops inside the object. -/
def bodyTruncated : String := "\x7b\"name\":\"A\""

/-- A request body of 23 bytes whose name holds a character of two bytes and
whose age is a string; the string ends at byte 22. -/
def bodyTwoByteName : String := "\x7b\"name\":\"é\",\"age\":\"x\"\x7d"

/-- A request body whose name holds a character of two bytes, with a question
mark, its byte 21, where the age should begin. -/
def bodyTwoByteSyntax : String := "\x7b\"name\":\"é\",\"age\": ?\x7d"

/-- A configuration that names a token source. -/
def configWithSource : ClientConfig :=
  { Key := "MockClient", Basepath := "https://mock.example", TokenSourceKey := some "oauth" }

/-- A first configuration for the key `MockClient`, with headers, parameters, a
timeout and a transport of its own. -/
def configOld : ClientConfig :=
  { Key := "MockClient", Basepath := "https://old.example",
    Transport := some (some (.custom 7)), Timeout := some 5,
    DefaultHeaders := some [("X-Old", ["1"])], DefaultParams := some [("old", ["1"])],
    SkipSSL := true }

/-- A second configuration for the key `MockClient` that sets the base path
only. -/
def configNew : ClientConfig :=
  { Key := "MockClient", Basepath := "https://new.example" }

/-- A configuration for another key. -/
def configOther : ClientConfig :=
  { Key := "Other", Basepath := "https://other.example" }

/-- A request without a `Content-Type` header and with a well-formed body. -/
def requestNoContentType : InboundRequest :=
  { Header := [], Body := bodyAge200.data, BodyErr := none }

/-- A request whose content type carries a charset. -/
def requestCharset : InboundRequest :=
  { Header := [("Content-Type", ["application/json; charset=utf-8"])],
    Body := bodyAge200.data, BodyErr := none }

/-- What `url.Parse` returns for `https://mock.example/users`; any other string
is taken to lack a scheme, which holds for the strings of the examples. -/
def exampleParse (s : String) : Except String URL :=
  if s == "https://mock.example/users" then .ok { Host := "mock.example", Path := "/users" }
  else .error ("parse " ++ quoteName s ++ ": missing protocol scheme")

/-- The encoding `json.Marshal` gives an `IdName` whose name needs no escape. -/
def exampleMarshal (v : IdName) : Except String (List Char) :=
  .ok ("\x7b\"id\":" ++ toString v.Id ++ ",\"name\":\"" ++ v.Name ++ "\"\x7d").data

/-- A client with one default header and one default query parameter. -/
def clientWithDefaults : Client :=
  { Key := "MockClient", Basepath := "https://mock.example",
    DefaultHeaders := [("X-Api-Key", ["k"])], DefaultParams := [("v", ["1"])] }

/-- A request `GET https://mock.example/users` with no body, made under a
context that carries the trace id `trace-1`. -/
def exampleRequest : HttpRequest :=
  { Method := "GET", URL := { Host := "mock.example", Path := "/users" },
    ctx := { traceID := some "trace-1" } }

/-- The record that the default chain of the client `auth` prints for a request
of `RenewToken` made under the trace id `trace-1`. -/
def tokenRequestLine (req : Request) : customLog :=
  { Time := "", TraceID := "trace-1", Level := "INFO", Typ := .INNER_REQUEST,
    Method := req.Method, Url := "auth.example/token",
    Headers := [("X-Trace-Id", ["trace-1"]),
      ("Content-Type", ["application/x-www-form-urlencoded"])],
    Body := "client_id=id&client_secret=secret&grant_type=client_credentials&scope=read" }

/-- The record that the same chain prints for the answer 200 with `body`. -/
def tokenResponseLine (req : Request) (body : String) : customLog :=
  { Time := "", TraceID := "trace-1", Level := "INFO", Typ := .INNER_RESPONSE,
    Method := req.Method, Url := "auth.example/token", Status := 200,
    Body := gslog.trim body }

/-- A world in which the token endpoint grants `abc` for 3600 seconds, the
network answers every request with status 200 and the body of the decoder
examples, and round trippers from outside find no route. -/
def exampleWire : Wire :=
  { tokenEnv := fun _ => serverEnv body3600 0 0,
    tokenLines := fun _ req => [tokenRequestLine req, tokenResponseLine req body3600],
    network := fun _ r => .ok { StatusCode := 200, Body := some (.ok bodyAnn.data),
                                Request := r },
    external := fun _ _ => .error "no route to host" }

/-- A world like `exampleWire` in which the token endpoint cannot be reached:
the request to it is printed, and no response. -/
def offlineWire : Wire :=
  { exampleWire with tokenEnv := fun _ => brokenEnv,
                     tokenLines := fun _ req => [tokenRequestLine req] }

/-- A token response that grants `xyz` for 3600 seconds. -/
def bodyXyz : String :=
  "\x7b\"token_type\":\"Bearer\",\"access_token\":\"xyz\",\"expires_in\":3600\x7d"

/-- A world like `exampleWire` in which the token endpoint grants `xyz`. -/
def otherWire : Wire :=
  { exampleWire with tokenEnv := fun _ => serverEnv bodyXyz 0 0,
                     tokenLines := fun _ req =>
                       [tokenRequestLine req, tokenResponseLine req bodyXyz] }

/-- The configuration of the client that calls the token endpoint. -/
def authConfig : ClientConfig :=
  { Key := "auth", Basepath := "https://auth.example/token" }

/-- The configuration of the token source `oauth`, which uses the client
`auth`. -/
def oauthSourceConfig : TokenSourceConfig :=
  { Key := "oauth", ClientID := "id", ClientSecret := "secret", ClientKey := "auth" }

/-- The registry after `NewClient(authConfig)` and
`NewTokenSource(oauthSourceConfig)`. -/
def registryWithSource : Registry :=
  match NewTokenSource (NewClient Registry.init authConfig).reg oauthSourceConfig with
  | .returns res => res.reg
  | .panics _ => Registry.init

/-- A configuration that names the token source `oauth` and brings a transport
of its own. -/
def configCustomTransport : ClientConfig :=
  { Key := "MockClient", Basepath := "https://mock.example",
    Transport := some (some (.custom 7)), TokenSourceKey := some "oauth" }

/-- The body that the controller writes for `apierrors.New(EXTERNAL_API_ERROR)`. -/
def bodyExternalError : String :=
  "\x7b\"code\":1002,\"label\":\"EXTERNAL_API_ERROR\"," ++
    "\"message\":\"External API returned an error\"\x7d"

/-- A request body laid out over three lines, indented with a tab. -/
def bodyIndented : String := "\x7b\n\t\"name\": \"Ann\"\n\x7d"

/-- A client with two default values for the header `Accept` and two for the
query parameter `v`. -/
def clientTwoAccepts : Client :=
  { Key := "MockClient", Basepath := "https://mock.example",
    DefaultHeaders := [("Accept", ["application/json", "text/plain"])],
    DefaultParams := [("v", ["1", "2"])] }

/-- A configuration for the key `MockClient` with the base path of the
examples. -/
def configMock : ClientConfig :=
  { Key := "MockClient", Basepath := "https://mock.example" }

/-- A service environment over `IdName`: the mapping copies the request, and
`http.Client.Do` finds the host unreachable. -/
def exampleService : ServiceEnv IdName IdName :=
  { Map := fun r => (r, none), marshal := exampleMarshal, parseURL := exampleParse,
    Do := fun _ _ lg =>
      (.error "Post \"https://mock.example/users\": dial tcp: connection refused", lg) }

/-- A token source like `cachedSource` whose cached token has the access token
`xyz`. -/
def otherCachedSource : TokenSource :=
  { exampleSource with Token := some ⟨"Bearer", "xyz", 0, 100, 0⟩ }


/-! ## Machine integers: basic facts -/

theorem wrapInt64_eq_self (x : Int) (h : isInt64 x) : wrapInt64 x = x := by
  unfold isInt64 at h
  unfold wrapInt64
  norm_num at h ⊢
  omega

theorem Duration.neg_eq (d : Duration) (h : -(2 ^ 63) < d ∧ d < 2 ^ 63) :
    Duration.neg d = -d := by
  obtain ⟨h1, h2⟩ := h
  unfold Duration.neg
  apply wrapInt64_eq_self
  unfold isInt64
  norm_num at h1 h2 ⊢
  unfold Duration at *
  omega

theorem Duration.mul_second_eq (e : Int) (h : -9223372036 ≤ e ∧ e ≤ 9223372036) :
    Duration.mul e Second = e * 1000000000 := by
  obtain ⟨h1, h2⟩ := h
  unfold Duration.mul Second
  apply wrapInt64_eq_self
  unfold isInt64
  norm_num
  omega

/-! ## Token validity -/

theorem Token.expired_zero_delta (t : Token) (now : Time) (h : t.expiryDelta = 0) :
    t.expired now = (decide (t.Expiry ≠ 0) && decide (t.Expiry < now)) := by
  unfold Token.expired Time.IsZero Time.Before Time.Add Time.Round0
  rw [h]
  have : Duration.neg 0 = 0 := by decide
  rw [this]
  by_cases hz : t.Expiry = 0 <;> simp [hz]

theorem decode_body3600 :
    DecodeJSONResponseBody (okResponse body3600) TokenCDO.structType.dest TokenCDO.zero
      (none : Option (Dest Unit × Unit)) =
    ⟨.OK_RESPONSE, none, ⟨"Bearer", "abc", 3600⟩, none⟩ := by
  rfl

/-! ## The response decoder with no error schema -/

theorem DecodeJSONResponseBody_err_of_not_ok {α : Type} (r : Response) (tyOk : Dest α)
    (dstOk : α)
    (h : (DecodeJSONResponseBody r tyOk dstOk (none : Option (Dest Unit × Unit))).respType
      ≠ .OK_RESPONSE) :
    (DecodeJSONResponseBody r tyOk dstOk (none : Option (Dest Unit × Unit))).err ≠ none := by
  unfold DecodeJSONResponseBody at h ⊢
  cases hb : r.Body with
  | error e => simp
  | ok data =>
    simp only [hb] at h ⊢
    rcases hu : tyOk.unmarshal data dstOk with ⟨vOk, _ | errOk⟩
    · simp only [hu] at h ⊢
      cases hs : Struct tyOk vOk with
      | none => simp [hs] at h
      | some e => simp [hs]
    · simp

/-! ## `RenewToken` and `GetToken` -/

theorem renewFinish_ok (ts : TokenSource) (resp : Response) (now : Time)
    (h : (DecodeJSONResponseBody resp TokenCDO.structType.dest TokenCDO.zero
      (none : Option (Dest Unit × Unit))).respType = .OK_RESPONSE) :
    renewFinish ts (.ok resp) now =
      (some (builtToken (DecodeJSONResponseBody resp TokenCDO.structType.dest TokenCDO.zero
          (none : Option (Dest Unit × Unit))).dstOk now),
        none,
        { ts with Token := some (builtToken (DecodeJSONResponseBody resp
          TokenCDO.structType.dest TokenCDO.zero (none : Option (Dest Unit × Unit))).dstOk
          now) }) := by
  simp only [renewFinish, h, builtToken]

theorem renewFinish_fail (ts : TokenSource) (outcome : Except String Response) (now : Time)
    (h : ∀ resp, outcome = .ok resp →
      (DecodeJSONResponseBody resp TokenCDO.structType.dest TokenCDO.zero
        (none : Option (Dest Unit × Unit))).respType ≠ .OK_RESPONSE) :
    (renewFinish ts outcome now).1 = none ∧ (renewFinish ts outcome now).2.1 ≠ none ∧
      (renewFinish ts outcome now).2.2 = ts := by
  cases outcome with
  | error e => simp [renewFinish]
  | ok resp =>
    have hne := h resp rfl
    have herr := DecodeJSONResponseBody_err_of_not_ok resp TokenCDO.structType.dest
      TokenCDO.zero hne
    cases hrt : (DecodeJSONResponseBody resp TokenCDO.structType.dest TokenCDO.zero
        (none : Option (Dest Unit × Unit))).respType with
    | OK_RESPONSE => exact absurd hrt hne
    | ERR_RESPONSE => simp only [renewFinish, hrt]; exact ⟨trivial, herr, trivial⟩
    | DECODING_ERROR => simp only [renewFinish, hrt]; exact ⟨trivial, herr, trivial⟩
    | VALIDATION_ERROR => simp only [renewFinish, hrt]; exact ⟨trivial, herr, trivial⟩

theorem GetToken_of_stale (ts : TokenSource) (env : CallEnv)
    (h : Token.Valid ts.Token env.nowCheck = false) : GetToken ts env = RenewToken ts env := by
  simp [GetToken, h]

theorem RenewToken_of_send (ts : TokenSource) (env : CallEnv)
    (hReq : env.newRequestErr ts.Client.Basepath = none) :
    RenewToken ts env =
      ⟨(renewFinish ts (env.send (renewRequest ts)) env.nowRenew).1,
        (renewFinish ts (env.send (renewRequest ts)) env.nowRenew).2.1,
        (renewFinish ts (env.send (renewRequest ts)) env.nowRenew).2.2,
        [renewRequest ts]⟩ := by
  simp [RenewToken, hReq]

/-- What `GetToken` does on the example source when the token endpoint answers
with a body that decodes to `cdo`. -/
theorem GetToken_exampleSource (body : String) (cdo : TokenCDO) (tCheck tRenew : Time)
    (h : DecodeJSONResponseBody (okResponse body) TokenCDO.structType.dest TokenCDO.zero
      (none : Option (Dest Unit × Unit)) = ⟨.OK_RESPONSE, none, cdo, none⟩) :
    (GetToken exampleSource (serverEnv body tCheck tRenew)).token
        = some (builtToken cdo tRenew) ∧
      (GetToken exampleSource (serverEnv body tCheck tRenew)).err = none := by
  have hStale : Token.Valid exampleSource.Token (serverEnv body tCheck tRenew).nowCheck
      = false := rfl
  rw [GetToken_of_stale _ _ hStale, RenewToken_of_send _ _ rfl]
  have hrt : (DecodeJSONResponseBody (okResponse body) TokenCDO.structType.dest TokenCDO.zero
      (none : Option (Dest Unit × Unit))).respType = .OK_RESPONSE := by rw [h]
  have hsend : (serverEnv body tCheck tRenew).send (renewRequest exampleSource)
      = .ok (okResponse body) := rfl
  rw [hsend, renewFinish_ok _ _ _ hrt, h]
  exact ⟨rfl, rfl⟩

theorem Token.valid_builtToken (cdo : TokenCDO) (created now : Time) :
    Token.Valid (some (builtToken cdo created)) now =
      (cdo.AccessToken != "" &&
        !(decide (created + Duration.mul cdo.ExpiresIn Second ≠ 0) &&
          decide (created + Duration.mul cdo.ExpiresIn Second < now))) := by
  simp only [Token.Valid]
  rw [Token.expired_zero_delta _ _ rfl]
  rfl

/-- C4: when the cached token is valid at the time of the call, `GetToken`
returns that cached token (which is not nil) with a nil error, hands no request
to the HTTP client, and leaves the token source, cached token included, as it
was. -/
theorem GetToken_cached_valid (ts : TokenSource) (env : CallEnv)
    (h : Token.Valid ts.Token env.nowCheck = true) :
    (GetToken ts env).token = ts.Token ∧ ts.Token ≠ none ∧ (GetToken ts env).err = none ∧
      (GetToken ts env).sent = [] ∧ (GetToken ts env).ts = ts := by
  refine ⟨?_, ?_, ?_, ?_, ?_⟩
  · simp [GetToken, h]
  · intro hnil
    rw [hnil] at h
    simp [Token.Valid] at h
  · simp [GetToken, h]
  · simp [GetToken, h]
  · simp [GetToken, h]

theorem GetToken_cached_valid_witness :
    Token.Valid cachedSource.Token (serverEnv body3600 50 50).nowCheck = true ∧
      (GetToken cachedSource (serverEnv body3600 50 50)).token = cachedSource.Token ∧
      cachedSource.Token ≠ none ∧
      (GetToken cachedSource (serverEnv body3600 50 50)).err = none ∧
      (GetToken cachedSource (serverEnv body3600 50 50)).sent = [] ∧
      (GetToken cachedSource (serverEnv body3600 50 50)).ts = cachedSource :=
  ⟨by decide, GetToken_cached_valid cachedSource (serverEnv body3600 50 50) (by decide)⟩

/-- C2, evaluated on the code: a token renewed at time `T` from a response with
`expires_in = 3600`, on a source configured with the default delta of 60 s,
carries `expiryDelta = 0`; it is valid at `T + 3000 s` and it is still valid at
`T + 3600 s`. -/
theorem renewed_token_valid_at_3600 (T : Time) :
    exampleSource.ExpiryDelta = 60 * Second ∧
      (GetToken exampleSource (serverEnv body3600 T T)).token
        = some ⟨"Bearer", "abc", T, T + 3600 * Second, 0⟩ ∧
      Token.Valid (GetToken exampleSource (serverEnv body3600 T T)).token (T + 3000 * Second)
        = true ∧
      Token.Valid (GetToken exampleSource (serverEnv body3600 T T)).token (T + 3600 * Second)
        = true := by
  have h := (GetToken_exampleSource body3600 _ T T decode_body3600).1
  have hmul : Duration.mul 3600 Second = 3600 * Second := by decide
  refine ⟨rfl, ?_, ?_, ?_⟩
  · rw [h]; simp only [builtToken, Time.Add, hmul]
  · rw [h, Token.valid_builtToken, hmul]
    unfold Time Second at *
    simp
  · rw [h, Token.valid_builtToken, hmul]
    unfold Time Second at *
    simp

/-- C1, refuted as stated: the token with expiry 100 and delta 10 is valid at
`now = 90 = Expiry - expiryDelta`, where `now < Expiry - expiryDelta` fails. -/
theorem Token.valid_at_bound :
    boundaryToken.AccessToken ≠ "" ∧ boundaryToken.Expiry ≠ 0 ∧
      Token.Valid (some boundaryToken) (boundaryToken.Expiry - boundaryToken.expiryDelta) = true ∧
      ¬ (boundaryToken.Expiry - boundaryToken.expiryDelta
          < boundaryToken.Expiry - boundaryToken.expiryDelta) := by
  decide

/-- C1, as the code has it: a non-nil token with a non-empty access token is
valid at every time when its expiry is the zero time, and otherwise exactly
when `now ≤ Expiry - expiryDelta`, the bound included (for every expiry delta
whose negation is a `time.Duration`). -/
theorem Token.valid_iff_le (t : Token) (now : Time) (hTok : t.AccessToken ≠ "")
    (hDelta : -(2 ^ 63) < t.expiryDelta ∧ t.expiryDelta < 2 ^ 63) :
    (t.Expiry = 0 → Token.Valid (some t) now = true) ∧
    (t.Expiry ≠ 0 → (Token.Valid (some t) now = true ↔ now ≤ t.Expiry - t.expiryDelta)) := by
  have hneg := Duration.neg_eq t.expiryDelta hDelta
  constructor
  · intro hz
    simp [Token.Valid, Token.expired, Time.IsZero, hz, hTok]
  · intro hz
    simp only [Token.Valid, Token.expired, Time.IsZero, Time.Before, Time.Add, Time.Round0,
      hneg]
    simp [hz, hTok]
    unfold Time Duration at *
    omega

theorem Token.valid_iff_le_witness :
    boundaryToken.AccessToken ≠ "" ∧
      (-(2 ^ 63) < boundaryToken.expiryDelta ∧ boundaryToken.expiryDelta < 2 ^ 63) ∧
      (Token.Valid (some boundaryToken) 90 = true ↔
        (90 : Time) ≤ boundaryToken.Expiry - boundaryToken.expiryDelta) :=
  ⟨by decide, by decide,
    (Token.valid_iff_le boundaryToken 90 (by decide) (by decide)).2 (by decide)⟩

/-- C3, evaluated on the code: the source is configured with the default delta
`d = 60 s` and renews at time `T` from a response with `expires_in = 3600`; the
token it stores is valid at `T + 3600 s - d`, and at every later instant up to
`T + 3600 s`, so the delta of the source is not subtracted. -/
theorem renewed_token_ignores_source_delta (T : Time) :
    Token.Valid (GetToken exampleSource (serverEnv body3600 T T)).token
        (T + 3600 * Second - exampleSource.ExpiryDelta) = true ∧
      Token.Valid (GetToken exampleSource (serverEnv body3600 T T)).token
        (T + 3600 * Second - 1) = true := by
  have h := (GetToken_exampleSource body3600 _ T T decode_body3600).1
  have hmul : Duration.mul 3600 Second = 3600 * Second := by decide
  have hd : exampleSource.ExpiryDelta = 60000000000 := rfl
  constructor
  · rw [h, Token.valid_builtToken, hmul, hd]
    unfold Time Second at *
    simp
  · rw [h, Token.valid_builtToken, hmul]
    unfold Time Second at *
    simp

theorem decode_bodyNoToken :
    DecodeJSONResponseBody (okResponse bodyNoToken) TokenCDO.structType.dest TokenCDO.zero
      (none : Option (Dest Unit × Unit)) =
    ⟨.OK_RESPONSE, none, ⟨"Bearer", "", 3600⟩, none⟩ := by
  rfl

/-- C7, evaluated on the code: when the token endpoint answers with an empty
`access_token`, `GetToken` returns a nil error together with a non-nil token
that is not valid at any time. -/
theorem GetToken_returns_invalid_token (T now : Time) :
    (GetToken exampleSource (serverEnv bodyNoToken T T)).err = none ∧
      (GetToken exampleSource (serverEnv bodyNoToken T T)).token
        = some ⟨"Bearer", "", T, T + 3600 * Second, 0⟩ ∧
      Token.Valid (GetToken exampleSource (serverEnv bodyNoToken T T)).token now = false := by
  have h := GetToken_exampleSource bodyNoToken _ T T decode_bodyNoToken
  have hmul : Duration.mul 3600 Second = 3600 * Second := by decide
  refine ⟨h.2, ?_, ?_⟩
  · rw [h.1]; simp only [builtToken, Time.Add, hmul]
  · rw [h.1, Token.valid_builtToken]
    simp

theorem decode_bodyHuge :
    DecodeJSONResponseBody (okResponse bodyHuge) TokenCDO.structType.dest TokenCDO.zero
      (none : Option (Dest Unit × Unit)) =
    ⟨.OK_RESPONSE, none, ⟨"Bearer", "abc", 9223372037⟩, none⟩ := by
  rfl

/-- C5, refuted as stated: renewing at time 0 from a response that declares
`expires_in = 9223372037` succeeds, and the expiry of the new token is not
`now + expires_in` seconds: the nanosecond count of the lifetime wraps around
to a negative `time.Duration`. -/
theorem GetToken_expiry_wraps :
    (GetToken exampleSource (serverEnv bodyHuge 0 0)).err = none ∧
      (GetToken exampleSource (serverEnv bodyHuge 0 0)).token
        = some ⟨"Bearer", "abc", 0, -9223372036709551616, 0⟩ ∧
      (-9223372036709551616 : Time) ≠ 0 + 9223372037 * Second := by
  have h := GetToken_exampleSource bodyHuge _ 0 0 decode_bodyHuge
  refine ⟨h.2, ?_, by decide⟩
  rw [h.1]
  decide

/-- C5, as the code has it: when the cached token is nil or not valid and the
renewal succeeds (the request is built, the HTTP client returns a response, the
response decodes to `OK_RESPONSE`), `GetToken` returns a new token with a nil
error after exactly one request, and the token source afterwards is the old one
with the new token as its cached token.  The new token carries the decoded
type and access token, `CreationTime = now`, and
`Expiry = now + expires_in * time.Second` computed in `int64` nanoseconds: that
is `now + expires_in` seconds whenever `|expires_in| ≤ 9223372036`. -/
theorem GetToken_renew_ok (ts : TokenSource) (env : CallEnv) (resp : Response)
    (hStale : Token.Valid ts.Token env.nowCheck = false)
    (hReq : env.newRequestErr ts.Client.Basepath = none)
    (hSend : env.send (renewRequest ts) = .ok resp)
    (hOk : (DecodeJSONResponseBody resp TokenCDO.structType.dest TokenCDO.zero
      (none : Option (Dest Unit × Unit))).respType = .OK_RESPONSE) :
    ∃ tok : Token,
      (GetToken ts env).token = some tok ∧ (GetToken ts env).err = none ∧
      (GetToken ts env).sent = [renewRequest ts] ∧
      (GetToken ts env).ts = { ts with Token := some tok } ∧
      (GetToken ts env).ts.Token = some tok ∧
      tok.TokenType = (DecodeJSONResponseBody resp TokenCDO.structType.dest TokenCDO.zero
        (none : Option (Dest Unit × Unit))).dstOk.TokenType ∧
      tok.AccessToken = (DecodeJSONResponseBody resp TokenCDO.structType.dest TokenCDO.zero
        (none : Option (Dest Unit × Unit))).dstOk.AccessToken ∧
      tok.CreationTime = env.nowRenew ∧
      tok.Expiry = env.nowRenew + wrapInt64
        ((DecodeJSONResponseBody resp TokenCDO.structType.dest TokenCDO.zero
          (none : Option (Dest Unit × Unit))).dstOk.ExpiresIn * Second) ∧
      (-9223372036 ≤ (DecodeJSONResponseBody resp TokenCDO.structType.dest TokenCDO.zero
          (none : Option (Dest Unit × Unit))).dstOk.ExpiresIn ∧
        (DecodeJSONResponseBody resp TokenCDO.structType.dest TokenCDO.zero
          (none : Option (Dest Unit × Unit))).dstOk.ExpiresIn ≤ 9223372036 →
        tok.Expiry = env.nowRenew +
          (DecodeJSONResponseBody resp TokenCDO.structType.dest TokenCDO.zero
            (none : Option (Dest Unit × Unit))).dstOk.ExpiresIn * Second) := by
  refine ⟨builtToken (DecodeJSONResponseBody resp TokenCDO.structType.dest TokenCDO.zero
    (none : Option (Dest Unit × Unit))).dstOk env.nowRenew, ?_⟩
  rw [GetToken_of_stale _ _ hStale, RenewToken_of_send _ _ hReq, hSend,
    renewFinish_ok _ _ _ hOk]
  refine ⟨rfl, rfl, rfl, rfl, rfl, rfl, rfl, rfl, rfl, ?_⟩
  intro hr
  have := Duration.mul_second_eq _ hr
  simp only [builtToken, Time.Add]
  rw [this]
  rfl

theorem GetToken_renew_ok_witness :
    Token.Valid exampleSource.Token (serverEnv body3600 5 7).nowCheck = false ∧
      ∃ tok : Token,
        (GetToken exampleSource (serverEnv body3600 5 7)).token = some tok ∧
        (GetToken exampleSource (serverEnv body3600 5 7)).ts.Token = some tok ∧
        tok.CreationTime = 7 ∧ tok.Expiry = 7 + 3600 * Second := by
  obtain ⟨tok, h1, _, _, _, h5, _, _, h8, _, h10⟩ :=
    GetToken_renew_ok exampleSource (serverEnv body3600 5 7) (okResponse body3600)
      rfl rfl rfl (by rw [decode_body3600])
  refine ⟨rfl, tok, h1, h5, h8, ?_⟩
  rw [decode_body3600] at h10
  exact h10 (by decide)

/-- C6: when the cached token is nil or not valid and the renewal fails (the
request cannot be built, the HTTP client returns an error, or the response does
not decode to `OK_RESPONSE`), `GetToken` returns a nil token with a non-nil
error, has handed at most one request to the HTTP client, and leaves the token
source, cached token included, as it was. -/
theorem GetToken_renew_fail (ts : TokenSource) (env : CallEnv)
    (hStale : Token.Valid ts.Token env.nowCheck = false)
    (hFail : env.newRequestErr ts.Client.Basepath ≠ none ∨
      (∃ e, env.send (renewRequest ts) = .error e) ∨
      (∃ resp, env.send (renewRequest ts) = .ok resp ∧
        (DecodeJSONResponseBody resp TokenCDO.structType.dest TokenCDO.zero
          (none : Option (Dest Unit × Unit))).respType ≠ .OK_RESPONSE)) :
    (GetToken ts env).token = none ∧ (GetToken ts env).err ≠ none ∧
      (GetToken ts env).sent.length ≤ 1 ∧ (GetToken ts env).ts = ts ∧
      (GetToken ts env).ts.Token = ts.Token := by
  rw [GetToken_of_stale _ _ hStale]
  cases hReq : env.newRequestErr ts.Client.Basepath with
  | some e => simp [RenewToken, hReq]
  | none =>
    rw [RenewToken_of_send _ _ hReq]
    have hfin : ∀ resp, env.send (renewRequest ts) = .ok resp →
        (DecodeJSONResponseBody resp TokenCDO.structType.dest TokenCDO.zero
          (none : Option (Dest Unit × Unit))).respType ≠ .OK_RESPONSE := by
      intro resp hresp
      rcases hFail with h | ⟨e, h⟩ | ⟨resp2, h, hne⟩
      · exact absurd hReq h
      · rw [h] at hresp; cases hresp
      · rw [h] at hresp
        cases hresp
        exact hne
    obtain ⟨h1, h2, h3⟩ := renewFinish_fail ts (env.send (renewRequest ts)) env.nowRenew hfin
    refine ⟨h1, h2, by simp, h3, by rw [h3]⟩

theorem GetToken_renew_fail_witness :
    Token.Valid cachedSource.Token (101 : Time) = false ∧
      (GetToken cachedSource { brokenEnv with nowCheck := 101 }).token = none ∧
      (GetToken cachedSource { brokenEnv with nowCheck := 101 }).err ≠ none ∧
      (GetToken cachedSource { brokenEnv with nowCheck := 101 }).sent.length ≤ 1 ∧
      (GetToken cachedSource { brokenEnv with nowCheck := 101 }).ts = cachedSource ∧
      (GetToken cachedSource { brokenEnv with nowCheck := 101 }).ts.Token
        = cachedSource.Token :=
  ⟨by decide,
    GetToken_renew_fail cachedSource { brokenEnv with nowCheck := 101 } (by decide)
      (Or.inr (Or.inl ⟨"dial tcp: connection refused", rfl⟩))⟩

/-! ## `FlatErrors` joins with "; " -/

theorem String.append_ne_empty_left (a b : String) (h : a ≠ "") : a ++ b ≠ "" := by
  intro hab
  apply h
  have hd : (a ++ b).data = [] := by rw [hab]
  rw [String.data_append] at hd
  have : a.data = [] := (List.append_eq_nil.mp hd).1
  exact String.ext this

theorem FieldError.Error_ne_empty (fe : FieldError) : fe.Error ≠ "" := by
  unfold FieldError.Error
  repeat apply String.append_ne_empty_left
  decide

theorem FlatErrors_foldl (es : List FieldError) (acc : String) (h : acc ≠ "") :
    es.foldl (fun msg err =>
      let errMsg := err.Error
      if msg == "" then errMsg else msg ++ "; " ++ errMsg) acc
      = String.intercalate.go acc "; " (es.map FieldError.Error) := by
  induction es generalizing acc with
  | nil => simp [String.intercalate.go]
  | cons e es ih =>
    simp only [List.foldl_cons, List.map_cons, String.intercalate.go]
    have hacc : (acc == "") = false := by simpa using h
    simp only [hacc]
    apply ih
    apply String.append_ne_empty_left
    apply String.append_ne_empty_left
    exact h

/-- The text `FlatErrors` builds is the messages of the field errors, in
order, joined by "; ". -/
theorem FlatErrors_eq_intercalate (es : List FieldError) :
    FlatErrors es = String.intercalate "; " (es.map FieldError.Error) := by
  cases es with
  | nil => rfl
  | cons e es =>
    simp only [FlatErrors, List.foldl_cons, List.map_cons, String.intercalate]
    have : (("" : String) == "") = true := by decide
    simp only [this]
    exact FlatErrors_foldl es e.Error (FieldError.Error_ne_empty e)

/-! ## The response decoder: success schema first -/

theorem DecodeJSONResponseBody_of_unmarshal {α β : Type} (r : Response) (data : List Char)
    (tyOk : Dest α) (dstOk vOk : α) (dstErr : Option (Dest β × β))
    (hBody : r.Body = .ok data) (hOk : tyOk.unmarshal data dstOk = (vOk, none)) :
    DecodeJSONResponseBody r tyOk dstOk dstErr =
      match Struct tyOk vOk with
      | some e => ⟨.VALIDATION_ERROR, some e, vOk, dstErr.map (·.2)⟩
      | none => ⟨.OK_RESPONSE, none, vOk, dstErr.map (·.2)⟩ := by
  simp only [DecodeJSONResponseBody, hBody, hOk]

/-- C9: when the body unmarshals into the success schema, the classification
does not depend on the error schema, whose destination is left as it was: the
result is `OK_RESPONSE` with a nil error when validation of the decoded success
value passes, and `VALIDATION_ERROR` otherwise, carrying the error of `Struct`,
which for field violations is their messages joined by "; " (and the fixed
text of `Struct` when the destination is not a struct). -/
theorem DecodeJSONResponseBody_success_first {α β : Type} (r : Response) (data : List Char)
    (tyOk : Dest α) (dstOk vOk : α) (dstErr : Option (Dest β × β))
    (hBody : r.Body = .ok data) (hOk : tyOk.unmarshal data dstOk = (vOk, none)) :
    (DecodeJSONResponseBody r tyOk dstOk dstErr).dstOk = vOk ∧
      (DecodeJSONResponseBody r tyOk dstOk dstErr).dstErr = dstErr.map (·.2) ∧
      (tyOk.validate vOk = .valid →
        (DecodeJSONResponseBody r tyOk dstOk dstErr).respType = .OK_RESPONSE ∧
        (DecodeJSONResponseBody r tyOk dstOk dstErr).err = none) ∧
      (∀ errs, tyOk.validate vOk = .failed errs →
        (DecodeJSONResponseBody r tyOk dstOk dstErr).respType = .VALIDATION_ERROR ∧
        (DecodeJSONResponseBody r tyOk dstOk dstErr).err
          = some (String.intercalate "; " (errs.map FieldError.Error))) ∧
      (tyOk.validate vOk = .invalidValidation →
        (DecodeJSONResponseBody r tyOk dstOk dstErr).respType = .VALIDATION_ERROR ∧
        (DecodeJSONResponseBody r tyOk dstOk dstErr).err
          = some "invalid validation found while validating client response") ∧
      (∀ (γ : Type) (other : Option (Dest γ × γ)),
        (DecodeJSONResponseBody r tyOk dstOk other).respType
          = (DecodeJSONResponseBody r tyOk dstOk dstErr).respType ∧
        (DecodeJSONResponseBody r tyOk dstOk other).err
          = (DecodeJSONResponseBody r tyOk dstOk dstErr).err ∧
        (DecodeJSONResponseBody r tyOk dstOk other).dstOk
          = (DecodeJSONResponseBody r tyOk dstOk dstErr).dstOk) := by
  have h := DecodeJSONResponseBody_of_unmarshal r data tyOk dstOk vOk dstErr hBody hOk
  refine ⟨?_, ?_, ?_, ?_, ?_, ?_⟩
  · rw [h]; cases Struct tyOk vOk <;> rfl
  · rw [h]; cases Struct tyOk vOk <;> rfl
  · intro hv
    rw [h]
    simp [Struct, hv]
  · intro errs hv
    rw [h]
    simp [Struct, hv, FlatErrors_eq_intercalate]
  · intro hv
    rw [h]
    simp [Struct, hv]
  · intro γ other
    rw [h, DecodeJSONResponseBody_of_unmarshal r data tyOk dstOk vOk other hBody hOk]
    cases Struct tyOk vOk <;> exact ⟨rfl, rfl, rfl⟩

theorem DecodeJSONResponseBody_success_first_witness :
    (okResponse bodyAnn).Body = .ok bodyAnn.data ∧
      IdName.structType.dest.unmarshal bodyAnn.data ⟨0, ""⟩ = (⟨1, "Ann"⟩, none) ∧
      (DecodeJSONResponseBody (okResponse bodyAnn) IdName.structType.dest ⟨0, ""⟩
        (some (errorCDO.structType.dest, errorCDO.zero))).respType = .OK_RESPONSE ∧
      (DecodeJSONResponseBody (okResponse bodyAnn) IdName.structType.dest ⟨0, ""⟩
        (some (errorCDO.structType.dest, errorCDO.zero))).err = none ∧
      (DecodeJSONResponseBody (okResponse bodyAnn) IdName.structType.dest ⟨0, ""⟩
        (some (errorCDO.structType.dest, errorCDO.zero))).dstOk = ⟨1, "Ann"⟩ :=
  have h := DecodeJSONResponseBody_success_first (okResponse bodyAnn) bodyAnn.data
    IdName.structType.dest ⟨0, ""⟩ ⟨1, "Ann"⟩
    (some (errorCDO.structType.dest, errorCDO.zero)) rfl rfl
  ⟨rfl, rfl, (h.2.2.1 rfl).1, (h.2.2.1 rfl).2, h.1⟩

/-! ## The response decoder: a body without the required success fields -/

theorem decodeMembers_no_field {α : Type} (st : StructType α)
    (ms : List (List Char × JValue)) (v : α) (err : Option JsonError)
    (h : ∀ m ∈ ms, findField st.fields m.1 = none) :
    decodeMembers st ms v err = (v, err) := by
  induction ms generalizing v err with
  | nil => rfl
  | cons m ms ih =>
    obtain ⟨k, j⟩ := m
    have hk : findField st.fields k = none := h (k, j) (List.mem_cons_self _ _)
    simp only [decodeMembers, hk]
    exact ih v err (fun m hm => h m (List.mem_cons_of_mem _ hm))

/-- C10, refuted as stated: the body with `code` and `message`, decoded with
the success schema that requires `id` and `name` and with the error schema, is
classified `VALIDATION_ERROR`, not `ERR_RESPONSE`, and the error value is left
empty. -/
theorem DecodeJSONResponseBody_error_body_not_external :
    (DecodeJSONResponseBody (okResponse bodyErr1) IdName.structType.dest ⟨0, ""⟩
        (some (errorCDO.structType.dest, errorCDO.zero))).respType = .VALIDATION_ERROR ∧
      (DecodeJSONResponseBody (okResponse bodyErr1) IdName.structType.dest ⟨0, ""⟩
        (some (errorCDO.structType.dest, errorCDO.zero))).respType ≠ .ERR_RESPONSE ∧
      (DecodeJSONResponseBody (okResponse bodyErr1) IdName.structType.dest ⟨0, ""⟩
        (some (errorCDO.structType.dest, errorCDO.zero))).dstErr = some ⟨"", ""⟩ := by
  decide

/-- C10, as the code has it: for a well-formed JSON object none of whose keys
names a field of the success struct, while the success value as it stands
violates its tags (its required fields are empty), the result is
`VALIDATION_ERROR` carrying those violations joined by "; "; the success value
and the error value are left as they were, whatever error schema is given. -/
theorem DecodeJSONResponseBody_missing_required {α β : Type} (st : StructType α) (v0 : α)
    (r : Response) (data : List Char) (ms : List (List Char × JValue)) (off : Nat)
    (dstErr : Option (Dest β × β))
    (hBody : r.Body = .ok data) (hParse : parseJSON data = .ok (.object ms off))
    (hKeys : ∀ m ∈ ms, findField st.fields m.1 = none)
    (hReq : fieldErrors st v0 ≠ []) :
    (DecodeJSONResponseBody r st.dest v0 dstErr).respType = .VALIDATION_ERROR ∧
      (DecodeJSONResponseBody r st.dest v0 dstErr).err
        = some (String.intercalate "; " ((fieldErrors st v0).map FieldError.Error)) ∧
      (DecodeJSONResponseBody r st.dest v0 dstErr).dstOk = v0 ∧
      (DecodeJSONResponseBody r st.dest v0 dstErr).dstErr = dstErr.map (·.2) := by
  have hu : st.dest.unmarshal data v0 = (v0, none) := by
    simp only [StructType.dest, jsonUnmarshalStruct, hParse, decodeStruct]
    exact decodeMembers_no_field st ms v0 none hKeys
  have hv : st.dest.validate v0 = .failed (fieldErrors st v0) := by
    simp only [StructType.dest, validateStruct]
    cases hfe : fieldErrors st v0 with
    | nil => exact absurd hfe hReq
    | cons e es => rfl
  have h := DecodeJSONResponseBody_of_unmarshal r data st.dest v0 v0 dstErr hBody hu
  rw [h]
  simp [Struct, hv, FlatErrors_eq_intercalate]

/-! ## Several callers: mutual exclusion and the single renewal -/

theorem renewFinish_token_some (ts : TokenSource) (outcome : Except String Response)
    (now : Time) (tok : Token) (h : (renewFinish ts outcome now).1 = some tok) :
    renewFinish ts outcome now = (some tok, none, { ts with Token := some tok }) := by
  cases outcome with
  | error e => simp [renewFinish] at h
  | ok resp =>
    cases hrt : (DecodeJSONResponseBody resp TokenCDO.structType.dest TokenCDO.zero
        (none : Option (Dest Unit × Unit))).respType with
    | OK_RESPONSE =>
      rw [renewFinish_ok ts resp now hrt] at h ⊢
      simp only [Option.some.injEq] at h
      rw [h]
    | ERR_RESPONSE => simp [renewFinish, hrt] at h
    | DECODING_ERROR => simp [renewFinish, hrt] at h
    | VALIDATION_ERROR => simp [renewFinish, hrt] at h

theorem step_mutex (s s' : Sys) (a : Action) (hInv : MutexInv s)
    (hStep : step s a = some s') : MutexInv s' := by
  unfold MutexInv at hInv ⊢
  cases a with
  | lock i =>
    simp only [step] at hStep
    cases hc : s.callers i <;> cases hm : s.mu <;> simp [hc, hm] at hStep
    subst hStep
    intro j
    by_cases hj : j = i
    · subst hj; simp
    · have := hInv j
      simp only [hm] at this
      simp [Function.update_noteq hj, this, Ne.symm hj]
  | enter i now reqErr =>
    simp only [step] at hStep
    cases hc : s.callers i <;> simp [hc] at hStep
    have hmi : s.mu = some i := (hInv i).mp (Or.inl hc)
    have hother : ∀ j, j ≠ i → ¬ (s.callers j = .locked ∨ s.callers j = .renewing) := by
      intro j hj hcj
      have := (hInv j).mp hcj
      rw [hmi] at this
      exact hj (Option.some.inj this).symm
    by_cases hv : Token.Valid s.ts.Token now = true
    · simp [hv] at hStep
      subst hStep
      intro j
      by_cases hj : j = i
      · subst hj; simp
      · have := hother j hj
        simp [Function.update_noteq hj, this]
    · simp [hv] at hStep
      cases reqErr with
      | some e =>
        simp at hStep
        subst hStep
        intro j
        by_cases hj : j = i
        · subst hj; simp
        · have := hother j hj
          simp [Function.update_noteq hj, this]
      | none =>
        simp at hStep
        subst hStep
        intro j
        by_cases hj : j = i
        · subst hj; simp [hmi]
        · have := hother j hj
          simp [Function.update_noteq hj, this, hmi, Ne.symm hj]
  | receive i outcome now =>
    simp only [step] at hStep
    cases hc : s.callers i <;> simp [hc] at hStep
    have hmi : s.mu = some i := (hInv i).mp (Or.inr hc)
    subst hStep
    intro j
    by_cases hj : j = i
    · subst hj; simp
    · have hcj : ¬ (s.callers j = .locked ∨ s.callers j = .renewing) := by
        intro hcj
        have := (hInv j).mp hcj
        rw [hmi] at this
        exact hj (Option.some.inj this).symm
      simp [Function.update_noteq hj, hcj]

theorem step_episode (ts : TokenSource) (checks : Time → Prop)
    (hStale : ∀ now, checks now → Token.Valid ts.Token now = false)
    (s s' : Sys) (a : Action) (hMu : MutexInv s) (hInv : EpisodeInv ts checks s)
    (hAct : ActOk ts checks a) (hStep : step s a = some s') : EpisodeInv ts checks s' := by
  unfold MutexInv at hMu
  unfold EpisodeInv at hInv ⊢
  cases a with
  | lock i =>
    simp only [step] at hStep
    cases hc : s.callers i <;> cases hm : s.mu <;> simp [hc, hm] at hStep
    subst hStep
    rcases hInv with ⟨h1, h2, h3⟩ | ⟨_, _, k, hk, _⟩ | ⟨tok, h1, h2, h3, h4⟩
    · refine Or.inl ⟨h1, h2, fun j => ?_⟩
      by_cases hj : j = i
      · subst hj; simp
      · simpa [Function.update_noteq hj] using h3 j
    · have := (hMu k).mp (Or.inr hk)
      rw [hm] at this
      cases this
    · refine Or.inr (Or.inr ⟨tok, h1, h2, h3, fun j => ?_⟩)
      by_cases hj : j = i
      · subst hj; simp
      · simpa [Function.update_noteq hj] using h4 j
  | enter i now reqErr =>
    simp only [step] at hStep
    cases hc : s.callers i <;> simp [hc] at hStep
    obtain ⟨hchk, hreq⟩ := hAct
    subst hreq
    have hmi : s.mu = some i := (hMu i).mp (Or.inl hc)
    rcases hInv with ⟨h1, h2, h3⟩ | ⟨_, _, k, hk, hrest⟩ | ⟨tok, h1, h2, h3, h4⟩
    · have hv : Token.Valid s.ts.Token now = false := by rw [h1]; exact hStale now hchk
      simp [hv] at hStep
      subst hStep
      refine Or.inr (Or.inl ⟨h1, by simp [h2], i, by simp, fun j hj => ?_⟩)
      rcases h3 j with hw | hl
      · simpa [Function.update_noteq hj] using hw
      · have := (hMu j).mp (Or.inl hl)
        rw [hmi] at this
        exact absurd (Option.some.inj this).symm hj
    · by_cases hik : i = k
      · subst hik; rw [hc] at hk; cases hk
      · have := hrest i hik
        rw [hc] at this
        cases this
    · have hv : Token.Valid s.ts.Token now = true := by rw [h1]; exact h2 now hchk
      simp [hv] at hStep
      subst hStep
      refine Or.inr (Or.inr ⟨tok, h1, h2, h3, fun j => ?_⟩)
      by_cases hj : j = i
      · subst hj; simp [h1]
      · simpa [Function.update_noteq hj] using h4 j
  | receive i outcome now =>
    simp only [step] at hStep
    cases hc : s.callers i <;> simp [hc] at hStep
    obtain ⟨tok, htok, hvalid⟩ := hAct
    subst hStep
    rcases hInv with ⟨_, _, h3⟩ | ⟨h1, h2, k, hk, hrest⟩ | ⟨tok2, _, _, _, h4⟩
    · rcases h3 i with h | h <;> rw [hc] at h <;> cases h
    · have hfin := renewFinish_token_some ts outcome now tok htok
      refine Or.inr (Or.inr ⟨tok, by rw [h1, hfin], hvalid, h2, fun j => ?_⟩)
      by_cases hj : j = i
      · subst hj; simp [h1, hfin]
      · have hjk : j ≠ k := by
          intro hjk
          subst hjk
          by_cases hik : i = j
          · exact hj hik.symm
          · have := hrest i hik
            rw [hc] at this
            cases this
        simp [Function.update_noteq hj, hrest j hjk]
    · rcases h4 i with h | h | h <;> rw [hc] at h <;> cases h

theorem run_inv (ts : TokenSource) (checks : Time → Prop)
    (hStale : ∀ now, checks now → Token.Valid ts.Token now = false)
    (acts : List Action) :
    ∀ s s', MutexInv s → EpisodeInv ts checks s → (∀ a ∈ acts, ActOk ts checks a) →
      run s acts = some s' → MutexInv s' ∧ EpisodeInv ts checks s' := by
  induction acts with
  | nil =>
    intro s s' hMu hEp _ hRun
    simp only [run, Option.some.injEq] at hRun
    subst hRun
    exact ⟨hMu, hEp⟩
  | cons a acts ih =>
    intro s s' hMu hEp hActs hRun
    simp only [run] at hRun
    cases hstep : step s a with
    | none => simp [hstep] at hRun
    | some s1 =>
      simp only [hstep] at hRun
      have ha : ActOk ts checks a := hActs a (List.mem_cons_self _ _)
      exact ih s1 s' (step_mutex s s1 a hMu hstep)
        (step_episode ts checks hStale s s1 a hMu hEp ha hstep)
        (fun b hb => hActs b (List.mem_cons_of_mem _ hb)) hRun

theorem init_inv (ts : TokenSource) (checks : Time → Prop) :
    MutexInv (Sys.init ts) ∧ EpisodeInv ts checks (Sys.init ts) := by
  constructor
  · intro i
    simp [Sys.init]
  · exact Or.inl ⟨rfl, rfl, fun _ => Or.inl rfl⟩

/-- One undisturbed call in the interleaving model does what `GetToken` does. -/
theorem run_soloCall (ts : TokenSource) (env : CallEnv) (i : Nat) :
    ∃ s, run (Sys.init ts) (soloCall ts env i) = some s ∧
      s.callers i = .returned (GetToken ts env).token (GetToken ts env).err ∧
      s.ts = (GetToken ts env).ts ∧ s.sent = (GetToken ts env).sent ∧ s.mu = none := by
  by_cases hv : Token.Valid ts.Token env.nowCheck = true
  · simp [soloCall, run, step, Sys.init, GetToken, hv]
  · cases hreq : env.newRequestErr ts.Client.Basepath with
    | some e => simp [soloCall, run, step, Sys.init, GetToken, RenewToken, hv, hreq]
    | none => simp [soloCall, run, step, Sys.init, GetToken, RenewToken, hv, hreq]

/-- A token that expires while a caller waits: two callers share the example
source, whose cache is empty.  Caller 0 takes the mutex and renews
successfully; the token it stores lives one second.  Caller 1, blocked
meanwhile, looks at the clock two seconds later, when the cache is stale anew:
a second request is sent and caller 1 returns another token than the one
caller 0 stored. -/
theorem two_callers_two_renewals :
    (run (Sys.init exampleSource) twoCallersShortLived).map (fun s => s.sent.length) = some 2 ∧
      (run (Sys.init exampleSource) twoCallersShortLived).map (fun s => s.callers 0)
        = some (.returned (some ⟨"Bearer", "abc", 0, 1000000000, 0⟩) none) ∧
      (run (Sys.init exampleSource) twoCallersShortLived).map (fun s => s.callers 1)
        = some (.returned (some ⟨"Bearer", "abc", 2000000000, 3000000000, 0⟩) none) := by
  decide

/-- One renewal when the renewed token is valid.  Any number of callers of
`GetToken` share a token source whose cached token is stale or absent whenever a
caller looks at the clock; request construction succeeds, and a renewal that
completes succeeds with a token that is valid whenever a caller looks at the
clock.  Then in
every state of every interleaving at most one caller is inside the renewal
request, at most one request has been sent, and once callers `0 .. N-1`
(`N ≥ 1`) have returned exactly one request has been sent and each of them has
returned, with a nil error, the token that is stored in the source. -/
theorem GetToken_single_renewal (ts : TokenSource) (acts : List Action) (s : Sys)
    (hRun : run (Sys.init ts) acts = some s)
    (hStale : ∀ i now e, Action.enter i now e ∈ acts → Token.Valid ts.Token now = false)
    (hReq : ∀ i now e, Action.enter i now e ∈ acts → e = none)
    (hRenew : ∀ i outcome now, Action.receive i outcome now ∈ acts →
      ∃ tok, (renewFinish ts outcome now).1 = some tok ∧
        ∀ j now' e, Action.enter j now' e ∈ acts → Token.Valid (some tok) now' = true) :
    (∀ i j, s.callers i = .renewing → s.callers j = .renewing → i = j) ∧
      s.sent.length ≤ 1 ∧
      ∀ N, 1 ≤ N → (∀ i, i < N → (s.callers i).isReturned = true) →
        s.sent.length = 1 ∧
        ∃ tok, s.ts.Token = some tok ∧ ∀ i, i < N → s.callers i = .returned (some tok) none := by
  have hActs : ∀ a ∈ acts, ActOk ts (checkTimes acts) a := by
    intro a ha
    cases a with
    | lock i => trivial
    | enter i now e => exact ⟨⟨i, e, ha⟩, hReq i now e ha⟩
    | receive i outcome now =>
      obtain ⟨tok, h1, h2⟩ := hRenew i outcome now ha
      exact ⟨tok, h1, fun now' ⟨j, e, hj⟩ => h2 j now' e hj⟩
  have hSt : ∀ now, checkTimes acts now → Token.Valid ts.Token now = false :=
    fun now ⟨i, e, h⟩ => hStale i now e h
  obtain ⟨hMu, hEp⟩ := run_inv ts (checkTimes acts) hSt acts (Sys.init ts) s
    (init_inv ts (checkTimes acts)).1 (init_inv ts (checkTimes acts)).2 hActs hRun
  refine ⟨?_, ?_, ?_⟩
  · intro i j hi hj
    have h1 := (hMu i).mp (Or.inr hi)
    have h2 := (hMu j).mp (Or.inr hj)
    rw [h1] at h2
    exact Option.some.inj h2
  · rcases hEp with ⟨_, h, _⟩ | ⟨_, h, _⟩ | ⟨_, _, _, h, _⟩
    · simp [h]
    · omega
    · omega
  · intro N hN hDone
    have h0 := hDone 0 (by omega)
    rcases hEp with ⟨_, _, h3⟩ | ⟨_, _, k, hk, hrest⟩ | ⟨tok, h1, _, h3, h4⟩
    · rcases h3 0 with h | h <;> rw [h] at h0 <;> simp [Caller.isReturned] at h0
    · by_cases h0k : 0 = k
      · subst h0k; rw [hk] at h0; simp [Caller.isReturned] at h0
      · rw [hrest 0 h0k] at h0; simp [Caller.isReturned] at h0
    · refine ⟨h3, tok, by rw [h1], fun i hi => ?_⟩
      have hi' := hDone i hi
      rcases h4 i with h | h | h
      · rw [h] at hi'; simp [Caller.isReturned] at hi'
      · rw [h] at hi'; simp [Caller.isReturned] at hi'
      · exact h

/-- The single renewal on two callers and a token that lives 3600 seconds. -/
theorem GetToken_single_renewal_witness :
    run (Sys.init exampleSource) twoCallersLongLived = some longLivedFinal ∧
      longLivedFinal.sent.length = 1 ∧
      longLivedFinal.ts.Token = some ⟨"Bearer", "abc", 0, 3600000000000, 0⟩ ∧
      longLivedFinal.callers 0
        = .returned (some ⟨"Bearer", "abc", 0, 3600000000000, 0⟩) none ∧
      longLivedFinal.callers 1
        = .returned (some ⟨"Bearer", "abc", 0, 3600000000000, 0⟩) none := by
  have h := GetToken_single_renewal exampleSource twoCallersLongLived longLivedFinal rfl
    (fun _ _ _ _ => rfl)
    (by
      intro i now e hmem
      simp [twoCallersLongLived] at hmem
      rcases hmem with ⟨_, _, h⟩ | ⟨_, _, h⟩ <;> exact h)
    (by
      intro i outcome now hmem
      simp [twoCallersLongLived] at hmem
      obtain ⟨_, ho, hn⟩ := hmem
      subst ho hn
      refine ⟨⟨"Bearer", "abc", 0, 3600000000000, 0⟩, by decide, ?_⟩
      intro j now' e hmem'
      simp [twoCallersLongLived] at hmem'
      rcases hmem' with ⟨_, h, _⟩ | ⟨_, h, _⟩ <;> subst h <;> decide)
  obtain ⟨hlen, tok, htok, hall⟩ := h.2.2 2 (by decide)
    (by intro i hi; interval_cases i <;> decide)
  have htok' : longLivedFinal.ts.Token = some ⟨"Bearer", "abc", 0, 3600000000000, 0⟩ := by
    decide
  have heq : tok = ⟨"Bearer", "abc", 0, 3600000000000, 0⟩ := by
    rw [htok] at htok'
    exact Option.some.inj htok'
  subst heq
  exact ⟨rfl, hlen, htok, hall 0 (by decide), hall 1 (by decide)⟩

theorem run_append (s : Sys) (as bs : List Action) :
    run s (as ++ bs) = (run s as).bind fun s1 => run s1 bs := by
  induction as generalizing s with
  | nil => rfl
  | cons a as ih =>
    simp only [List.cons_append, run]
    cases step s a with
    | none => rfl
    | some s1 => exact ih s1

theorem renewFinish_bodyNoToken (ts : TokenSource) :
    renewFinish ts (.ok (okResponse bodyNoToken)) 0 =
      (some ⟨"Bearer", "", 0, 3600000000000, 0⟩, none,
        { ts with Token := some ⟨"Bearer", "", 0, 3600000000000, 0⟩ }) := by
  rw [renewFinish_ok _ _ _ (by rw [decode_bodyNoToken]), decode_bodyNoToken]
  rfl

theorem callersEmptyToken_run (n : Nat) :
    ∃ s, run (Sys.init exampleSource) (callersEmptyToken n) = some s ∧
      s.mu = none ∧ s.sent.length = n ∧ (∀ i, n ≤ i → s.callers i = .waiting) ∧
      (∀ i, i < n →
        s.callers i = .returned (some ⟨"Bearer", "", 0, 3600000000000, 0⟩) none) ∧
      Token.Valid s.ts.Token 0 = false := by
  induction n with
  | zero =>
    exact ⟨Sys.init exampleSource, rfl, rfl, rfl, fun _ _ => rfl,
      fun i hi => absurd hi (Nat.not_lt_zero i), rfl⟩
  | succ n ih =>
    obtain ⟨s, hrun, hmu, hlen, hwait, hret, hval⟩ := ih
    have hw : s.callers n = .waiting := hwait n (Nat.le_refl n)
    refine ⟨{ s with ts := { s.ts with Token := some ⟨"Bearer", "", 0, 3600000000000, 0⟩ },
                     mu := none,
                     callers := Function.update s.callers n
                       (.returned (some ⟨"Bearer", "", 0, 3600000000000, 0⟩) none),
                     sent := renewRequest s.ts :: s.sent }, ?_, rfl, ?_, ?_, ?_, ?_⟩
    · simp only [callersEmptyToken, run_append, hrun, Option.bind, run, step, hw, hmu,
        Function.update_same, hval, Bool.false_eq_true, if_false, renewFinish_bodyNoToken,
        Function.update_idem]
    · simp only [List.length_cons, hlen]
    · intro i hi
      have hne : i ≠ n := by omega
      simp only [Function.update_noteq hne]
      exact hwait i (by omega)
    · intro i hi
      by_cases hin : i = n
      · subst hin
        simp only [Function.update_same]
      · simp only [Function.update_noteq hin]
        exact hret i (by omega)
    · simp [Token.Valid]

/-- C8 fails on the code.  Callers share the example source, whose cache is
empty, and every caller looks at the clock at the same instant 0.  The token
endpoint answers each request with status 200 and an empty `access_token`, so
each renewal returns a nil error.  The token stored by caller 0 is not valid at
any instant, so every later caller, once it holds the mutex, sends a request of
its own: with three callers three requests are sent in the one staleness
episode, and with `n` callers `n` requests, one per caller, each of whom
returns a nil error. -/
theorem GetToken_renews_for_every_caller :
    (run (Sys.init exampleSource) threeCallersEmptyToken).map (fun s => s.sent.length)
        = some 3 ∧
      threeCallersEmptyToken = callersEmptyToken 3 ∧
      (∀ n, ∃ s, run (Sys.init exampleSource) (callersEmptyToken n) = some s ∧
        s.sent.length = n ∧
        ∀ i, i < n →
          s.callers i = .returned (some ⟨"Bearer", "", 0, 3600000000000, 0⟩) none) ∧
      (run (Sys.init exampleSource) threeCallersEmptyToken).map
          (fun s => (s.callers 0, s.callers 1, s.callers 2))
        = some (.returned (some ⟨"Bearer", "", 0, 3600000000000, 0⟩) none,
            .returned (some ⟨"Bearer", "", 0, 3600000000000, 0⟩) none,
            .returned (some ⟨"Bearer", "", 0, 3600000000000, 0⟩) none) ∧
      (run (Sys.init exampleSource) (threeCallersEmptyToken.take 3)).map
          (fun s => (s.ts.Token, s.mu, s.sent.length))
        = some (some ⟨"Bearer", "", 0, 3600000000000, 0⟩, none, 1) ∧
      ∀ now, Token.Valid (some ⟨"Bearer", "", 0, 3600000000000, 0⟩) now = false := by
  refine ⟨by decide, rfl, fun n => ?_, by decide, by decide, fun now => ?_⟩
  · obtain ⟨s, hrun, _, hlen, _, hret, _⟩ := callersEmptyToken_run n
    exact ⟨s, hrun, hlen, hret⟩
  · simp [Token.Valid]

theorem DecodeJSONResponseBody_missing_required_witness :
    fieldErrors (UserCDO.structType (fun _ => false)) UserCDO.zero ≠ [] ∧
      (DecodeJSONResponseBody (okResponse bodyErr1) (UserCDO.structType (fun _ => false)).dest
        UserCDO.zero (some (errorCDO.structType.dest, errorCDO.zero))).respType
        = .VALIDATION_ERROR ∧
      (DecodeJSONResponseBody (okResponse bodyErr1) (UserCDO.structType (fun _ => false)).dest
        UserCDO.zero (some (errorCDO.structType.dest, errorCDO.zero))).dstErr
        = some errorCDO.zero := by
  have h := DecodeJSONResponseBody_missing_required (UserCDO.structType (fun _ => false))
    UserCDO.zero (okResponse bodyErr1) bodyErr1.data
    [("code".data, .string "ERR1".data 14), ("message".data, .string "boom".data 31)] 1
    (some (errorCDO.structType.dest, errorCDO.zero)) rfl rfl
    (by
      intro m hm
      simp only [List.mem_cons, List.mem_singleton, List.not_mem_nil, or_false] at hm
      rcases hm with rfl | rfl <;> rfl)
    (by decide)
  exact ⟨by decide, h.1, h.2.2.2⟩

/-! ## The response decoder: the error schema -/

theorem DecodeJSONResponseBody_of_failed_unmarshal {α β : Type} (r : Response)
    (data : List Char) (tyOk : Dest α) (dstOk vOk : α) (errOk : JsonError) (tyErr : Dest β)
    (vErr0 : β) (hBody : r.Body = .ok data)
    (hOk : tyOk.unmarshal data dstOk = (vOk, some errOk)) :
    DecodeJSONResponseBody r tyOk dstOk (some (tyErr, vErr0)) =
      match tyErr.unmarshal data vErr0 with
      | (vErr, none) =>
        match Struct tyErr vErr with
        | some e => ⟨.VALIDATION_ERROR, some e, vOk, some vErr⟩
        | none => ⟨.ERR_RESPONSE, none, vOk, some vErr⟩
      | (vErr, some errErr) =>
        ⟨.DECODING_ERROR,
          some ("error retrieving response. dstOk unmarshal error: " ++ errOk.Error
            ++ "; dstErr unmarshal error: " ++ errErr.Error),
          vOk, some vErr⟩ := by
  simp only [DecodeJSONResponseBody, hBody, hOk]

theorem Struct_eq_none_iff {α : Type} (ty : Dest α) (v : α) :
    Struct ty v = none ↔ ty.validate v = .valid := by
  unfold Struct
  cases ty.validate v <;> simp

/-- C11, refuted as stated: the body has a string `id` and no `code`.  It does
not unmarshal into the success schema (`id` is an integer there), it does
unmarshal into the error schema, whose required `code` is then empty: the
result is `VALIDATION_ERROR`, neither `ERR_RESPONSE` nor `DECODING_ERROR`. -/
theorem DecodeJSONResponseBody_error_value_invalid :
    (IdName.structType.dest.unmarshal bodyNoCode.data ⟨0, ""⟩).2 ≠ none ∧
      (CodedError.structType.dest.unmarshal bodyNoCode.data ⟨"", ""⟩).2 = none ∧
      (DecodeJSONResponseBody (okResponse bodyNoCode) IdName.structType.dest ⟨0, ""⟩
        (some (CodedError.structType.dest, ⟨"", ""⟩))).respType = .VALIDATION_ERROR ∧
      (DecodeJSONResponseBody (okResponse bodyNoCode) IdName.structType.dest ⟨0, ""⟩
        (some (CodedError.structType.dest, ⟨"", ""⟩))).respType ≠ .DECODING_ERROR := by
  decide

/-- C11, as the code has it: when the body does not unmarshal into the success
schema and an error schema is supplied, the result is `ERR_RESPONSE` exactly
when the same bytes unmarshal into the error schema and the decoded error
value passes validation, `VALIDATION_ERROR` exactly when they unmarshal and the
value fails validation, and `DECODING_ERROR` exactly when they do not unmarshal
into the error schema either; it is never `OK_RESPONSE`. -/
theorem DecodeJSONResponseBody_error_schema {α β : Type} (r : Response) (data : List Char)
    (tyOk : Dest α) (dstOk vOk : α) (errOk : JsonError) (tyErr : Dest β) (vErr0 : β)
    (hBody : r.Body = .ok data) (hOk : tyOk.unmarshal data dstOk = (vOk, some errOk)) :
    ((DecodeJSONResponseBody r tyOk dstOk (some (tyErr, vErr0))).respType = .ERR_RESPONSE ↔
        (tyErr.unmarshal data vErr0).2 = none ∧
          tyErr.validate (tyErr.unmarshal data vErr0).1 = .valid) ∧
      ((DecodeJSONResponseBody r tyOk dstOk (some (tyErr, vErr0))).respType
          = .VALIDATION_ERROR ↔
        (tyErr.unmarshal data vErr0).2 = none ∧
          tyErr.validate (tyErr.unmarshal data vErr0).1 ≠ .valid) ∧
      ((DecodeJSONResponseBody r tyOk dstOk (some (tyErr, vErr0))).respType
          = .DECODING_ERROR ↔
        (tyErr.unmarshal data vErr0).2 ≠ none) ∧
      (DecodeJSONResponseBody r tyOk dstOk (some (tyErr, vErr0))).respType
        ≠ .OK_RESPONSE := by
  rw [DecodeJSONResponseBody_of_failed_unmarshal r data tyOk dstOk vOk errOk tyErr vErr0
    hBody hOk]
  rcases hu : tyErr.unmarshal data vErr0 with ⟨vErr, _ | errErr⟩
  · simp only
    cases hs : Struct tyErr vErr with
    | none =>
      have hv := (Struct_eq_none_iff tyErr vErr).mp hs
      simp [hv]
    | some e =>
      have hv : tyErr.validate vErr ≠ .valid := fun h => by
        rw [(Struct_eq_none_iff tyErr vErr).mpr h] at hs
        cases hs
      simp [hv]
  · simp

theorem DecodeJSONResponseBody_error_schema_witness :
    (okResponse bodyMalformed).Body = .ok bodyMalformed.data ∧
      (IdName.structType.dest.unmarshal bodyMalformed.data ⟨0, ""⟩).2 ≠ none ∧
      (errorCDO.structType.dest.unmarshal bodyMalformed.data errorCDO.zero).2 ≠ none ∧
      (DecodeJSONResponseBody (okResponse bodyMalformed) IdName.structType.dest ⟨0, ""⟩
        (some (errorCDO.structType.dest, errorCDO.zero))).respType = .DECODING_ERROR :=
  ⟨rfl, by decide, by decide,
    (DecodeJSONResponseBody_error_schema (okResponse bodyMalformed) bodyMalformed.data
      IdName.structType.dest ⟨0, ""⟩ ⟨0, ""⟩
      (.syntaxError "invalid character 'b' looking for beginning of object key string" 2)
      errorCDO.structType.dest errorCDO.zero rfl (by decide)).2.2.1.mpr (by decide)⟩

/-- C12: when the body is read and does not unmarshal into the success schema,
then with no error schema the result is `DECODING_ERROR` and its message is
"error unmarshalling ok response: " followed by the message of the success
unmarshal error; with an error schema whose unmarshal fails too, the result is
`DECODING_ERROR` and its message holds both unmarshal messages, the success
one first. -/
theorem DecodeJSONResponseBody_decode_error_message {α β : Type} (r : Response)
    (data : List Char) (tyOk : Dest α) (dstOk vOk : α) (errOk : JsonError)
    (hBody : r.Body = .ok data) (hOk : tyOk.unmarshal data dstOk = (vOk, some errOk)) :
    ((DecodeJSONResponseBody r tyOk dstOk (none : Option (Dest β × β))).respType
        = .DECODING_ERROR ∧
      (DecodeJSONResponseBody r tyOk dstOk (none : Option (Dest β × β))).err
        = some ("error unmarshalling ok response: " ++ errOk.Error)) ∧
    ∀ (tyErr : Dest β) (vErr0 vErr : β) (errErr : JsonError),
      tyErr.unmarshal data vErr0 = (vErr, some errErr) →
      (DecodeJSONResponseBody r tyOk dstOk (some (tyErr, vErr0))).respType = .DECODING_ERROR ∧
      (DecodeJSONResponseBody r tyOk dstOk (some (tyErr, vErr0))).err
        = some ("error retrieving response. dstOk unmarshal error: " ++ errOk.Error
            ++ "; dstErr unmarshal error: " ++ errErr.Error) := by
  constructor
  · simp only [DecodeJSONResponseBody, hBody, hOk, and_self]
  · intro tyErr vErr0 vErr errErr hErr
    rw [DecodeJSONResponseBody_of_failed_unmarshal r data tyOk dstOk vOk errOk tyErr vErr0
      hBody hOk, hErr]
    exact ⟨rfl, rfl⟩

theorem DecodeJSONResponseBody_decode_error_message_witness :
    (okResponse bodyMalformed).Body = .ok bodyMalformed.data ∧
      (DecodeJSONResponseBody (okResponse bodyMalformed) IdName.structType.dest ⟨0, ""⟩
        (none : Option (Dest errorCDO × errorCDO))).err
        = some ("error unmarshalling ok response: "
            ++ "invalid character 'b' looking for beginning of object key string") ∧
      (DecodeJSONResponseBody (okResponse bodyMalformed) IdName.structType.dest ⟨0, ""⟩
        (some (errorCDO.structType.dest, errorCDO.zero))).respType = .DECODING_ERROR :=
  have h := @DecodeJSONResponseBody_decode_error_message IdName errorCDO
    (okResponse bodyMalformed) bodyMalformed.data IdName.structType.dest ⟨0, ""⟩ ⟨0, ""⟩
    (.syntaxError "invalid character 'b' looking for beginning of object key string" 2)
    rfl (by decide)
  ⟨rfl, h.1.2,
    (h.2 errorCDO.structType.dest errorCDO.zero errorCDO.zero
      (.syntaxError "invalid character 'b' looking for beginning of object key string" 2)
      (by decide)).1⟩

/-! ## The request decoder -/

theorem startsWith_nil_left (p : List Char) (h : startsWith [] p = true) : p = [] := by
  cases p with
  | nil => rfl
  | cons d p => simp [startsWith] at h

theorem HasPrefix_ne_empty (s : String) (h : HasPrefix s "application/json" = true) :
    s ≠ "" := by
  intro hs
  subst hs
  revert h
  decide

/-- What `DecodeJSONRequestBody` returns once the content type is accepted. -/
theorem DecodeJSONRequestBody_of_json {α : Type} (r : InboundRequest) (st : StructType α)
    (dst : α) (hct : HasPrefix (r.Header.Get "Content-Type") "application/json" = true) :
    DecodeJSONRequestBody r st dst =
      match (decoderDecode st (limitedStream r).1 (limitedStream r).2 dst).err with
      | some (.json (.syntaxError _ offset)) =>
        (some ⟨StatusBadRequest,
          "Request body contains badly-formed JSON (at position " ++ toString offset ++ ")"⟩,
          (decoderDecode st (limitedStream r).1 (limitedStream r).2 dst).target)
      | some .unexpectedEOF =>
        (some ⟨StatusBadRequest, "Request body contains badly-formed JSON"⟩,
          (decoderDecode st (limitedStream r).1 (limitedStream r).2 dst).target)
      | some (.json (.unmarshalType _ _ offset _ field)) =>
        (some ⟨StatusBadRequest,
          "Request body contains an invalid value for the " ++ quoteName field
            ++ " field (at position " ++ toString offset ++ ")"⟩,
          (decoderDecode st (limitedStream r).1 (limitedStream r).2 dst).target)
      | some e =>
        if limitedReaderN r ≤ 0 then
          (some ⟨StatusRequestEntityTooLarge, "Request body must not be larger than 1 MB"⟩,
            (decoderDecode st (limitedStream r).1 (limitedStream r).2 dst).target)
        else if e = .eof then
          (some ⟨StatusBadRequest, "Request body must not be empty"⟩,
            (decoderDecode st (limitedStream r).1 (limitedStream r).2 dst).target)
        else
          (some ⟨StatusInternalServerError,
            "Unrecognized error when decoding request JSON body"⟩,
            (decoderDecode st (limitedStream r).1 (limitedStream r).2 dst).target)
      | none =>
        (RequestStruct st.dest (decoderDecode st (limitedStream r).1 (limitedStream r).2 dst).dst,
          (decoderDecode st (limitedStream r).1 (limitedStream r).2 dst).target) := by
  have hne := HasPrefix_ne_empty _ hct
  simp only [DecodeJSONRequestBody, hct, hne, beq_iff_eq, Bool.not_true, if_false]
  rfl

theorem RequestStruct_status {α : Type} (ty : Dest α) (v : Option α) (e : HttpSuggestionError)
    (h : RequestStruct ty v = some e) : e.Status = 400 ∨ e.Status = 500 := by
  unfold RequestStruct at h
  cases v with
  | none =>
    simp only [Option.some.injEq] at h
    subst h
    exact Or.inr rfl
  | some x =>
    simp only at h
    cases hv : ty.validate x with
    | valid => simp [hv] at h
    | invalidValidation =>
      simp only [hv, Option.some.injEq] at h
      subst h
      exact Or.inr rfl
    | failed errs =>
      simp only [hv, Option.some.injEq] at h
      subst h
      exact Or.inl rfl

theorem DecodeJSONRequestBody_json_not_415 {α : Type} (r : InboundRequest)
    (st : StructType α) (dst : α)
    (hct : HasPrefix (r.Header.Get "Content-Type") "application/json" = true) :
    (DecodeJSONRequestBody r st dst).1.map (fun e => e.Status) ≠ some 415 := by
  rw [DecodeJSONRequestBody_of_json r st dst hct]
  cases herr : (decoderDecode st (limitedStream r).1 (limitedStream r).2 dst).err with
  | none =>
    simp only
    cases hrs : RequestStruct st.dest
        (decoderDecode st (limitedStream r).1 (limitedStream r).2 dst).dst with
    | none => simp
    | some e =>
      rcases RequestStruct_status _ _ e hrs with h | h <;> simp [h]
  | some e =>
    cases e with
    | json j =>
      cases j <;> simp [StatusBadRequest]
    | unexpectedEOF => simp [StatusBadRequest]
    | eof =>
      simp only
      split <;> simp [StatusRequestEntityTooLarge, StatusBadRequest]
    | readErr m =>
      simp only
      split <;> simp [StatusRequestEntityTooLarge, StatusInternalServerError]

/-- C13: `DecodeJSONRequestBody` returns status 415 exactly when the header
`Content-Type` is missing or empty or does not start with `application/json`;
the rejection is then the same whatever the body is, and the destination is
left untouched; the header `application/json; charset=utf-8` is never rejected
with 415. -/
theorem DecodeJSONRequestBody_unsupported_media {α : Type} (r : InboundRequest)
    (st : StructType α) (dst : α) :
    ((DecodeJSONRequestBody r st dst).1.map (fun e => e.Status) = some 415 ↔
        (r.Header.Get "Content-Type" = "" ∨
          HasPrefix (r.Header.Get "Content-Type") "application/json" = false)) ∧
      ((r.Header.Get "Content-Type" = "" ∨
          HasPrefix (r.Header.Get "Content-Type") "application/json" = false) →
        (DecodeJSONRequestBody r st dst).2 = dst ∧
        ∀ (body : List Char) (bodyErr : Option DecodeErr),
          DecodeJSONRequestBody { r with Body := body, BodyErr := bodyErr } st dst
            = DecodeJSONRequestBody r st dst) ∧
      (r.Header.Get "Content-Type" = "application/json; charset=utf-8" →
        (DecodeJSONRequestBody r st dst).1.map (fun e => e.Status) ≠ some 415) := by
  have hrej : (r.Header.Get "Content-Type" = "" ∨
      HasPrefix (r.Header.Get "Content-Type") "application/json" = false) →
      ∀ (body : List Char) (bodyErr : Option DecodeErr),
        DecodeJSONRequestBody { r with Body := body, BodyErr := bodyErr } st dst =
          (some ⟨StatusUnsupportedMediaType,
            if r.Header.Get "Content-Type" = "" then "Content-Type header is missing"
            else "Content-Type header is not application/json"⟩, dst) := by
    intro h body bodyErr
    by_cases h1 : r.Header.Get "Content-Type" = ""
    · simp [DecodeJSONRequestBody, h1]
    · have h2 : HasPrefix (r.Header.Get "Content-Type") "application/json" = false := by
        rcases h with h | h
        · exact absurd h h1
        · exact h
      simp [DecodeJSONRequestBody, h1, h2]
  refine ⟨⟨?_, ?_⟩, ?_, ?_⟩
  · intro h
    by_cases hp : HasPrefix (r.Header.Get "Content-Type") "application/json" = true
    · exact absurd h (DecodeJSONRequestBody_json_not_415 r st dst hp)
    · exact Or.inr (by simpa using hp)
  · intro h
    have := hrej h r.Body r.BodyErr
    rw [show ({ r with Body := r.Body, BodyErr := r.BodyErr } : InboundRequest) = r from rfl]
      at this
    rw [this]
    rfl
  · intro h
    have h0 := hrej h r.Body r.BodyErr
    rw [show ({ r with Body := r.Body, BodyErr := r.BodyErr } : InboundRequest) = r from rfl]
      at h0
    refine ⟨by rw [h0], fun body bodyErr => ?_⟩
    rw [hrej h body bodyErr, h0]
  · intro h
    apply DecodeJSONRequestBody_json_not_415
    rw [h]
    decide

theorem scanString_replicate (n pos : Nat) (acc : List StrUnit) :
    scanString (List.replicate n 'a') pos acc = .error (unexpectedEnd (pos + n)) := by
  induction n generalizing pos acc with
  | zero => simp [scanString]
  | succ n ih =>
    have h1 : ('a' = '"') = False := by decide
    have h2 : ('a' = '\\') = False := by decide
    have h3 : ¬ ('a'.toNat < 32) := by decide
    have h4 : 'a'.utf8Size = 1 := by decide
    rw [List.replicate_succ, scanString.eq_def]
    simp only [h1, h2, h3, h4, if_false]
    rw [ih]
    congr 2
    omega

theorem readValue_open_string (n : Nat) :
    readValue ('"' :: List.replicate n 'a') none = .error .unexpectedEOF := by
  have hfuel : 2 * ('"' :: List.replicate n 'a').length + 2 = (2 * n + 3) + 1 := by
    simp only [List.length_cons, List.length_replicate]
    omega
  have hsp : skipSpace ('"' :: List.replicate n 'a') 0 = ('"' :: List.replicate n 'a', 0) := by
    have : isSpace '"' = false := by decide
    simp [skipSpace, this]
  have h1 : ('"' = openBrace) = False := by decide
  have h2 : ('"' = '[') = False := by decide
  have hall : ('"' :: List.replicate n 'a').all isSpace = false := by
    have : isSpace '"' = false := by decide
    simp [this]
  unfold readValue
  rw [hfuel]
  simp only [parseValue, hsp, h1, h2, if_false, if_true, scanString_replicate]
  simp only [unexpectedEnd, JsonError.isInputEnd, beq_self_eq_true, if_true, hall,
    Bool.false_eq_true, if_false]

theorem longString_length (n : Nat) : (longString n).length = n + 2 := by
  simp only [longString, List.length_cons, List.length_append, List.length_replicate,
    List.length_nil]

theorem take_longString (L n : Nat) (h : L ≤ n) :
    List.take (L + 1) (longString n) = '"' :: List.replicate L 'a' := by
  unfold longString
  rw [List.take_succ_cons, List.take_append_of_le_length (by simpa using h),
    List.take_replicate, Nat.min_eq_left h]

theorem utf8Length_replicate (n : Nat) (rest : List Char) :
    utf8Length (List.replicate n 'a' ++ rest) = n + utf8Length rest := by
  induction n with
  | zero => simp
  | succ n ih =>
    have h4 : 'a'.utf8Size = 1 := by decide
    rw [List.replicate_succ, List.cons_append]
    simp only [utf8Length, ih, h4]
    omega

theorem utf8Length_longString (n : Nat) : utf8Length (longString n) = n + 2 := by
  have h1 : '"'.utf8Size = 1 := by decide
  simp only [longString, utf8Length, utf8Length_replicate, h1]
  omega

theorem takeBytes_replicate (L n : Nat) (rest : List Char) (h : L ≤ n) :
    takeBytes (List.replicate n 'a' ++ rest) L = List.replicate L 'a' := by
  induction L generalizing n with
  | zero =>
    cases n with
    | zero => cases rest <;> simp [takeBytes]
    | succ n => simp [List.replicate_succ, takeBytes]
  | succ L ih =>
    obtain ⟨m, hm⟩ : ∃ m, n = m + 1 := ⟨n - 1, by omega⟩
    subst hm
    have h4 : 'a'.utf8Size = 1 := by decide
    rw [List.replicate_succ, List.cons_append]
    simp only [takeBytes, h4, Nat.add_sub_cancel, Nat.succ_ne_zero, if_false,
      List.replicate_succ]
    rw [ih m (by omega)]

theorem takeBytes_longString (L n : Nat) (h : L ≤ n) :
    takeBytes (longString n) (L + 1) = '"' :: List.replicate L 'a' := by
  have h1 : '"'.utf8Size = 1 := by decide
  unfold longString
  simp only [takeBytes, h1, Nat.add_sub_cancel, Nat.succ_ne_zero, if_false]
  rw [takeBytes_replicate L n _ h]

theorem DecodeJSONRequestBody_long_string {α : Type} (st : StructType α) (dst : α) (n : Nat)
    (hn : maxBytes ≤ n) :
    DecodeJSONRequestBody (jsonRequest (longString n)) st dst =
      (some ⟨400, "Request body contains badly-formed JSON"⟩, dst) := by
  have hct : HasPrefix ((jsonRequest (longString n)).Header.Get "Content-Type")
      "application/json" = true := by
    show HasPrefix "application/json" "application/json" = true
    decide
  have hpos : 0 < maxBytes := by decide
  obtain ⟨L, hL⟩ : ∃ L, maxBytes = L + 1 := ⟨maxBytes - 1, by omega⟩
  have hlim : limitedStream (jsonRequest (longString n)) =
      ('"' :: List.replicate L 'a', none) := by
    have hle : maxBytes ≤ utf8Length (jsonRequest (longString n)).Body := by
      show maxBytes ≤ utf8Length (longString n)
      rw [utf8Length_longString]
      omega
    simp only [limitedStream, hle, if_true]
    show (takeBytes (longString n) maxBytes, none) = _
    rw [hL, takeBytes_longString L n (by omega)]
  rw [DecodeJSONRequestBody_of_json _ st dst hct, hlim]
  simp only [decoderDecode, readValue_open_string]
  rfl

/-- C14, evaluated on the code: the body is one JSON string literal of
`maxBytes + 2` bytes, sent as `application/json`.  The limited reader ends the
stream inside the literal, the decoder returns `io.ErrUnexpectedEOF`, and that
case of the `switch` stands before the test of `limitedReader.N`: the result is
status 400, not 413. -/
theorem DecodeJSONRequestBody_oversize_string {α : Type} (st : StructType α) (dst : α) :
    (longString maxBytes).length = maxBytes + 2 ∧
      DecodeJSONRequestBody (jsonRequest (longString maxBytes)) st dst =
        (some ⟨400, "Request body contains badly-formed JSON"⟩, dst) :=
  ⟨longString_length maxBytes,
    DecodeJSONRequestBody_long_string st dst maxBytes (Nat.le_refl maxBytes)⟩

theorem limitedReaderN_le_zero_iff (r : InboundRequest) :
    limitedReaderN r ≤ 0 ↔ maxBytes ≤ utf8Length r.Body := by
  unfold limitedReaderN
  omega

theorem readValue_none_not_readErr (data : List Char) (m : String) :
    readValue data none ≠ .error (.readErr m) := by
  unfold readValue
  rcases hp : parseValue (2 * data.length + 2) 0 data 0 with e | ⟨v, rest, p⟩
  · by_cases h1 : e.isInputEnd = true
    · by_cases h2 : data.all isSpace = true <;> simp [h1, h2]
    · simp [h1]
  · by_cases h1 : (rest.isEmpty && !v.isCompound) = true <;> simp [h1]

theorem map_json_ne_readErr (x : Option JsonError) (m : String) :
    x.map DecodeErr.json ≠ some (.readErr m) := by
  cases x <;> simp

theorem decoderDecode_err_readErr {α : Type} (st : StructType α) (data : List Char)
    (endErr : Option DecodeErr) (dst : α) (m : String)
    (h : (decoderDecode st data endErr dst).err = some (.readErr m)) :
    readValue data endErr = .error (.readErr m) := by
  unfold decoderDecode at h
  rcases hr : readValue data endErr with e | j
  · simp only [hr, Option.some.injEq] at h
    rw [h]
  · rw [hr] at h
    cases j <;> simp only at h
    · cases h
    all_goals exact absurd h (map_json_ne_readErr _ m)

theorem decoderDecode_readErr {α : Type} (st : StructType α) (r : InboundRequest) (dst : α)
    (m : String)
    (h : (decoderDecode st (limitedStream r).1 (limitedStream r).2 dst).err
      = some (.readErr m)) : utf8Length r.Body < maxBytes := by
  by_contra hlt
  have hle : maxBytes ≤ utf8Length r.Body := by omega
  have hnone : (limitedStream r).2 = none := by simp [limitedStream, hle]
  have := decoderDecode_err_readErr st _ _ dst m h
  rw [hnone] at this
  exact readValue_none_not_readErr _ m this

/-- C15, refuted as stated: an empty body sent as `application/json` fails to
decode with `io.EOF`, which is neither a syntax error nor a truncation nor a
type mismatch, and the result is status 400, "Request body must not be empty",
not 500. -/
theorem DecodeJSONRequestBody_empty_body :
    (decoderDecode (CreateUserRequestDTO.structType exampleEmail)
        (limitedStream (jsonRequest [])).1 (limitedStream (jsonRequest [])).2
        CreateUserRequestDTO.zero).err = some .eof ∧
      (DecodeJSONRequestBody (jsonRequest []) (CreateUserRequestDTO.structType exampleEmail)
        CreateUserRequestDTO.zero).1 = some ⟨400, "Request body must not be empty"⟩ := by
  decide

theorem readValue_error_of_reader (data : List Char) (x e : DecodeErr)
    (h : readValue data (some x) = .error e) : e = x ∨ ∃ j, e = .json j := by
  unfold readValue at h
  rcases hp : parseValue (2 * data.length + 2) 0 data 0 with pe | ⟨v, rest, p⟩
  · rw [hp] at h
    by_cases h1 : pe.isInputEnd = true
    · simp only [h1, if_true, Except.error.injEq] at h
      exact Or.inl h.symm
    · simp only [h1, Bool.false_eq_true, if_false, Except.error.injEq] at h
      exact Or.inr ⟨pe, h.symm⟩
  · rw [hp] at h
    by_cases h1 : (rest.isEmpty && !v.isCompound) = true
    · simp only [h1, if_true, Except.error.injEq] at h
      exact Or.inl h.symm
    · simp only [h1, Bool.false_eq_true, if_false] at h
      cases h

theorem decoderDecode_err_cases {α : Type} (st : StructType α) (data : List Char)
    (endErr : Option DecodeErr) (dst : α) (e : DecodeErr)
    (h : (decoderDecode st data endErr dst).err = some e) :
    readValue data endErr = .error e ∨ ∃ j, e = .json j := by
  unfold decoderDecode at h
  rcases hr : readValue data endErr with e1 | j
  · simp only [hr, Option.some.injEq] at h
    exact Or.inl (by rw [h])
  · rw [hr] at h
    right
    cases j <;> simp only at h
    · cases h
    all_goals
      cases hd : (decodeStruct st _ dst).2 with
      | none => rw [hd] at h; cases h
      | some je =>
        rw [hd] at h
        simp only [Option.map_some', Option.some.injEq] at h
        exact ⟨je, h.symm⟩

/-- C15, as the code has it: with a content type that starts with
`application/json`, a failure of the decoder is classified by the error that
`Decode` returns.  A syntax error gives 400 with the byte offset in the message;
`io.ErrUnexpectedEOF` (a body that stops inside a value, or a body reader that
fails with that error) gives 400, "badly-formed JSON"; a type mismatch gives
400 with the field and the offset in the message; `io.EOF` (a body of blanks
only) gives 400, "must not be empty", or 413 when the blanks fill the limit of
`maxBytes`; an error that meets none of these tests gives 500 with the generic
message.  An error of the body reader reaches the `switch` as it is, unless the
bytes read before it hold a JSON error; and without an error of the body
reader no failure gives 500. -/
theorem DecodeJSONRequestBody_decode_failure {α : Type} (r : InboundRequest)
    (st : StructType α) (dst : α) (e : DecodeErr)
    (hct : HasPrefix (r.Header.Get "Content-Type") "application/json" = true)
    (herr : (decoderDecode st (limitedStream r).1 (limitedStream r).2 dst).err = some e) :
    (∀ msg offset, e = .json (.syntaxError msg offset) →
        (DecodeJSONRequestBody r st dst).1 = some ⟨400,
          "Request body contains badly-formed JSON (at position " ++ toString offset
            ++ ")"⟩) ∧
      (e = .unexpectedEOF →
        (DecodeJSONRequestBody r st dst).1
          = some ⟨400, "Request body contains badly-formed JSON"⟩) ∧
      (∀ value typ offset strct field, e = .json (.unmarshalType value typ offset strct field) →
        (DecodeJSONRequestBody r st dst).1 = some ⟨400,
          "Request body contains an invalid value for the " ++ quoteName field
            ++ " field (at position " ++ toString offset ++ ")"⟩) ∧
      (e = .eof →
        (maxBytes ≤ utf8Length r.Body → (DecodeJSONRequestBody r st dst).1
          = some ⟨413, "Request body must not be larger than 1 MB"⟩) ∧
        (utf8Length r.Body < maxBytes → (DecodeJSONRequestBody r st dst).1
          = some ⟨400, "Request body must not be empty"⟩)) ∧
      (∀ m, e = .readErr m →
        (DecodeJSONRequestBody r st dst).1
          = some ⟨500, "Unrecognized error when decoding request JSON body"⟩) ∧
      (∀ x, (limitedStream r).2 = some x → e = x ∨ ∃ j, e = .json j) ∧
      ((limitedStream r).2 = none → ∀ m, e ≠ .readErr m) := by
  have hcases := decoderDecode_err_cases st _ _ dst e herr
  refine ⟨?_, ?_, ?_, ?_, ?_, ?_, ?_⟩
  · intro msg offset he
    subst he
    rw [DecodeJSONRequestBody_of_json r st dst hct, herr]
    rfl
  · intro he
    subst he
    rw [DecodeJSONRequestBody_of_json r st dst hct, herr]
    rfl
  · intro value typ offset strct field he
    subst he
    rw [DecodeJSONRequestBody_of_json r st dst hct, herr]
    rfl
  · intro he
    subst he
    rw [DecodeJSONRequestBody_of_json r st dst hct, herr]
    constructor
    · intro hle
      have hN := (limitedReaderN_le_zero_iff r).mpr hle
      simp only [hN, if_true]
      rfl
    · intro hlt
      have hN : ¬ limitedReaderN r ≤ 0 := fun h =>
        absurd ((limitedReaderN_le_zero_iff r).mp h) (by omega)
      simp only [hN, if_false, if_true]
      rfl
  · intro m he
    subst he
    have hlt := decoderDecode_readErr st r dst m herr
    have hN : ¬ limitedReaderN r ≤ 0 := fun h =>
      absurd ((limitedReaderN_le_zero_iff r).mp h) (by omega)
    have hne : (DecodeErr.readErr m = DecodeErr.eof) = False := by simp
    rw [DecodeJSONRequestBody_of_json r st dst hct, herr]
    simp only [hN, if_false, hne]
    rfl
  · intro x hx
    rcases hcases with hr | hj
    · rw [hx] at hr
      exact readValue_error_of_reader _ x e hr
    · exact Or.inr hj
  · intro hnone m he
    subst he
    rcases hcases with hr | ⟨j, hj⟩
    · rw [hnone] at hr
      exact readValue_none_not_readErr _ m hr
    · cases hj

/-- The amended C15 on the body of the spec that stops inside its object: when
the body ends there (`io.EOF`), when its reader fails there with
`io.ErrUnexpectedEOF` (a body shorter than its `Content-Length`), and when its
reader fails there with an error of the connection; and on two bodies with a
character of two bytes before the place the decoder reports. -/
theorem DecodeJSONRequestBody_decode_failure_witness :
    HasPrefix ((jsonRequest bodyTruncated.data).Header.Get "Content-Type") "application/json"
        = true ∧
      (decoderDecode (CreateUserRequestDTO.structType exampleEmail)
        (limitedStream (jsonRequest bodyTruncated.data)).1
        (limitedStream (jsonRequest bodyTruncated.data)).2
        CreateUserRequestDTO.zero).err = some .unexpectedEOF ∧
      (DecodeJSONRequestBody (jsonRequest bodyTruncated.data)
        (CreateUserRequestDTO.structType exampleEmail) CreateUserRequestDTO.zero).1
        = some ⟨400, "Request body contains badly-formed JSON"⟩ ∧
      (DecodeJSONRequestBody
        { jsonRequest bodyTruncated.data with BodyErr := some .unexpectedEOF }
        (CreateUserRequestDTO.structType exampleEmail) CreateUserRequestDTO.zero).1
        = some ⟨400, "Request body contains badly-formed JSON"⟩ ∧
      (DecodeJSONRequestBody
        { jsonRequest bodyTruncated.data with
            BodyErr := some (.readErr "read tcp: connection reset by peer") }
        (CreateUserRequestDTO.structType exampleEmail) CreateUserRequestDTO.zero).1
        = some ⟨500, "Unrecognized error when decoding request JSON body"⟩ ∧
      (DecodeJSONRequestBody (jsonRequest bodyTwoByteName.data)
        (CreateUserRequestDTO.structType exampleEmail) CreateUserRequestDTO.zero).1
        = some ⟨400, "Request body contains an invalid value for the \"age\" field " ++
            "(at position 22)"⟩ ∧
      (DecodeJSONRequestBody (jsonRequest bodyTwoByteSyntax.data)
        (CreateUserRequestDTO.structType exampleEmail) CreateUserRequestDTO.zero).1
        = some ⟨400, "Request body contains badly-formed JSON (at position 21)"⟩ :=
  ⟨by decide, by decide,
    (DecodeJSONRequestBody_decode_failure (jsonRequest bodyTruncated.data)
      (CreateUserRequestDTO.structType exampleEmail) CreateUserRequestDTO.zero .unexpectedEOF
      (by decide) (by decide)).2.1 rfl,
    (DecodeJSONRequestBody_decode_failure
      { jsonRequest bodyTruncated.data with BodyErr := some .unexpectedEOF }
      (CreateUserRequestDTO.structType exampleEmail) CreateUserRequestDTO.zero .unexpectedEOF
      (by decide) (by decide)).2.1 rfl,
    (DecodeJSONRequestBody_decode_failure
      { jsonRequest bodyTruncated.data with
          BodyErr := some (.readErr "read tcp: connection reset by peer") }
      (CreateUserRequestDTO.structType exampleEmail) CreateUserRequestDTO.zero
      (.readErr "read tcp: connection reset by peer") (by decide) (by decide)).2.2.2.2.1 _ rfl,
    by decide, by decide⟩

/-- C16, refuted as stated: the body `null`, sent as `application/json`, decodes
without error and violates no constraint, yet the result is not nil: the
decoder has set the interface `dst` to nil, the validator rejects it, and the
result is status 500. -/
theorem DecodeJSONRequestBody_null_body :
    (decoderDecode (CreateUserRequestDTO.structType exampleEmail)
        (limitedStream (jsonRequest "null".data)).1 (limitedStream (jsonRequest "null".data)).2
        CreateUserRequestDTO.zero).err = none ∧
      (DecodeJSONRequestBody (jsonRequest "null".data)
        (CreateUserRequestDTO.structType exampleEmail) CreateUserRequestDTO.zero).1
        = some ⟨500, "Could not validate request body. Please contact support team"⟩ := by
  decide

/-- C16, as the code has it: with a content type that starts with
`application/json` and a body that decodes without error into the struct, the
result is nil when the struct violates none of its tags, and otherwise status
400 whose message is the messages of the field errors, in field order, joined
by "; ".  When the body is the JSON value `null`, nothing is left to validate
and the result is status 500. -/
theorem DecodeJSONRequestBody_validation {α : Type} (r : InboundRequest)
    (st : StructType α) (dst : α)
    (hct : HasPrefix (r.Header.Get "Content-Type") "application/json" = true)
    (hdec : (decoderDecode st (limitedStream r).1 (limitedStream r).2 dst).err = none) :
    (∀ v, (decoderDecode st (limitedStream r).1 (limitedStream r).2 dst).dst = some v →
        (fieldErrors st v = [] → (DecodeJSONRequestBody r st dst).1 = none) ∧
        (fieldErrors st v ≠ [] → (DecodeJSONRequestBody r st dst).1 = some ⟨400,
          String.intercalate "; " ((fieldErrors st v).map FieldError.Error)⟩)) ∧
      ((decoderDecode st (limitedStream r).1 (limitedStream r).2 dst).dst = none →
        (DecodeJSONRequestBody r st dst).1
          = some ⟨500, "Could not validate request body. Please contact support team"⟩) := by
  rw [DecodeJSONRequestBody_of_json r st dst hct, hdec]
  constructor
  · intro v hv
    simp only [hv, RequestStruct, StructType.dest, validateStruct]
    constructor
    · intro hfe
      simp [hfe]
    · intro hfe
      cases hl : fieldErrors st v with
      | nil => exact absurd hl hfe
      | cons e es =>
        simp only [FlatErrors_eq_intercalate]
        rfl
  · intro hv
    simp only [hv, RequestStruct]
    rfl

theorem DecodeJSONRequestBody_validation_witness :
    HasPrefix ((jsonRequest bodyAge200.data).Header.Get "Content-Type") "application/json"
        = true ∧
      (decoderDecode (CreateUserRequestDTO.structType exampleEmail)
        (limitedStream (jsonRequest bodyAge200.data)).1
        (limitedStream (jsonRequest bodyAge200.data)).2
        CreateUserRequestDTO.zero).dst = some ⟨"A", "B", 200, "martinbiagini@gmail.com"⟩ ∧
      (DecodeJSONRequestBody (jsonRequest bodyAge200.data)
        (CreateUserRequestDTO.structType exampleEmail) CreateUserRequestDTO.zero).1
        = some ⟨400, String.intercalate "; "
            ((fieldErrors (CreateUserRequestDTO.structType exampleEmail)
              ⟨"A", "B", 200, "martinbiagini@gmail.com"⟩).map FieldError.Error)⟩ ∧
      (fieldErrors (CreateUserRequestDTO.structType exampleEmail)
          ⟨"A", "B", 200, "martinbiagini@gmail.com"⟩).map (fun e => (e.field, e.tag))
        = [("Age", "lte")] :=
  ⟨by decide, by decide,
    ((DecodeJSONRequestBody_validation (jsonRequest bodyAge200.data)
      (CreateUserRequestDTO.structType exampleEmail) CreateUserRequestDTO.zero
      (by decide) (by decide)).1 ⟨"A", "B", 200, "martinbiagini@gmail.com"⟩ (by decide)).2
      (by decide),
    by decide⟩

/-! ## The client registry -/

theorem NewClient_of_registers (r : Registry) (cc : ClientConfig)
    (h : registers r cc = true) :
    NewClient r cc = storeClient r cc (cc.TokenSourceKey.bind r.sources) := by
  unfold NewClient
  cases hk : cc.TokenSourceKey with
  | none => rfl
  | some key =>
    have hs : (r.sources key).isSome = true := by simpa [registers, hk] using h
    simp [GetTokenSource, hs]

theorem NewClient_of_not_registers (r : Registry) (cc : ClientConfig)
    (h : registers r cc = false) :
    ∃ key, cc.TokenSourceKey = some key ∧ r.sources key = none ∧
      NewClient r cc =
        { client := none,
          err := some ("client configuration failed: couldn't find token source with key "
            ++ key),
          reg := r } := by
  unfold registers at h
  cases hk : cc.TokenSourceKey with
  | none => simp [hk] at h
  | some key =>
    have hs : r.sources key = none := by simpa [hk] using h
    refine ⟨key, rfl, hs, ?_⟩
    simp [NewClient, hk, GetTokenSource, hs]

theorem registers_iff (r : Registry) (cc : ClientConfig) :
    registers r cc = true ↔ (NewClient r cc).err = none := by
  constructor
  · intro h
    rw [NewClient_of_registers r cc h]
    rfl
  · intro h
    by_contra hn
    have hf : registers r cc = false := by simpa using hn
    obtain ⟨key, _, _, heq⟩ := NewClient_of_not_registers r cc hf
    rw [heq] at h
    cases h

theorem NewClient_sources (r : Registry) (cc : ClientConfig) :
    (NewClient r cc).reg.sources = r.sources ∧
      (NewClient r cc).reg.sourceHeap = r.sourceHeap := by
  cases h : registers r cc
  · obtain ⟨key, _, _, heq⟩ := NewClient_of_not_registers r cc h
    rw [heq]
    exact ⟨rfl, rfl⟩
  · rw [NewClient_of_registers r cc h]
    exact ⟨rfl, rfl⟩

theorem registers_NewClient (r : Registry) (x cc : ClientConfig) :
    registers (NewClient r x).reg cc = registers r cc := by
  unfold registers
  rw [(NewClient_sources r x).1]

/-- C17: when the token source key of a configuration is set to a key that is
not in the map of token sources, `NewClient` returns a nil client and the error
"client configuration failed: couldn't find token source with key " followed
by the key, and the state of the package, the map of clients included, is what
it was. -/
theorem NewClient_missing_token_source (r : Registry) (cc : ClientConfig) (key : String)
    (hkey : cc.TokenSourceKey = some key) (hmiss : r.sources key = none) :
    (NewClient r cc).client = none ∧
      (NewClient r cc).err
        = some ("client configuration failed: couldn't find token source with key " ++ key) ∧
      (NewClient r cc).reg = r ∧
      ∀ k, (GetClient (NewClient r cc).reg k).1 = (GetClient r k).1 := by
  have h : NewClient r cc =
      { client := none,
        err := some ("client configuration failed: couldn't find token source with key "
          ++ key),
        reg := r } := by
    simp [NewClient, hkey, GetTokenSource, hmiss]
  rw [h]
  exact ⟨rfl, rfl, rfl, fun _ => rfl⟩

theorem NewClient_missing_token_source_witness :
    configWithSource.TokenSourceKey = some "oauth" ∧ Registry.init.sources "oauth" = none ∧
      (NewClient Registry.init configWithSource).client = none ∧
      (NewClient Registry.init configWithSource).err
        = some "client configuration failed: couldn't find token source with key oauth" ∧
      (GetClient (NewClient Registry.init configWithSource).reg "MockClient").1
        = (none, false) := by
  have h := NewClient_missing_token_source Registry.init configWithSource "oauth" rfl rfl
  exact ⟨rfl, rfl, h.1, h.2.1, by rw [h.2.2.1]; rfl⟩

theorem storeClient_spec (r : Registry) (cc : ClientConfig) (ts : Option Nat) :
    (storeClient r cc ts).client = some r.clientHeap.length ∧
      (storeClient r cc ts).err = none ∧
      (storeClient r cc ts).reg.clientHeap = r.clientHeap ++ [buildClient cc ts] ∧
      (storeClient r cc ts).reg.clients = Function.update r.clients cc.Key
        (some r.clientHeap.length) ∧
      (storeClient r cc ts).reg.sources = r.sources :=
  ⟨rfl, rfl, rfl, rfl, rfl⟩

/-- C18: when two configurations with the same key register one after the
other, `GetClient` for the key afterwards finds the client allocated for the
second one, and each of its fields is what the second configuration and the
map of token sources determine: key and base path, the headers and parameters
given (empty when omitted), the timeout given in seconds (`defaultTimeout` when
omitted), the transport given (`DefaultTransport` for its `SkipSSL` and token
source when omitted) and the token source found under its key.  Every other
key of the map and every client allocated before are unchanged. -/
theorem NewClient_replaces (r : Registry) (c1 c2 : ClientConfig) (hkey : c1.Key = c2.Key)
    (h1 : (NewClient r c1).err = none)
    (h2 : (NewClient (NewClient r c1).reg c2).err = none) :
    ∃ p c,
      (NewClient (NewClient r c1).reg c2).client = some p ∧
      (GetClient (NewClient (NewClient r c1).reg c2).reg c2.Key).1 = (some p, true) ∧
      (NewClient (NewClient r c1).reg c2).reg.clientHeap[p]? = some c ∧
      c.Key = c2.Key ∧ c.Basepath = c2.Basepath ∧
      c.DefaultHeaders = c2.DefaultHeaders.getD [] ∧
      c.DefaultParams = c2.DefaultParams.getD [] ∧
      c.TokenSource = c2.TokenSourceKey.bind r.sources ∧
      c.HttpClient.Timeout
        = (c2.Timeout.map (fun t => Duration.mul t Second)).getD defaultTimeout ∧
      c.HttpClient.Transport
        = c2.Transport.getD
            (some (DefaultTransport c2.SkipSSL (c2.TokenSourceKey.bind r.sources))) ∧
      (∀ k, k ≠ c2.Key →
        (GetClient (NewClient (NewClient r c1).reg c2).reg k).1 = (GetClient r k).1) ∧
      (∀ q, q < r.clientHeap.length →
        (NewClient (NewClient r c1).reg c2).reg.clientHeap[q]? = r.clientHeap[q]?) ∧
      (NewClient (NewClient r c1).reg c2).reg.sources = r.sources := by
  have hr1 := (registers_iff r c1).mpr h1
  have hr2 := (registers_iff _ c2).mpr h2
  have hs1 := (NewClient_sources r c1).1
  rw [NewClient_of_registers _ c2 hr2, hs1]
  rw [NewClient_of_registers r c1 hr1]
  refine ⟨(r.clientHeap ++ [buildClient c1 (c1.TokenSourceKey.bind r.sources)]).length,
    buildClient c2 (c2.TokenSourceKey.bind r.sources), rfl, ?_, ?_, rfl, rfl, ?_, ?_, rfl, ?_,
    ?_, ?_, ?_, rfl⟩
  · simp [GetClient, storeClient]
  · simp only [storeClient, List.append_assoc, List.singleton_append, List.length_append,
      List.length_singleton]
    rw [List.getElem?_append_right (by omega)]
    simp
  · simp only [buildClient]
    cases c2.DefaultHeaders <;> rfl
  · simp only [buildClient]
    cases c2.DefaultParams <;> rfl
  · simp only [buildClient]
    cases c2.Timeout <;> rfl
  · simp only [buildClient]
    cases c2.Transport <;> rfl
  · intro k hk
    have hk1 : k ≠ c1.Key := by rw [hkey]; exact hk
    simp [GetClient, storeClient, Function.update_noteq hk, Function.update_noteq hk1]
  · intro q hq
    simp only [storeClient, List.append_assoc]
    rw [List.getElem?_append_left hq]

theorem NewClient_replaces_witness :
    configOld.Key = configNew.Key ∧
      (NewClient Registry.init configOld).err = none ∧
      (NewClient (NewClient Registry.init configOld).reg configNew).err = none ∧
      (GetClient (NewClient (NewClient Registry.init configOld).reg configNew).reg
        "MockClient").1 = (some 1, true) ∧
      (NewClient (NewClient Registry.init configOld).reg configNew).reg.clientHeap[1]?
        = some { Key := "MockClient", Basepath := "https://new.example",
                 HttpClient := { Transport := some (.tracing (.httpLog ⟨false⟩)),
                                 Timeout := 30000000000 },
                 DefaultHeaders := [], DefaultParams := [], TokenSource := none } := by
  obtain ⟨p, c, hp, hget, hheap, hk, hb, hh, hpar, hts, hto, htr, _⟩ :=
    NewClient_replaces Registry.init configOld configNew rfl rfl rfl
  have hp1 : p = 1 := by
    have h : (NewClient (NewClient Registry.init configOld).reg configNew).client = some 1 :=
      rfl
    rw [hp] at h
    exact Option.some.inj h
  subst hp1
  have hc : c = { Key := "MockClient", Basepath := "https://new.example",
                  HttpClient := { Transport := some (.tracing (.httpLog ⟨false⟩)),
                                  Timeout := 30000000000 },
                  DefaultHeaders := [], DefaultParams := [], TokenSource := none } := by
    obtain ⟨k, b, ⟨tr, tmo⟩, h, pa, ts⟩ := c
    simp only at hk hb hh hpar hts hto htr
    subst hk hb hh hpar hts hto htr
    rfl
  rw [hc] at hheap
  exact ⟨rfl, rfl, rfl, hget, hheap⟩

theorem NewTokenSource_clients (r : Registry) (tc : TokenSourceConfig) :
    (applyOp r (.newTokenSource tc)).clients = r.clients ∧
      (applyOp r (.newTokenSource tc)).clientHeap = r.clientHeap := by
  simp only [applyOp, NewTokenSource]
  by_cases hf : (GetClient r tc.ClientKey).1.2 = true
  · simp only [hf, Bool.not_true, Bool.false_eq_true, if_false]
    cases (GetClient r tc.ClientKey).1.1.bind fun p => r.clientHeap[p]? with
    | none => simp
    | some client => simp
  · have hf2 : (GetClient r tc.ClientKey).1.2 = false := by simpa using hf
    simp [hf2]

theorem applyOp_not_newClient (r : Registry) (op : RegistryOp)
    (h : ∀ cc, op ≠ .newClient cc) :
    (applyOp r op).clients = r.clients ∧ (applyOp r op).clientHeap = r.clientHeap := by
  cases op with
  | getClient key => exact ⟨rfl, rfl⟩
  | getTokenSource key => exact ⟨rfl, rfl⟩
  | newClient cc => exact absurd rfl (h cc)
  | newTokenSource tc => exact NewTokenSource_clients r tc

theorem applyOps_not_newClient (r : Registry) (ops : List RegistryOp)
    (h : ∀ op ∈ ops, ∀ cc, op ≠ .newClient cc) :
    (applyOps r ops).clients = r.clients ∧ (applyOps r ops).clientHeap = r.clientHeap := by
  induction ops generalizing r with
  | nil => exact ⟨rfl, rfl⟩
  | cons op ops ih =>
    simp only [applyOps]
    have h1 := applyOp_not_newClient r op (h op (List.mem_cons_self _ _))
    have h2 := ih (applyOp r op) (fun o ho => h o (List.mem_cons_of_mem _ ho))
    exact ⟨h2.1.trans h1.1, h2.2.trans h1.2⟩

theorem GetClient_flag_applyOp (key : String) (r : Registry) (op : RegistryOp) :
    (GetClient (applyOp r op) key).1.2 =
      ((GetClient r key).1.2 ||
        (match op with
          | .newClient cc => cc.Key == key && (NewClient r cc).err.isNone
          | _ => false)) := by
  cases op with
  | getClient k => simp [applyOp, GetClient]
  | getTokenSource k => simp [applyOp, GetClient, GetTokenSource]
  | newTokenSource tc =>
    have hc := (NewTokenSource_clients r tc).1
    simp only [GetClient, hc, Bool.or_false]
  | newClient cc =>
    simp only [applyOp]
    cases hreg : registers r cc
    · obtain ⟨k, _, _, heq⟩ := NewClient_of_not_registers r cc hreg
      rw [heq]
      simp
    · rw [NewClient_of_registers r cc hreg]
      by_cases hk : key = cc.Key
      · subst hk
        simp [GetClient, storeClient]
      · have hk2 : (cc.Key == key) = false := by
          simpa using fun h => hk h.symm
        simp [GetClient, storeClient, Function.update_noteq hk, hk2]

theorem GetClient_flag_applyOps (key : String) (ops : List RegistryOp) :
    ∀ r, (GetClient (applyOps r ops) key).1.2 =
      ((GetClient r key).1.2 || wasRegistered key r ops) := by
  induction ops with
  | nil => intro r; simp [applyOps, wasRegistered]
  | cons op ops ih =>
    intro r
    simp only [applyOps, wasRegistered]
    rw [ih (applyOp r op), GetClient_flag_applyOp key r op, Bool.or_assoc]

/-- C19: `GetClient` leaves the state of the package as it is; a second call
with the same key, with any calls of `GetClient`, `GetTokenSource` and
`NewTokenSource` but no call of `NewClient` in between, returns the same pointer
and the same flag, and the clients allocated are the same; the flag is false
exactly when the pointer is nil, and, from the initial state on and through
every history of calls of the four functions, exactly when no call of
`NewClient` with that key has returned a nil error. -/
theorem GetClient_pure_read (r : Registry) (key : String) :
    (GetClient r key).2 = r ∧
      (GetClient (GetClient r key).2 key).1 = (GetClient r key).1 ∧
      (∀ ops : List RegistryOp, (∀ op ∈ ops, ∀ cc, op ≠ .newClient cc) →
        (GetClient (applyOps (GetClient r key).2 ops) key).1 = (GetClient r key).1 ∧
        (applyOps (GetClient r key).2 ops).clientHeap = r.clientHeap) ∧
      ((GetClient r key).1.2 = false ↔ (GetClient r key).1.1 = none) ∧
      (∀ ops : List RegistryOp,
        (GetClient (applyOps Registry.init ops) key).1.2 = false ↔
          wasRegistered key Registry.init ops = false) := by
  refine ⟨rfl, rfl, ?_, ?_, ?_⟩
  · intro ops h
    have hk := applyOps_not_newClient r ops h
    rw [show (GetClient r key).2 = r from rfl]
    exact ⟨by simp only [GetClient, hk.1], hk.2⟩
  · simp only [GetClient]
    cases r.clients key <;> simp
  · intro ops
    rw [GetClient_flag_applyOps key ops Registry.init]
    simp [GetClient, Registry.init]

theorem ConfigureClients_all (r : Registry) (ccs : List ClientConfig)
    (h : ∀ cc ∈ ccs, registers r cc = true) :
    ConfigureClients r ccs = (none, registerEach r ccs) := by
  induction ccs generalizing r with
  | nil => rfl
  | cons cc ccs ih =>
    have hcc := h cc (List.mem_cons_self _ _)
    have herr := (registers_iff r cc).mp hcc
    simp only [ConfigureClients, herr, registerEach]
    apply ih
    intro x hx
    rw [registers_NewClient]
    exact h x (List.mem_cons_of_mem _ hx)

theorem ConfigureClients_first_failure (r : Registry) (pre : List ClientConfig)
    (c : ClientConfig) (post : List ClientConfig)
    (hpre : ∀ x ∈ pre, registers r x = true) (hc : registers r c = false) :
    ConfigureClients r (pre ++ c :: post) =
      ((NewClient (registerEach r pre) c).err, registerEach r pre) ∧
      (NewClient (registerEach r pre) c).err ≠ none := by
  induction pre generalizing r with
  | nil =>
    obtain ⟨key, _, _, heq⟩ := NewClient_of_not_registers r c hc
    simp only [List.nil_append, ConfigureClients, registerEach, heq]
    simp
  | cons x pre ih =>
    have hx := hpre x (List.mem_cons_self _ _)
    have herr := (registers_iff r x).mp hx
    simp only [List.cons_append, ConfigureClients, herr, registerEach]
    apply ih
    · intro y hy
      rw [registers_NewClient]
      exact hpre y (List.mem_cons_of_mem _ hy)
    · rw [registers_NewClient]
      exact hc

/-- C20: `ConfigureClients` hands the configurations to `NewClient` in order.  A
configuration registers exactly when `NewClient` returns a nil error for it,
and whether it does is not changed by the registrations before it.  The result
is nil exactly when every configuration registers, and the state is then the
one after all registrations.  Otherwise, for the first configuration that does
not register, the result is the error `NewClient` returns for it, and the
state is the one after the registrations before it: neither it nor any later
configuration has been applied. -/
theorem ConfigureClients_sequential (r : Registry) (ccs : List ClientConfig) :
    (∀ (s : Registry) (cc : ClientConfig),
        (registers s cc = true ↔ (NewClient s cc).err = none) ∧
        ∀ x, registers (NewClient s x).reg cc = registers s cc) ∧
      ((ConfigureClients r ccs).1 = none ↔ ∀ cc ∈ ccs, registers r cc = true) ∧
      ((∀ cc ∈ ccs, registers r cc = true) →
        (ConfigureClients r ccs).2 = registerEach r ccs) ∧
      (∀ pre c post, ccs = pre ++ c :: post → (∀ x ∈ pre, registers r x = true) →
        registers r c = false →
        (ConfigureClients r ccs).1 = (NewClient (registerEach r pre) c).err ∧
        (ConfigureClients r ccs).1 ≠ none ∧
        (ConfigureClients r ccs).2 = registerEach r pre ∧
        (NewClient (registerEach r pre) c).reg = registerEach r pre) := by
  have hfail : ∀ pre c post, ccs = pre ++ c :: post → (∀ x ∈ pre, registers r x = true) →
      registers r c = false →
      (ConfigureClients r ccs).1 = (NewClient (registerEach r pre) c).err ∧
      (ConfigureClients r ccs).1 ≠ none ∧
      (ConfigureClients r ccs).2 = registerEach r pre ∧
      (NewClient (registerEach r pre) c).reg = registerEach r pre := by
    intro pre c post hsplit hpre hc
    obtain ⟨heq, hne⟩ := ConfigureClients_first_failure r pre c post hpre hc
    rw [hsplit, heq]
    refine ⟨rfl, hne, rfl, ?_⟩
    have hc2 : registers (registerEach r pre) c = false := by
      clear heq hne hsplit
      induction pre generalizing r with
      | nil => exact hc
      | cons x pre ih =>
        simp only [registerEach]
        apply ih
        · intro y hy
          rw [registers_NewClient]
          exact hpre y (List.mem_cons_of_mem _ hy)
        · rw [registers_NewClient]
          exact hc
    obtain ⟨key, _, _, h⟩ := NewClient_of_not_registers _ c hc2
    rw [h]
  refine ⟨fun s cc => ⟨registers_iff s cc, fun x => registers_NewClient s x cc⟩, ⟨?_, ?_⟩, ?_,
    hfail⟩
  · intro hnone
    by_contra hex
    push_neg at hex
    obtain ⟨cc, hmem, hcc⟩ := hex
    have hbad : ∃ pre c post, ccs = pre ++ c :: post ∧ (∀ x ∈ pre, registers r x = true) ∧
        registers r c = false := by
      clear hnone hfail
      induction ccs with
      | nil => cases hmem
      | cons y ys ih =>
        cases hy : registers r y
        · exact ⟨[], y, ys, rfl, fun _ h => (by cases h), hy⟩
        · have hmem2 : cc ∈ ys := by
            rcases List.mem_cons.mp hmem with h | h
            · subst h
              rw [hy] at hcc
              exact absurd rfl hcc
            · exact h
          obtain ⟨pre, c, post, hs, hp, hcf⟩ := ih hmem2
          refine ⟨y :: pre, c, post, by rw [hs]; rfl, ?_, hcf⟩
          intro x hx
          rcases List.mem_cons.mp hx with h | h
          · rw [h]; exact hy
          · exact hp x h
    obtain ⟨pre, c, post, hs, hp, hcf⟩ := hbad
    exact (hfail pre c post hs hp hcf).2.1 hnone
  · intro hall
    rw [ConfigureClients_all r ccs hall]
  · intro hall
    rw [ConfigureClients_all r ccs hall]

theorem DecodeJSONRequestBody_unsupported_media_witness :
    (DecodeJSONRequestBody requestNoContentType (CreateUserRequestDTO.structType exampleEmail)
        CreateUserRequestDTO.zero).1.map (fun e => e.Status) = some 415 ∧
      (DecodeJSONRequestBody requestNoContentType (CreateUserRequestDTO.structType exampleEmail)
        CreateUserRequestDTO.zero).2 = CreateUserRequestDTO.zero ∧
      (DecodeJSONRequestBody requestCharset (CreateUserRequestDTO.structType exampleEmail)
        CreateUserRequestDTO.zero).1.map (fun e => e.Status) ≠ some 415 :=
  ⟨(DecodeJSONRequestBody_unsupported_media requestNoContentType
      (CreateUserRequestDTO.structType exampleEmail) CreateUserRequestDTO.zero).1.mpr
      (Or.inl rfl),
    ((DecodeJSONRequestBody_unsupported_media requestNoContentType
      (CreateUserRequestDTO.structType exampleEmail) CreateUserRequestDTO.zero).2.1
      (Or.inl rfl)).1,
    (DecodeJSONRequestBody_unsupported_media requestCharset
      (CreateUserRequestDTO.structType exampleEmail) CreateUserRequestDTO.zero).2.2 rfl⟩

/-- C19 on histories from the initial state: a lookup after a registration, a
lookup of a key never registered, a registration that fails for want of its
token source, the same registration after `NewTokenSource` has supplied the
token source, and two lookups with a call of `NewTokenSource` in between. -/
theorem GetClient_pure_read_witness :
    (GetClient (applyOps Registry.init [.newClient configOther, .getClient "Other"])
        "Other").1 = (some 0, true) ∧
      (GetClient (applyOps Registry.init [.newClient configOther, .getClient "Other"])
        "MockClient").1 = (none, false) ∧
      (GetClient (applyOps Registry.init [.newClient configWithSource]) "MockClient").1.2
        = false ∧
      wasRegistered "MockClient" Registry.init
          [.newClient authConfig, .newTokenSource oauthSourceConfig,
            .newClient configWithSource] = true ∧
      (GetClient (applyOps Registry.init
          [.newClient authConfig, .newTokenSource oauthSourceConfig,
            .newClient configWithSource]) "MockClient").1 = (some 1, true) ∧
      (GetClient (applyOps (GetClient (applyOps Registry.init [.newClient authConfig])
            "auth").2 [.newTokenSource oauthSourceConfig, .getTokenSource "oauth"])
          "auth").1 = (GetClient (applyOps Registry.init [.newClient authConfig]) "auth").1 := by
  have h := (GetClient_pure_read
    (applyOps Registry.init [.newClient configOther]) "Other").2.2.1 [.getClient "Other"]
    (by
      intro op hop cc
      simp only [List.mem_singleton] at hop
      subst hop
      simp)
  have h3 := ((GetClient_pure_read Registry.init "MockClient").2.2.2.2
    [.newClient configWithSource]).mpr (by decide)
  have h5 := (GetClient_pure_read
    (applyOps Registry.init [.newClient authConfig]) "auth").2.2.1
    [.newTokenSource oauthSourceConfig, .getTokenSource "oauth"]
    (by
      intro op hop cc
      simp only [List.mem_cons, List.mem_singleton, List.not_mem_nil, or_false] at hop
      rcases hop with hop | hop <;> subst hop <;> simp)
  exact ⟨h.1, by decide, h3, by decide, by decide, h5.1⟩

theorem ConfigureClients_sequential_witness :
    (ConfigureClients Registry.init [configOther, configWithSource, configNew]).1
        = some "client configuration failed: couldn't find token source with key oauth" ∧
      (ConfigureClients Registry.init [configOther, configWithSource, configNew]).2
        = registerEach Registry.init [configOther] ∧
      (GetClient (ConfigureClients Registry.init [configOther, configWithSource, configNew]).2
        "Other").1 = (some 0, true) ∧
      (GetClient (ConfigureClients Registry.init [configOther, configWithSource, configNew]).2
        "MockClient").1 = (none, false) ∧
      (ConfigureClients Registry.init [configOther, configNew]).1 = none := by
  have h := (ConfigureClients_sequential Registry.init
    [configOther, configWithSource, configNew]).2.2.2 [configOther] configWithSource
    [configNew] rfl
    (by
      intro x hx
      simp only [List.mem_singleton] at hx
      subst hx
      rfl)
    rfl
  have h2 := (ConfigureClients_sequential Registry.init [configOther, configNew]).2.1.mpr
    (by
      intro x hx
      simp only [List.mem_cons, List.mem_singleton, List.not_mem_nil, or_false] at hx
      rcases hx with rfl | rfl <;> rfl)
  refine ⟨?_, h.2.2.1, ?_, ?_, h2⟩
  · rw [h.1]
    rfl
  · rw [h.2.2.1]
    rfl
  · rw [h.2.2.1]
    rfl

/-! ## The chain that `DefaultTransport` builds -/

/-- C21, as stated, fails: in the chain built without a token source the
tracing transport is outermost and wraps the logging transport, which wraps the
base transport; the order logging, tracing, base is not what is built, with or
without a token source. -/
theorem DefaultTransport_tracing_wraps_logging :
    DefaultTransport false none = .tracing (.httpLog ⟨false⟩) ∧
      Transport.layers (DefaultTransport false none) = [.tracing, .logging, .base false] ∧
      Transport.layers (DefaultTransport false none) ≠ [.logging, .tracing, .base false] ∧
      Transport.layers (DefaultTransport false (some 0))
        ≠ [.auth 0, .logging, .tracing, .base false] := by
  decide

/-- C21, amended: `DefaultTransport(skipSSL, ts)` builds Tracing(Logging(base))
when `ts` is nil and Auth(Tracing(Logging(base))) when a token source is given:
the tracing transport wraps the logging transport, which wraps the base
transport configured with `skipSSL`; an auth layer is present exactly when `ts`
is not nil, it is outermost, and it is bound to `ts`. -/
theorem DefaultTransport_chain (skipSSL : Bool) (ts : Option Nat) :
    DefaultTransport skipSSL ts =
        (match ts with
          | none => Transport.tracing (.httpLog ⟨skipSSL⟩)
          | some p => Transport.oauth (.tracing (.httpLog ⟨skipSSL⟩)) p) ∧
      Transport.layers (DefaultTransport skipSSL ts) =
        (match ts with
          | none => []
          | some p => [Layer.auth p]) ++ [.tracing, .logging, .base skipSSL] ∧
      (∀ p, Layer.auth p ∈ Transport.layers (DefaultTransport skipSSL ts) ↔ ts = some p) := by
  cases ts with
  | none => simp [DefaultTransport, Transport.layers]
  | some q =>
    refine ⟨rfl, rfl, fun p => ?_⟩
    simp [DefaultTransport, Transport.layers, eq_comm]

/-! ## `NewJSONRequest` -/

theorem NewJSONRequest_eq_NewRequestWithContext {β : Type} (c : Client)
    (parseURL : String → Except String URL) (marshal : β → Except String (List Char))
    (ctx : Option Context) (method path : String) (v : Option β) (body : Option (List Char))
    (h : (v = none ∧ body = none) ∨
      ∃ x bytes, v = some x ∧ marshal x = .ok bytes ∧ body = some bytes) :
    Client.NewJSONRequest c parseURL marshal ctx method path v =
      NewRequestWithContext parseURL ctx method (c.Basepath ++ path) body := by
  rcases h with ⟨hv, hb⟩ | ⟨x, bytes, hv, hm, hb⟩
  · subst hv hb; rfl
  · subst hv hb; simp only [Client.NewJSONRequest, hm]

/-- C22, as stated, fails: a client with a default header `X-Api-Key` and a
default query parameter `v` builds, for `POST /users` with a body value, a
request whose URL is the base path followed by the path and whose body is the
JSON text of the value, but whose header map is empty and whose query is
empty: nothing of the defaults is attached. -/
theorem NewJSONRequest_leaves_defaults_out :
    clientWithDefaults.DefaultHeaders = [("X-Api-Key", ["k"])] ∧
      clientWithDefaults.DefaultParams = [("v", ["1"])] ∧
      (Client.NewJSONRequest clientWithDefaults exampleParse exampleMarshal (some {}) "POST"
          "/users" (some ⟨1, "Ann"⟩)).toOption.map
        (fun req => (req.Header, Header.Values req.Header "X-Api-Key", req.URL, req.Body))
        = some ([], [], { Host := "mock.example", Path := "/users", RawQuery := "" },
            some (.ok bodyAnn.data)) :=
  ⟨rfl, rfl, rfl⟩

/-- C22, amended: for every client, method, path and body value,
`NewJSONRequest` returns the error of `json.Marshal` and no request when the
value is not nil and its serialization fails; otherwise it returns what
`http.NewRequestWithContext` returns for the method, the URL `Basepath + path`
and the JSON text as body (no body for a nil value): an error and no request
when the method is not a token, the context is nil or the URL does not parse,
and else a request with that method, the parsed URL, the body and an empty
header map.  The default headers and parameters of the client play no part:
two clients with the same base path build the same request. -/
theorem NewJSONRequest_builds {β : Type} (c : Client)
    (parseURL : String → Except String URL) (marshal : β → Except String (List Char))
    (ctx : Option Context) (method path : String) (v : Option β) :
    (∀ x err, v = some x → marshal x = .error err →
        Client.NewJSONRequest c parseURL marshal ctx method path v = .error err) ∧
      (∀ body : Option (List Char),
        ((v = none ∧ body = none) ∨
          ∃ x bytes, v = some x ∧ marshal x = .ok bytes ∧ body = some bytes) →
        (∀ ctx0 u, validMethod (if method == "" then "GET" else method) = true →
          ctx = some ctx0 → parseURL (c.Basepath ++ path) = .ok u →
          Client.NewJSONRequest c parseURL marshal ctx method path v =
            .ok { Method := if method == "" then "GET" else method,
                  URL := { u with Host := removeEmptyPort u.Host },
                  Header := [], Body := body.map .ok, ctx := ctx0 }) ∧
        ((validMethod (if method == "" then "GET" else method) = false ∨ ctx = none ∨
            ∃ e, parseURL (c.Basepath ++ path) = .error e) →
          ∃ err, Client.NewJSONRequest c parseURL marshal ctx method path v = .error err)) ∧
      (∀ c2 : Client, c2.Basepath = c.Basepath →
        Client.NewJSONRequest c2 parseURL marshal ctx method path v =
          Client.NewJSONRequest c parseURL marshal ctx method path v) := by
  refine ⟨?_, ?_, ?_⟩
  · intro x err hv hm
    subst hv
    simp only [Client.NewJSONRequest, hm]
  · intro body hbody
    rw [NewJSONRequest_eq_NewRequestWithContext c parseURL marshal ctx method path v body
      hbody]
    refine ⟨?_, ?_⟩
    · intro ctx0 u hm hctx hu
      subst hctx
      simp only [NewRequestWithContext, hm, hu, Bool.not_true, Bool.false_eq_true, if_false]
    · intro h
      by_cases hm : validMethod (if method == "" then "GET" else method) = true
      · cases ctx with
        | none => exact ⟨_, by simp only [NewRequestWithContext, hm]; rfl⟩
        | some ctx0 =>
          rcases h with h | h | ⟨e, he⟩
          · rw [h] at hm; exact absurd hm (by decide)
          · cases h
          · exact ⟨e, by simp only [NewRequestWithContext, hm, he]; rfl⟩
      · have hf : validMethod (if method == "" then "GET" else method) = false := by
          simpa using hm
        exact ⟨_, by simp only [NewRequestWithContext, hf]; rfl⟩
  · intro c2 hb
    simp only [Client.NewJSONRequest, hb]

/-- The amended C22 on `POST /users` with the value `(1, "Ann")`, and on a value
whose serialization fails. -/
theorem NewJSONRequest_builds_witness :
    Client.NewJSONRequest clientWithDefaults exampleParse exampleMarshal (some {}) "POST"
        "/users" (some ⟨1, "Ann"⟩)
      = .ok { Method := "POST", URL := { Host := "mock.example", Path := "/users" },
              Header := [], Body := some (.ok bodyAnn.data), ctx := {} } ∧
      Client.NewJSONRequest clientWithDefaults exampleParse
          (fun _ : IdName => .error "json: unsupported value") (some {}) "POST" "/users"
          (some ⟨1, "Ann"⟩)
        = .error "json: unsupported value" := by
  have h := NewJSONRequest_builds clientWithDefaults exampleParse exampleMarshal (some {})
    "POST" "/users" (some ⟨1, "Ann"⟩)
  have h2 := NewJSONRequest_builds clientWithDefaults exampleParse
    (fun _ : IdName => .error "json: unsupported value") (some {}) "POST" "/users"
    (some ⟨1, "Ann"⟩)
  refine ⟨?_, h2.1 ⟨1, "Ann"⟩ _ rfl rfl⟩
  exact (h.2.1 (some bodyAnn.data) (Or.inr ⟨⟨1, "Ann"⟩, bodyAnn.data, rfl, rfl, rfl⟩)).1
    {} { Host := "mock.example", Path := "/users" } (by decide) rfl rfl

/-! ## The oauth transport -/

theorem renewFinish_token_of_no_err (ts : TokenSource) (outcome : Except String Response)
    (now : Time) (h : (renewFinish ts outcome now).2.1 = none) :
    ∃ token, (renewFinish ts outcome now).1 = some token := by
  by_cases hok : ∃ resp, outcome = .ok resp ∧
      (DecodeJSONResponseBody resp TokenCDO.structType.dest TokenCDO.zero
        (none : Option (Dest Unit × Unit))).respType = .OK_RESPONSE
  · obtain ⟨resp, hout, hrt⟩ := hok
    subst hout
    rw [renewFinish_ok ts resp now hrt]
    exact ⟨_, rfl⟩
  · have hfail := renewFinish_fail ts outcome now (fun resp hout hrt => hok ⟨resp, hout, hrt⟩)
    exact absurd h hfail.2.1

theorem GetToken_token_of_no_err (ts : TokenSource) (env : CallEnv)
    (h : (GetToken ts env).err = none) : ∃ token, (GetToken ts env).token = some token := by
  by_cases hv : Token.Valid ts.Token env.nowCheck = true
  · have hg : GetToken ts env = ⟨ts.Token, none, ts, []⟩ := by simp [GetToken, hv]
    rw [hg]
    cases ht : ts.Token with
    | none => rw [ht] at hv; simp [Token.Valid] at hv
    | some t => exact ⟨t, rfl⟩
  · have hs : Token.Valid ts.Token env.nowCheck = false := by simpa using hv
    rw [GetToken_of_stale ts env hs] at h ⊢
    cases hreq : env.newRequestErr ts.Client.Basepath with
    | some e => simp [RenewToken, hreq] at h
    | none =>
      rw [RenewToken_of_send ts env hreq] at h ⊢
      exact renewFinish_token_of_no_err ts _ _ h

theorem lookup_filter_ne (m : Header) (k k2 : String) (h : k2 ≠ k) :
    (m.filter (fun e => e.1 != k)).lookup k2 = m.lookup k2 := by
  induction m with
  | nil => rfl
  | cons e m ih =>
    obtain ⟨a, vs⟩ := e
    by_cases ha : a = k
    · subst ha
      have hne : (k2 == a) = false := by simpa using h
      simp [List.filter, List.lookup, hne, ih]
    · have hf : (a != k) = true := by simpa using ha
      simp only [List.filter, hf, List.lookup]
      rw [ih]

theorem mapIndex_mapStore_same (m : Header) (k : String) (vs : List String) :
    mapIndex (mapStore m k vs) k = vs := by
  simp [mapIndex, mapStore, List.lookup]

theorem mapIndex_mapStore_ne (m : Header) (k k2 : String) (vs : List String) (h : k2 ≠ k) :
    mapIndex (mapStore m k vs) k2 = mapIndex m k2 := by
  have hne : (k2 == k) = false := by simpa using h
  simp only [mapIndex, mapStore, List.lookup, hne]
  rw [lookup_filter_ne m k k2 h]

theorem Header.Values_Set_same (h : Header) (key value : String) :
    Header.Values (Header.Set h key value) key = [value] := by
  simp only [Header.Values, Header.Set, mapIndex_mapStore_same]

theorem Header.Values_Set_other (h : Header) (key value k : String)
    (hk : CanonicalMIMEHeaderKey k ≠ CanonicalMIMEHeaderKey key) :
    Header.Values (Header.Set h key value) k = Header.Values h k := by
  simp only [Header.Values, Header.Set]
  exact mapIndex_mapStore_ne h _ _ [value] hk

/-- C23: `(*OauthTransport).RoundTrip` never sends a request unauthenticated.
When `GetToken` fails, it returns that error and no response, the base
transport plays no part in the result and nothing is sent; when `GetToken`
succeeds, a token is there and the result is that of the one call of the base
transport on the request whose `Authorization` header is the single value
`TokenType + " " + AccessToken`.  In both cases the state the call of
`GetToken` leaves holds the token source as `GetToken` left it and, in the log,
the lines printed for the requests `GetToken` sent. -/
theorem OauthTransport_RoundTrip_authenticates (w : Wire)
    (Base : HttpRequest → ChainState → RoundTripResult) (p : Nat) (r : HttpRequest)
    (s : ChainState) (ts : TokenSource) (hts : s.sources[p]? = some ts) :
    (∀ err, (GetToken ts (w.tokenEnv p)).err = some err →
        OauthTransport.RoundTrip w Base p r s =
          .returns (.error err,
            { s with sources := s.sources.set p (GetToken ts (w.tokenEnv p)).ts,
                     logger := gslog.printed s.logger
                       ((GetToken ts (w.tokenEnv p)).sent.flatMap (w.tokenLines p)) }) ∧
        ∀ Base2 : HttpRequest → ChainState → RoundTripResult,
          OauthTransport.RoundTrip w Base2 p r s = OauthTransport.RoundTrip w Base p r s) ∧
      ((GetToken ts (w.tokenEnv p)).err = none →
        ∃ token, (GetToken ts (w.tokenEnv p)).token = some token ∧
          OauthTransport.RoundTrip w Base p r s =
            Base { r with Header := (Header.Set r.Header "Authorization"
                            (token.TokenType ++ " " ++ token.AccessToken)) }
              { s with sources := s.sources.set p (GetToken ts (w.tokenEnv p)).ts,
                       logger := gslog.printed s.logger
                         ((GetToken ts (w.tokenEnv p)).sent.flatMap (w.tokenLines p)) } ∧
          Header.Values (Header.Set r.Header "Authorization"
              (token.TokenType ++ " " ++ token.AccessToken)) "Authorization"
            = [token.TokenType ++ " " ++ token.AccessToken]) := by
  refine ⟨?_, ?_⟩
  · intro err herr
    refine ⟨?_, fun Base2 => ?_⟩
    · simp only [OauthTransport.RoundTrip, hts, herr]
    · simp only [OauthTransport.RoundTrip, hts, herr]
  · intro herr
    obtain ⟨token, htok⟩ := GetToken_token_of_no_err ts (w.tokenEnv p) herr
    refine ⟨token, htok, ?_, Header.Values_Set_same _ _ _⟩
    simp only [OauthTransport.RoundTrip, hts, herr, htok]

/-- C23 on a request through a chain whose token source holds the valid token
`Bearer abc`, where nothing is printed before the base runs, and through one
whose token endpoint cannot be reached, where the log holds the request to the
token endpoint and nothing else. -/
theorem OauthTransport_RoundTrip_authenticates_witness :
    ({ sources := [cachedSource] } : ChainState).sources[0]? = some cachedSource ∧
      (∃ token, (GetToken cachedSource (exampleWire.tokenEnv 0)).token = some token ∧
        OauthTransport.RoundTrip exampleWire (RoundTrip exampleWire (.http ⟨false⟩)) 0
            exampleRequest { sources := [cachedSource] } =
          RoundTrip exampleWire (.http ⟨false⟩)
            { exampleRequest with Header := (Header.Set exampleRequest.Header "Authorization"
                (token.TokenType ++ " " ++ token.AccessToken)) }
            { sources := ([cachedSource].set 0
                (GetToken cachedSource (exampleWire.tokenEnv 0)).ts),
              logger := gslog.printed {} [] } ∧
        Header.Values (Header.Set exampleRequest.Header "Authorization"
            (token.TokenType ++ " " ++ token.AccessToken)) "Authorization"
          = [token.TokenType ++ " " ++ token.AccessToken]) ∧
      OauthTransport.RoundTrip offlineWire (RoundTrip offlineWire (.http ⟨false⟩)) 0
          exampleRequest { sources := [exampleSource] } =
        .returns (.error "dial tcp: connection refused",
          { sources := ([exampleSource].set 0
              (GetToken exampleSource (offlineWire.tokenEnv 0)).ts),
            logger := gslog.printed {} [tokenRequestLine (renewRequest exampleSource)] }) :=
  ⟨rfl,
    (OauthTransport_RoundTrip_authenticates exampleWire
      (RoundTrip exampleWire (.http ⟨false⟩)) 0 exampleRequest { sources := [cachedSource] }
      cachedSource rfl).2 rfl,
    ((OauthTransport_RoundTrip_authenticates offlineWire
      (RoundTrip offlineWire (.http ⟨false⟩)) 0 exampleRequest { sources := [exampleSource] }
      exampleSource rfl).1 "dial tcp: connection refused" rfl).1⟩

/-! ## The tracing transport -/

/-- C25: `(*TracingTransport).RoundTrip` sets the header `x-trace-id` to the
trace id of the context of the request exactly when that trace id is present
and not empty, leaving every other header as it was; otherwise the request
goes on unchanged.  In both cases the result is that of the one call of the
base transport, unchanged. -/
theorem TracingTransport_RoundTrip_sets_trace_id
    (Base : HttpRequest → ChainState → RoundTripResult) (r : HttpRequest) (s : ChainState) :
    (GetTraceID r.ctx ≠ "" ↔ ∃ t, r.ctx.traceID = some t ∧ t ≠ "") ∧
      (GetTraceID r.ctx ≠ "" →
        TracingTransport.RoundTrip Base r s =
          Base { r with Header := Header.Set r.Header TraceIDHeader (GetTraceID r.ctx) } s ∧
        Header.Values (Header.Set r.Header TraceIDHeader (GetTraceID r.ctx)) "x-trace-id"
          = [GetTraceID r.ctx] ∧
        ∀ k, CanonicalMIMEHeaderKey k ≠ CanonicalMIMEHeaderKey "x-trace-id" →
          Header.Values (Header.Set r.Header TraceIDHeader (GetTraceID r.ctx)) k
            = Header.Values r.Header k) ∧
      (GetTraceID r.ctx = "" → TracingTransport.RoundTrip Base r s = Base r s) := by
  refine ⟨?_, ?_, ?_⟩
  · cases h : r.ctx.traceID with
    | none => simp [GetTraceID, h]
    | some t => simp [GetTraceID, h]
  · intro h
    have hb : (GetTraceID r.ctx != "") = true := by simpa using h
    refine ⟨?_, Header.Values_Set_same _ _ _, fun k hk => Header.Values_Set_other _ _ _ k hk⟩
    simp only [TracingTransport.RoundTrip, hb, if_true]
  · intro h
    simp [TracingTransport.RoundTrip, h]

/-- C25 on a request whose context carries the trace id `trace-1`, and on the
same request under a context without a trace id. -/
theorem TracingTransport_RoundTrip_sets_trace_id_witness :
    GetTraceID exampleRequest.ctx = "trace-1" ∧
      TracingTransport.RoundTrip (RoundTrip exampleWire (.http ⟨false⟩)) exampleRequest {}
        = RoundTrip exampleWire (.http ⟨false⟩)
            { exampleRequest with Header := [("X-Trace-Id", ["trace-1"])] } {} ∧
      TracingTransport.RoundTrip (RoundTrip exampleWire (.http ⟨false⟩))
          { exampleRequest with ctx := {} } {}
        = RoundTrip exampleWire (.http ⟨false⟩) { exampleRequest with ctx := {} } {} :=
  ⟨rfl,
    ((TracingTransport_RoundTrip_sets_trace_id (RoundTrip exampleWire (.http ⟨false⟩))
      exampleRequest {}).2.1 (by decide)).1,
    (TracingTransport_RoundTrip_sets_trace_id (RoundTrip exampleWire (.http ⟨false⟩))
      { exampleRequest with ctx := {} } {}).2.2 rfl⟩

/-! ## A token source together with a transport of the caller -/

/-- C24 fails on the code.  In a registry that holds the token source `oauth`,
`NewClient` accepts a configuration that names `oauth` and brings its own
transport: the client registered has its field `TokenSource` set to that token
source, yet its transport is the one brought, with no auth layer, and a request
through it reaches the round tripper from outside as it was, without an
`Authorization` header.  The same configuration without a transport of its own
gets the auth layer bound to the token source. -/
theorem NewClient_custom_transport_drops_auth (w : Wire) (s : ChainState) :
    (GetTokenSource registryWithSource "oauth").1 = (some 0, true) ∧
      (NewClient registryWithSource configCustomTransport).err = none ∧
      (NewClient registryWithSource configCustomTransport).client = some 1 ∧
      (NewClient registryWithSource configCustomTransport).reg.clientHeap[1]? =
        some { Key := "MockClient", Basepath := "https://mock.example",
               HttpClient := { Transport := some (.custom 7), Timeout := 30000000000 },
               DefaultHeaders := [], DefaultParams := [], TokenSource := some 0 } ∧
      Transport.layers (.custom 7) = [.outside 7] ∧
      RoundTrip w (.custom 7) exampleRequest s =
        .returns (w.external 7 exampleRequest, { s with sent := s.sent ++ [exampleRequest] }) ∧
      Header.Values exampleRequest.Header "Authorization" = [] ∧
      ((NewClient registryWithSource configWithSource).reg.clientHeap[1]?).map
          (fun c => c.HttpClient.Transport)
        = some (some (.oauth (.tracing (.httpLog ⟨false⟩)) 0)) :=
  ⟨rfl, rfl, rfl, rfl, rfl, rfl, rfl, rfl⟩

/-! ## The body field of the log records -/

/-- C26 fails on the code.  With `maxBodyLength = 1000`, `gslog.ResponseWriter`
logs the body of an error response of 85 bytes as it is, blanks included, since
it does not call `trim`; and `gslog.Request` logs a request body indented with
a tab with the tab still in it, since `trim` removes newlines and blanks
only. -/
theorem gslog_body_keeps_whitespace :
    ({} : LogState).maxBodyLength = 1000 ∧
      gslog.ResponseWriter {} bodyExternalError [("Content-Type", ["application/json"])] 500
          exampleRequest "trace-1" =
        { readings := 1,
          output := [{ Time := "", TraceID := "trace-1", Level := "INFO",
                       Typ := .OUTER_RESPONSE, Method := "GET", Url := "mock.example/users",
                       Status := 500, Headers := [("Content-Type", ["application/json"])],
                       Body := bodyExternalError }] } ∧
      ' ' ∈ bodyExternalError.data ∧
      gslog.Request {} .OUTER_REQUEST
          { exampleRequest with Method := "POST", Body := some (.ok bodyIndented.data) }
          "trace-1" =
        .returns
          ({ readings := 1,
             output := [{ Time := "", TraceID := "trace-1", Level := "INFO",
                          Typ := .OUTER_REQUEST, Method := "POST",
                          Url := "mock.example/users",
                          Body := "\x7b\t\"name\":\"Ann\"\x7d" }] },
            { exampleRequest with Method := "POST", Body := some (.ok bodyIndented.data) }) ∧
      '\t' ∈ "\x7b\t\"name\":\"Ann\"\x7d".data :=
  ⟨rfl, rfl, by decide, rfl, by decide⟩

/-! ## `SetRequestDefaults` -/

/-- C27 fails on the code.  For a client configured with the two values
`application/json` and `text/plain` for the default header `Accept`,
`SetRequestDefaults` leaves the request with `text/plain` alone under `Accept`:
each `Header.Set` replaces the value set before it.  The two values of the
default query parameter `v` are both added, after the parameter the URL had. -/
theorem SetRequestDefaults_keeps_last_header_value :
    clientTwoAccepts.DefaultHeaders = [("Accept", ["application/json", "text/plain"])] ∧
      Header.Values (Client.SetRequestDefaults clientTwoAccepts exampleRequest).Header "Accept"
        = ["text/plain"] ∧
      "application/json" ∉
        Header.Values (Client.SetRequestDefaults clientTwoAccepts exampleRequest).Header
          "Accept" ∧
      (Client.SetRequestDefaults clientTwoAccepts
          { exampleRequest with URL := { exampleRequest.URL with RawQuery := "page=3" } }
        ).URL.RawQuery = "page=3&v=1&v=2" := by
  decide

/-! ## The response decoder: error and classification -/

/-- C28: `DecodeJSONResponseBody` returns a nil error exactly when its
classification is `OK_RESPONSE` or `ERR_RESPONSE`; a `DECODING_ERROR` or
`VALIDATION_ERROR` result carries an error; and `ERR_RESPONSE` is not returned
when the error schema is nil. -/
theorem DecodeJSONResponseBody_error_iff_classification {α β : Type} (r : Response)
    (tyOk : Dest α) (dstOk : α) (dstErr : Option (Dest β × β)) :
    ((DecodeJSONResponseBody r tyOk dstOk dstErr).err = none ↔
        ((DecodeJSONResponseBody r tyOk dstOk dstErr).respType = .OK_RESPONSE ∨
          (DecodeJSONResponseBody r tyOk dstOk dstErr).respType = .ERR_RESPONSE)) ∧
      ((DecodeJSONResponseBody r tyOk dstOk dstErr).respType = .DECODING_ERROR →
        (DecodeJSONResponseBody r tyOk dstOk dstErr).err ≠ none) ∧
      ((DecodeJSONResponseBody r tyOk dstOk dstErr).respType = .VALIDATION_ERROR →
        (DecodeJSONResponseBody r tyOk dstOk dstErr).err ≠ none) ∧
      (dstErr = none →
        (DecodeJSONResponseBody r tyOk dstOk dstErr).respType ≠ .ERR_RESPONSE) := by
  unfold DecodeJSONResponseBody
  cases hb : r.Body with
  | error e => simp
  | ok data =>
    simp only
    rcases hu : tyOk.unmarshal data dstOk with ⟨vOk, _ | errOk⟩
    · simp only
      cases hs : Struct tyOk vOk with
      | none => simp
      | some e => simp
    · simp only
      cases dstErr with
      | none => simp
      | some d =>
        obtain ⟨tyErr, vErr0⟩ := d
        simp only
        rcases hu2 : tyErr.unmarshal data vErr0 with ⟨vErr, _ | errErr⟩
        · simp only
          cases hs : Struct tyErr vErr with
          | none => simp
          | some e => simp
        · simp

/-- C28 on the four outcomes of the decoder examples: a success body, an error
body with and without an error schema, and a body that fails validation. -/
theorem DecodeJSONResponseBody_error_iff_classification_witness :
    ((DecodeJSONResponseBody (okResponse bodyAnn) IdName.structType.dest ⟨0, ""⟩
          (none : Option (Dest Unit × Unit))).err = none ↔
        ((DecodeJSONResponseBody (okResponse bodyAnn) IdName.structType.dest ⟨0, ""⟩
            (none : Option (Dest Unit × Unit))).respType = .OK_RESPONSE ∨
          (DecodeJSONResponseBody (okResponse bodyAnn) IdName.structType.dest ⟨0, ""⟩
            (none : Option (Dest Unit × Unit))).respType = .ERR_RESPONSE)) ∧
      (DecodeJSONResponseBody (okResponse bodyAnn) IdName.structType.dest ⟨0, ""⟩
        (none : Option (Dest Unit × Unit))).respType = .OK_RESPONSE ∧
      (DecodeJSONResponseBody (okResponse bodyMalformed) IdName.structType.dest ⟨0, ""⟩
        (none : Option (Dest Unit × Unit))).respType = .DECODING_ERROR ∧
      (DecodeJSONResponseBody (okResponse bodyMalformed) IdName.structType.dest ⟨0, ""⟩
        (none : Option (Dest Unit × Unit))).err ≠ none :=
  ⟨(DecodeJSONResponseBody_error_iff_classification (okResponse bodyAnn)
      IdName.structType.dest ⟨0, ""⟩ (none : Option (Dest Unit × Unit))).1,
    rfl, rfl,
    (DecodeJSONResponseBody_error_iff_classification (okResponse bodyMalformed)
      IdName.structType.dest ⟨0, ""⟩ (none : Option (Dest Unit × Unit))).2.1 rfl⟩

/-! ## `service.CreateUser` -/

/-- C29 fails on the code.  Whenever the mapping of the request succeeds and
`mockclient.PostUser` returns an error, `CreateUser` does not return: it hands
the nil error of the mapping, not the error of `PostUser`, to `gslog.ErrorFrom`,
and the call `err.Error()` there panics with a nil dereference. -/
theorem CreateUser_faults_when_PostUser_fails {Req CDO : Type} (env : ServiceEnv Req CDO)
    (reg : Registry) (lg : LogState) (ctx : Context) (createUserRequest : Req)
    (gserror : apierrors.Error) (lg1 : LogState)
    (hmap : (env.Map createUserRequest).2 = none)
    (hpost : PostUser env reg lg (some ctx) (env.Map createUserRequest).1
      = .returns (some gserror, lg1)) :
    CreateUser env reg lg ctx createUserRequest = .panics nilDereference := by
  simp only [CreateUser, hmap, hpost, Outcome.bind, gslog.ErrorFrom]
  rfl

/-- The failure of C29 on a request made while the host of `MockClient` cannot
be reached. -/
theorem CreateUser_faults_when_PostUser_fails_witness :
    (exampleService.Map ⟨1, "Ann"⟩).2 = none ∧
      PostUser exampleService (NewClient Registry.init configMock).reg {} (some {})
          (exampleService.Map ⟨1, "Ann"⟩).1
        = .returns
            (some { Code := 5001, Label := "INTERNAL_SERVER_ERROR",
                    Message := "Error found while executing http call: " ++
                      "Post \"https://mock.example/users\": dial tcp: connection refused" },
              {}) ∧
      CreateUser exampleService (NewClient Registry.init configMock).reg {} {} ⟨1, "Ann"⟩
        = .panics nilDereference :=
  ⟨rfl, rfl,
    CreateUser_faults_when_PostUser_fails exampleService
      (NewClient Registry.init configMock).reg {} {} ⟨1, "Ann"⟩ _ _ rfl rfl⟩

/-! ## The log of a round trip through the default chain -/

theorem innerRequests_print (lg : LogState) (l : customLog) :
    innerRequests (gslog.print lg l) =
      innerRequests lg ++ (if l.Typ == .INNER_REQUEST then [l] else []) := by
  simp only [innerRequests, gslog.print, List.filter_append]
  by_cases h : (l.Typ == logType.INNER_REQUEST) = true
  · simp [List.filter, h]
  · simp [List.filter, h]

theorem innerRequests_timeString (lg : LogState) :
    innerRequests (gslog.timeString lg).2 = innerRequests lg := rfl

theorem innerRequests_Error (lg : LogState) (m trace : String) :
    innerRequests (gslog.Error lg m trace) = innerRequests lg := by
  simp only [gslog.Error, gslog.logMessage, innerRequests_print, innerRequests_timeString]
  simp

theorem gslog_Request_inner (lg : LogState) (r : HttpRequest) (trace : String)
    (h : lg.excludeUrls.contains r.URL.Path = false) :
    ∃ out, gslog.Request lg .INNER_REQUEST r trace = .returns out ∧
      (∃ l, innerRequests out.1 = innerRequests lg ++ [l] ∧ l.Typ = .INNER_REQUEST ∧
        l.Headers = r.Header ∧ l.Method = r.Method ∧ l.Url = r.URL.Host ++ r.URL.Path) ∧
      out.1.excludeUrls = lg.excludeUrls ∧ out.2.URL = r.URL ∧ out.2.ctx = r.ctx := by
  unfold gslog.Request
  simp only [h, Bool.false_eq_true, if_false]
  cases hb : r.Body with
  | none =>
    refine ⟨_, rfl, ?_, rfl, rfl, rfl⟩
    constructor
    refine ⟨?_, ?_, ?_, ?_, ?_⟩
    · simp only [innerRequests_print, innerRequests_timeString]
      rfl
    all_goals rfl
  | some b =>
    cases b with
    | error err =>
      refine ⟨_, rfl, ?_, rfl, rfl, rfl⟩
      constructor
      refine ⟨?_, ?_, ?_, ?_, ?_⟩
      · simp only [innerRequests_print, innerRequests_timeString, innerRequests_Error]
        rfl
      all_goals rfl
    | ok buf =>
      refine ⟨_, rfl, ?_, rfl, rfl, rfl⟩
      constructor
      refine ⟨?_, ?_, ?_, ?_, ?_⟩
      · simp only [innerRequests_print, innerRequests_timeString]
        rfl
      all_goals rfl

theorem gslog_Response_inner (lg : LogState) (rs : HttpResponse) (trace : String) :
    ∃ out, gslog.Response lg rs trace = .returns out ∧
      innerRequests out.1 = innerRequests lg := by
  unfold gslog.Response
  by_cases h : lg.excludeUrls.contains rs.Request.URL.Path = true
  · simp only [h, if_true]
    exact ⟨_, rfl, rfl⟩
  · simp only [h, Bool.false_eq_true, if_false]
    cases hb : rs.Body with
    | none =>
      refine ⟨_, rfl, ?_⟩
      simp only [innerRequests_print, innerRequests_timeString]
      simp
    | some b =>
      cases b with
      | error err =>
        refine ⟨_, rfl, ?_⟩
        simp only [innerRequests_print, innerRequests_timeString, innerRequests_Error]
        simp
      | ok buf =>
        refine ⟨_, rfl, ?_⟩
        simp only [innerRequests_print, innerRequests_timeString]
        simp

theorem innerRequests_printed (lg : LogState) (lines : List customLog) :
    innerRequests (gslog.printed lg lines) =
      innerRequests lg ++ lines.filter (fun l => l.Typ == .INNER_REQUEST) := by
  simp only [innerRequests, gslog.printed, List.filter_append]

theorem HttpLogTransport_RoundTrip_inner (w : Wire) (base : HttpTransport) (r : HttpRequest)
    (s : ChainState) (h : s.logger.excludeUrls.contains r.URL.Path = false) :
    ∃ out, HttpLogTransport.RoundTrip w base r s = .returns out ∧
      ∃ l, innerRequests out.2.logger = innerRequests s.logger ++ [l] ∧
        l.Typ = .INNER_REQUEST ∧ l.Headers = r.Header ∧ l.Method = r.Method ∧
        l.Url = r.URL.Host ++ r.URL.Path := by
  obtain ⟨o1, h1, ⟨l, hl, hty, hh, hm, hu⟩, _, _, _⟩ :=
    gslog_Request_inner s.logger r (GetTraceID r.ctx) h
  unfold HttpLogTransport.RoundTrip
  rw [h1]
  simp only [Outcome.bind, HttpTransport.RoundTrip]
  cases hn : w.network base o1.2 with
  | error e => exact ⟨_, rfl, l, hl, hty, hh, hm, hu⟩
  | ok rs =>
    obtain ⟨o2, h2, hi⟩ :=
      gslog_Response_inner o1.1 { rs with Request := o1.2 } (GetTraceID o1.2.ctx)
    simp only [Except.map]
    rw [h2]
    exact ⟨_, rfl, l, hi.trans hl, hty, hh, hm, hu⟩

theorem String.append_left_cancel_eq (a b c : String) (h : a ++ b = a ++ c) : b = c := by
  have hd := congrArg String.data h
  simp only [String.data_append] at hd
  exact String.ext (List.append_cancel_left hd)

theorem DefaultTransport_RoundTrip_inner (w : Wire) (skipSSL : Bool) (p : Nat)
    (r : HttpRequest) (s : ChainState) (ts : TokenSource) (token : Token)
    (hts : s.sources[p]? = some ts)
    (herr : (GetToken ts (w.tokenEnv p)).err = none)
    (htok : (GetToken ts (w.tokenEnv p)).token = some token)
    (hpath : s.logger.excludeUrls.contains r.URL.Path = false) :
    ∃ out l, RoundTrip w (DefaultTransport skipSSL (some p)) r s = .returns out ∧
      innerRequests out.2.logger =
        innerRequests s.logger ++
          ((GetToken ts (w.tokenEnv p)).sent.flatMap (w.tokenLines p)).filter
            (fun x => x.Typ == .INNER_REQUEST) ++ [l] ∧
      l.Typ = .INNER_REQUEST ∧ l.Method = r.Method ∧ l.Url = r.URL.Host ++ r.URL.Path ∧
      Header.Values l.Headers "Authorization"
        = [token.TokenType ++ " " ++ token.AccessToken] := by
  have hchain : RoundTrip w (DefaultTransport skipSSL (some p)) r s =
      OauthTransport.RoundTrip w
        (TracingTransport.RoundTrip (HttpLogTransport.RoundTrip w ⟨skipSSL⟩)) p r s := rfl
  rw [hchain]
  simp only [OauthTransport.RoundTrip, hts, herr, htok, TracingTransport.RoundTrip]
  by_cases hid : (GetTraceID r.ctx != "") = true
  · simp only [hid, if_true]
    obtain ⟨out, hout, l, hl, hty, hh, hm, hu⟩ := HttpLogTransport_RoundTrip_inner w ⟨skipSSL⟩
      { r with Header := Header.Set (Header.Set r.Header "Authorization"
          (token.TokenType ++ " " ++ token.AccessToken)) TraceIDHeader (GetTraceID r.ctx) }
      { s with sources := s.sources.set p (GetToken ts (w.tokenEnv p)).ts,
               logger := gslog.printed s.logger
                 ((GetToken ts (w.tokenEnv p)).sent.flatMap (w.tokenLines p)) } hpath
    refine ⟨out, l, hout, ?_, hty, hm, hu, ?_⟩
    · rw [hl]
      show innerRequests (gslog.printed _ _) ++ [l] = _
      rw [innerRequests_printed]
    · rw [hh]
      show Header.Values (Header.Set _ TraceIDHeader _) "Authorization" = _
      rw [Header.Values_Set_other _ _ _ _ (by decide), Header.Values_Set_same]
  · simp only [hid, Bool.false_eq_true, if_false]
    obtain ⟨out, hout, l, hl, hty, hh, hm, hu⟩ := HttpLogTransport_RoundTrip_inner w ⟨skipSSL⟩
      { r with Header := (Header.Set r.Header "Authorization"
          (token.TokenType ++ " " ++ token.AccessToken)) }
      { s with sources := s.sources.set p (GetToken ts (w.tokenEnv p)).ts,
               logger := gslog.printed s.logger
                 ((GetToken ts (w.tokenEnv p)).sent.flatMap (w.tokenLines p)) } hpath
    refine ⟨out, l, hout, ?_, hty, hm, hu, ?_⟩
    · rw [hl]
      show innerRequests (gslog.printed _ _) ++ [l] = _
      rw [innerRequests_printed]
    · rw [hh]
      exact Header.Values_Set_same _ _ _

/-- C30: in the chain that `DefaultTransport` builds for a token source, the
auth layer sets the `Authorization` header before the logging transport runs.
For a request whose URL path is not excluded from the log and a token obtained
from `GetToken`, whether cached or renewed during the call, the round trip
returns, and the `INNER_REQUEST` records of the log afterwards are those there
before, then those printed for the requests `GetToken` sent to the token
endpoint (none when the token was cached), then one record for the request
itself: it carries the method and the URL of the request, and its headers hold
`TokenType + " " + AccessToken` under `Authorization`.  Two runs on the same
request and the same logger whose tokens have the same type and different
access tokens print different records for the request, so their logs differ. -/
theorem DefaultTransport_logs_authorization (w1 w2 : Wire) (skipSSL : Bool) (p : Nat)
    (r : HttpRequest) (s1 s2 : ChainState) (ts1 ts2 : TokenSource) (tok1 tok2 : Token)
    (hts1 : s1.sources[p]? = some ts1) (hts2 : s2.sources[p]? = some ts2)
    (herr1 : (GetToken ts1 (w1.tokenEnv p)).err = none)
    (herr2 : (GetToken ts2 (w2.tokenEnv p)).err = none)
    (htok1 : (GetToken ts1 (w1.tokenEnv p)).token = some tok1)
    (htok2 : (GetToken ts2 (w2.tokenEnv p)).token = some tok2)
    (hpath : s1.logger.excludeUrls.contains r.URL.Path = false)
    (hlog : s2.logger = s1.logger)
    (htype : tok1.TokenType = tok2.TokenType)
    (hacc : tok1.AccessToken ≠ tok2.AccessToken) :
    ∃ out1 l1 out2 l2,
      RoundTrip w1 (DefaultTransport skipSSL (some p)) r s1 = .returns out1 ∧
      innerRequests out1.2.logger =
        innerRequests s1.logger ++
          ((GetToken ts1 (w1.tokenEnv p)).sent.flatMap (w1.tokenLines p)).filter
            (fun x => x.Typ == .INNER_REQUEST) ++ [l1] ∧
      l1.Typ = .INNER_REQUEST ∧ l1.Method = r.Method ∧ l1.Url = r.URL.Host ++ r.URL.Path ∧
      Header.Values l1.Headers "Authorization"
        = [tok1.TokenType ++ " " ++ tok1.AccessToken] ∧
      RoundTrip w2 (DefaultTransport skipSSL (some p)) r s2 = .returns out2 ∧
      innerRequests out2.2.logger =
        innerRequests s1.logger ++
          ((GetToken ts2 (w2.tokenEnv p)).sent.flatMap (w2.tokenLines p)).filter
            (fun x => x.Typ == .INNER_REQUEST) ++ [l2] ∧
      l2.Typ = .INNER_REQUEST ∧ l2.Method = r.Method ∧ l2.Url = r.URL.Host ++ r.URL.Path ∧
      Header.Values l2.Headers "Authorization"
        = [tok2.TokenType ++ " " ++ tok2.AccessToken] ∧
      l1 ≠ l2 ∧ out1.2.logger.output ≠ out2.2.logger.output := by
  obtain ⟨out1, l1, hrun1, hin1, hty1, hm1, hu1, hauth1⟩ :=
    DefaultTransport_RoundTrip_inner w1 skipSSL p r s1 ts1 tok1 hts1 herr1 htok1 hpath
  obtain ⟨out2, l2, hrun2, hin2, hty2, hm2, hu2, hauth2⟩ :=
    DefaultTransport_RoundTrip_inner w2 skipSSL p r s2 ts2 tok2 hts2 herr2 htok2
      (by rw [hlog]; exact hpath)
  rw [hlog] at hin2
  have hne : l1 ≠ l2 := by
    intro h
    rw [h, hauth2, htype] at hauth1
    have hs := List.head_eq_of_cons_eq hauth1
    have hs2 := String.append_left_cancel_eq (tok2.TokenType ++ " ") _ _ hs
    exact hacc hs2.symm
  refine ⟨out1, l1, out2, l2, hrun1, hin1, hty1, hm1, hu1, hauth1, hrun2, hin2, hty2, hm2,
    hu2, hauth2, hne, ?_⟩
  intro hout
  have hfil : innerRequests out1.2.logger = innerRequests out2.2.logger := by
    simp only [innerRequests, hout]
  rw [hin1, hin2] at hfil
  have hl := (List.append_inj' hfil rfl).2
  exact hne (List.head_eq_of_cons_eq hl)

/-- C30 on the request of the examples through the default chain.  First with
no cached token: `GetToken` renews, once against an endpoint that grants `abc`
and once against one that grants `xyz`; the log of the first run holds the
request to the token endpoint and its response, then the request with both the
trace id and the authorization, then the response.  Then with the cached token
`Bearer abc`, where the record of the request is the only one of its type. -/
theorem DefaultTransport_logs_authorization_witness :
    ({ sources := [exampleSource] } : ChainState).sources[0]? = some exampleSource ∧
      (GetToken exampleSource (exampleWire.tokenEnv 0)).sent = [renewRequest exampleSource] ∧
      (GetToken exampleSource (exampleWire.tokenEnv 0)).token
        = some ⟨"Bearer", "abc", 0, 3600000000000, 0⟩ ∧
      (GetToken exampleSource (otherWire.tokenEnv 0)).token
        = some ⟨"Bearer", "xyz", 0, 3600000000000, 0⟩ ∧
      (∃ out1 l1 out2 l2,
        RoundTrip exampleWire (DefaultTransport false (some 0)) exampleRequest
            { sources := [exampleSource] } = .returns out1 ∧
          innerRequests out1.2.logger =
            innerRequests {} ++ [tokenRequestLine (renewRequest exampleSource)] ++ [l1] ∧
          l1.Typ = .INNER_REQUEST ∧ l1.Method = "GET" ∧ l1.Url = "mock.example" ++ "/users" ∧
          Header.Values l1.Headers "Authorization" = ["Bearer" ++ " " ++ "abc"] ∧
          RoundTrip otherWire (DefaultTransport false (some 0)) exampleRequest
            { sources := [exampleSource] } = .returns out2 ∧
          innerRequests out2.2.logger =
            innerRequests {} ++ [tokenRequestLine (renewRequest exampleSource)] ++ [l2] ∧
          l2.Typ = .INNER_REQUEST ∧ l2.Method = "GET" ∧ l2.Url = "mock.example" ++ "/users" ∧
          Header.Values l2.Headers "Authorization" = ["Bearer" ++ " " ++ "xyz"] ∧
          l1 ≠ l2 ∧ out1.2.logger.output ≠ out2.2.logger.output) ∧
      (match RoundTrip exampleWire (DefaultTransport false (some 0)) exampleRequest
          { sources := [exampleSource] } with
        | .returns out => out.2.logger.output
        | .panics _ => []) =
        [{ Time := "", TraceID := "trace-1", Level := "INFO", Typ := .INNER_REQUEST,
           Method := "POST", Url := "auth.example/token",
           Headers := [("X-Trace-Id", ["trace-1"]),
             ("Content-Type", ["application/x-www-form-urlencoded"])],
           Body := "client_id=id&client_secret=secret&grant_type=client_credentials&scope=read" },
         { Time := "", TraceID := "trace-1", Level := "INFO", Typ := .INNER_RESPONSE,
           Method := "POST", Url := "auth.example/token", Status := 200,
           Body := "\x7b\"token_type\":\"Bearer\",\"access_token\":\"abc\",\"expires_in\":3600\x7d" },
         { Time := "", TraceID := "trace-1", Level := "INFO", Typ := .INNER_REQUEST,
           Method := "GET", Url := "mock.example/users",
           Headers := [("X-Trace-Id", ["trace-1"]), ("Authorization", ["Bearer abc"])] },
         { Time := "", TraceID := "trace-1", Level := "INFO", Typ := .INNER_RESPONSE,
           Method := "GET", Url := "mock.example/users", Status := 200,
           Body := "\x7b\"id\":1,\"name\":\"Ann\"\x7d" }] ∧
      (match RoundTrip exampleWire (DefaultTransport false (some 0)) exampleRequest
          { sources := [cachedSource] } with
        | .returns out => out.2.logger.output
        | .panics _ => []) =
        [{ Time := "", TraceID := "trace-1", Level := "INFO", Typ := .INNER_REQUEST,
           Method := "GET", Url := "mock.example/users",
           Headers := [("X-Trace-Id", ["trace-1"]), ("Authorization", ["Bearer abc"])] },
         { Time := "", TraceID := "trace-1", Level := "INFO", Typ := .INNER_RESPONSE,
           Method := "GET", Url := "mock.example/users", Status := 200,
           Body := "\x7b\"id\":1,\"name\":\"Ann\"\x7d" }] :=
  ⟨rfl, rfl, rfl, rfl,
    DefaultTransport_logs_authorization exampleWire otherWire false 0 exampleRequest
      { sources := [exampleSource] } { sources := [exampleSource] } exampleSource
      exampleSource ⟨"Bearer", "abc", 0, 3600000000000, 0⟩
      ⟨"Bearer", "xyz", 0, 3600000000000, 0⟩ rfl rfl rfl rfl
      rfl rfl rfl rfl rfl (by decide),
    rfl, rfl⟩


end Goserver
